import Mathlib

/-!
Formal model of the matrimonial-ETL normalisation engine.

This file gives a shallow embedding, in Lean 4, of the normalisation and
master-data reconciliation layer of the pipeline (the Python modules
`masters.py`, `matcher.py`, `lookups.py`, `helpers.py`, `field_validators.py`,
`gender_detection.py`, `geocoding.py`, `unstructured_extractor.py` and
`normalisation.py`), together with theorems settling the specified behavioural
claims about that layer.

Modelling conventions:
* Python strings are modelled as Lean `String` / `List Char`; only ASCII data
  is relevant to the engine, so `Char.toLower` etc. coincide with Python.
* Python floats are modelled as exact rationals (the unreduced-fraction type
  `Q` below, interpreted into `ℚ` by `Q.val` for the statements of
  theorems).  The only float computations performed by
  the code are similarity ratios (dyadic-free small rationals) and
  `round(x * 2.54)` / `round(x / 2.54)` conversions; over the argument ranges
  accepted by the code these agree exactly with rational arithmetic combined
  with round-half-to-even (checked exhaustively against CPython for the whole
  accepted range).
* `pandas` DataFrames are modelled by `DFrame` (a column-name list plus rows of
  optional string cells; a missing cell models `NaN`).
* External data files are modelled by an environment `Env` mapping each
  logical master key to an optional table (`none` models the
  `FileNotFoundError` path).  The `dateutil` date parser (an external library)
  is likewise a parameter of the environment.
* The optional third-party scorer `rapidfuzz` is modelled as not installed, so
  `matcher.match_one` takes its bundled fallback branch, which scores with the
  standard-library `difflib.SequenceMatcher`; that matcher is embedded in full
  below (including the autojunk rule).  `fuzzywuzzy` is a hard dependency of
  `geocoding.py` (imported at module top level), so it is modelled as
  installed; its pure-Python scorers (which are themselves built on
  `difflib.SequenceMatcher`) are embedded in full as well.
-/

set_option maxRecDepth 10000

namespace ETL

/-! ## Python string primitives -/

/-- Python whitespace characters (ASCII fragment, which is all the engine
meets): used by `str.strip()` and `str.split()`. -/
def pyIsSpace (c : Char) : Bool :=
  c = ' ' || c = '\t' || c = '\n' || c = '\x0d' || c = '\x0b' || c = '\x0c'

/-- Python `str.strip()` on a list of characters. -/
def pyStripL (s : List Char) : List Char :=
  ((s.dropWhile pyIsSpace).reverse.dropWhile pyIsSpace).reverse

/-- Python `str.strip()`. -/
def pyStrip (s : String) : String :=
  ⟨pyStripL s.toList⟩

/-- Python `str.lower()` (ASCII). -/
def pyLower (s : String) : String :=
  ⟨s.toList.map Char.toLower⟩

/-- Helper for `pySplitWsL`: accumulates the current word (reversed). -/
def splitWsAux : List Char → List Char → List (List Char)
  | [], cur => if cur = [] then [] else [cur.reverse]
  | c :: cs, cur =>
    if pyIsSpace c then
      if cur = [] then splitWsAux cs [] else cur.reverse :: splitWsAux cs []
    else splitWsAux cs (c :: cur)

/-- Python `str.split()` with no argument: split on whitespace runs, no empty
parts. -/
def pySplitWsL (s : List Char) : List (List Char) :=
  splitWsAux s []

/-- Python `str.split()` with no argument, on `String`. -/
def pySplitWs (s : String) : List String :=
  (pySplitWsL s.toList).map (fun l => ⟨l⟩)

/-- Python `" ".join(parts)`. -/
def pyJoinSpace (parts : List String) : String :=
  String.intercalate " " parts

/-- Python `sep.join(parts)`. -/
def pyJoin (sep : String) (parts : List String) : String :=
  String.intercalate sep parts

/-- Python `str.split(sep)` for a one-character separator: keeps empty parts. -/
def pySplitChar (s : String) (sep : Char) : List String :=
  (s.toList.splitOn sep).map (fun l => ⟨l⟩)

/-- Python `"c" in s` for a single character. -/
def pyContainsChar (s : String) (c : Char) : Bool :=
  s.toList.contains c

/-- Python substring containment `sub in s`. -/
def pySubstring (sub s : String) : Bool :=
  decide (sub.toList <:+: s.toList)

/-- Python `str.isdigit()` for a single ASCII character. -/
def pyIsDigit (c : Char) : Bool :=
  '0' ≤ c && c ≤ '9'

/-- Python `str.capitalize()`: first character upper-cased, the rest
lower-cased. -/
def pyCapitalize (s : String) : String :=
  match s.toList with
  | [] => ""
  | c :: cs => ⟨c.toUpper :: cs.map Char.toLower⟩

/-- An exact rational represented as an unreduced fraction with a positive
denominator (every construction below keeps `d` positive).  Python floats
are modelled by these: the similarity scores and the few `round(...)`
conversions the engine performs are exactly representable, see the header.
(Mathlib's `ℚ` normalises through `Nat.gcd`, which the kernel cannot reduce,
so it is unusable for the concrete evaluations; `Q.val` interprets a
fraction as a `ℚ` for the statements of theorems.) -/
structure Q where
  n : ℤ
  d : ℤ
deriving DecidableEq, Repr

/-- A whole number as a fraction. -/
def Q.ofInt (i : ℤ) : Q := ⟨i, 1⟩

/-- Value of a fraction (for specification statements). -/
def Q.val (q : Q) : ℚ := (q.n : ℚ) / (q.d : ℚ)

/-- Strict comparison by cross-multiplication (denominators are
positive). -/
def Q.blt (a b : Q) : Bool := a.n * b.d < b.n * a.d

/-- Non-strict comparison by cross-multiplication. -/
def Q.ble (a b : Q) : Bool := a.n * b.d ≤ b.n * a.d

/-- Value equality by cross-multiplication. -/
def Q.beq (a b : Q) : Bool := a.n * b.d = b.n * a.d

/-- Fraction multiplication. -/
def Q.mul (a b : Q) : Q := ⟨a.n * b.n, a.d * b.d⟩

/-- Larger of two fractions (Python `max`: keeps the first of equals). -/
def Q.max2 (a b : Q) : Q := if Q.blt a b then b else a

instance (n : Nat) : OfNat Q n := ⟨Q.ofInt n⟩

/-- Python round-half-to-even (`round`) on an exact rational with positive
denominator, as used through `utils.intr` in fuzzywuzzy and `round()` in the
height conversions. -/
def pyRound (q : Q) : ℤ :=
  let fl := Int.fdiv q.n q.d
  let rem := q.n - q.d * fl
  if q.d < 2 * rem then fl + 1
  else if 2 * rem < q.d then fl
  else if fl % 2 = 0 then fl else fl + 1

/-! ## `difflib.SequenceMatcher` (CPython standard library)

The repository's `matcher.py` falls back to
`difflib.SequenceMatcher(None, a, b).ratio()` for scoring; `fuzzywuzzy`'s
pure-Python scorers are built on the same class.  The embedding below follows
CPython's `difflib.py` with `isjunk = None`: `__chain_b` builds `b2j` (chains
of positions per element, ascending) and, for `len(b) >= 200`, deletes
"popular" elements (more than `len(b) // 100 + 1` occurrences); since
`isjunk` is `None`, the junk set `bjunk` is empty, so the two junk-extension
loops of `find_longest_match` never fire and the two non-junk extension loops
extend over arbitrary equal elements. -/

/-- Positions of character `c` in `b`, ascending: the `b2j` chains before the
autojunk deletion. -/
def charIdxs (b : List Char) (c : Char) : List Nat :=
  (List.range b.length).filter (fun j => b.get? j = some c)

/-- The autojunk rule of `SequenceMatcher.__chain_b`. -/
def isPopular (b : List Char) (c : Char) : Bool :=
  decide (200 ≤ b.length) && decide (b.length / 100 + 1 < (charIdxs b c).length)

/-- The `b2j` mapping after autojunk deletion. -/
def b2jOf (b : List Char) (c : Char) : List Nat :=
  if isPopular b c then [] else charIdxs b c

/-- Element comparison `a[i] == b[j]` with bounds (indices used by CPython are
always in range; out-of-range compares as false). -/
def chEq (a b : List Char) (i j : Nat) : Bool :=
  match a.get? i, b.get? j with
  | some x, some y => x == y
  | _, _ => false

/-- The inner loop of `find_longest_match` over the chain `b2j[a[i]]`: `j < blo`
is `continue`, `j >= bhi` is `break` (the chains are ascending).  `prev` is the
previous row's `j2len` (default 0), `acc` the row's `newj2len` being built,
and the triple is `(besti, bestj, bestsize)`. -/
def flmScan (prev : Nat → Nat) (i blo bhi : Nat) :
    List Nat → (Nat → Nat) → Nat × Nat × Nat → (Nat → Nat) × (Nat × Nat × Nat)
  | [], acc, best => (acc, best)
  | j :: js, acc, best =>
    if j < blo then flmScan prev i blo bhi js acc best
    else if bhi ≤ j then (acc, best)
    else
      let k := (if j = 0 then 0 else prev (j - 1)) + 1
      let acc' := fun j' => if j' = j then k else acc j'
      let best' := if best.2.2 < k then (i + 1 - k, j + 1 - k, k) else best
      flmScan prev i blo bhi js acc' best'

/-- The outer row loop of `find_longest_match` over `i in range(alo, ahi)`. -/
def flmRows (a b : List Char) (blo bhi : Nat) :
    List Nat → (Nat → Nat) × (Nat × Nat × Nat) → (Nat → Nat) × (Nat × Nat × Nat)
  | [], st => st
  | i :: is, st =>
    let c := a.getD i ' '
    let st' := flmScan st.1 i blo bhi (b2jOf b c) (fun _ => 0) st.2
    flmRows a b blo bhi is st'

/-- The first (backward) extension loop: extend over equal elements (`bjunk`
is empty since `isjunk` is `None`).  Structural recursion on `besti`, which
decreases by one per iteration (the loop guard `besti > alo` keeps it
positive). -/
def extBack (a b : List Char) (alo blo : Nat) : Nat → Nat → Nat → Nat × Nat × Nat
  | 0, bj, bs => (0, bj, bs)
  | bi + 1, bj, bs =>
    if alo < bi + 1 ∧ blo < bj ∧ chEq a b bi (bj - 1) then
      extBack a b alo blo bi (bj - 1) (bs + 1)
    else (bi + 1, bj, bs)

/-- The second (forward) extension loop, with a step budget: each iteration
needs `besti + bestsize < ahi` and grows `bestsize`, so a budget of
`ahi + 1 - (besti + bestsize)` steps can never be exhausted. -/
def extFwdF (a b : List Char) (ahi bhi : Nat) : Nat → Nat → Nat → Nat → Nat × Nat × Nat
  | 0, bi, bj, bs => (bi, bj, bs)
  | fuel + 1, bi, bj, bs =>
    if bi + bs < ahi ∧ bj + bs < bhi ∧ chEq a b (bi + bs) (bj + bs) then
      extFwdF a b ahi bhi fuel bi bj (bs + 1)
    else (bi, bj, bs)

/-- The forward extension loop with its (never-exhausted) budget filled
in. -/
def extFwd (a b : List Char) (ahi bhi : Nat) (bi bj bs : Nat) : Nat × Nat × Nat :=
  extFwdF a b ahi bhi (ahi + 1 - (bi + bs)) bi bj bs

/-- `SequenceMatcher.find_longest_match(alo, ahi, blo, bhi)` with
`isjunk = None`: dynamic programming over the rows, then the two extension
loops (the junk-extension loops are vacuous, see above). -/
def findLongestMatch (a b : List Char) (alo ahi blo bhi : Nat) : Nat × Nat × Nat :=
  let st := flmRows a b blo bhi (List.range' alo (ahi - alo)) (fun _ => 0, (alo, blo, 0))
  let r1 := extBack a b alo blo st.2.1 st.2.2.1 st.2.2.2
  extFwd a b ahi bhi r1.1 r1.2.1 r1.2.2

/-- Recursive block collection of `get_matching_blocks` (CPython uses an
explicit queue and then sorts; the recursion below yields the same blocks in
sorted order).  The fuel strictly bounds the recursion depth: every recursive
call strictly shrinks `(ahi - alo) + (bhi - blo)`, so fuel
`(ahi - alo) + (bhi - blo) + 1` can never be exhausted. -/
def mbCore (a b : List Char) : Nat → Nat → Nat → Nat → Nat → List (Nat × Nat × Nat)
  | 0, _, _, _, _ => []
  | fuel + 1, alo, ahi, blo, bhi =>
    let m := findLongestMatch a b alo ahi blo bhi
    if m.2.2 = 0 then []
    else
      mbCore a b fuel alo m.1 blo m.2.1 ++
        m :: mbCore a b fuel (m.1 + m.2.2) ahi (m.2.1 + m.2.2) bhi

/-- `SequenceMatcher.get_matching_blocks()` including the terminating sentinel
`(len(a), len(b), 0)`.  (CPython also merges adjacent blocks; merging changes
neither the total matched size nor, downstream, the windows examined by
`fuzzywuzzy.partial_ratio`, since adjacent blocks share the same diagonal
offset `j - i`.) -/
def getMatchingBlocks (a b : List Char) : List (Nat × Nat × Nat) :=
  mbCore a b (a.length + b.length + 1) 0 a.length 0 b.length ++
    [(a.length, b.length, 0)]

/-- `SequenceMatcher.ratio()`: `2.0 * M / T` (and `1.0` when `T = 0`, per
`_calculate_ratio`). -/
def ratioQ (a b : List Char) : Q :=
  let m := ((getMatchingBlocks a b).map (fun t => t.2.2)).sum
  let t := a.length + b.length
  if t = 0 then Q.ofInt 1 else ⟨2 * (m : ℤ), (t : ℤ)⟩

/-- `matcher._difflib_score(a, b)`: `SequenceMatcher(None, a, b).ratio() * 100.0`. -/
def difflibScore (a b : List Char) : Q :=
  Q.mul (ratioQ a b) (Q.ofInt 100)

/-! ## `matcher.match_one` (difflib branch)

`match_one` prefers `rapidfuzz` when it is installed; that optional C library
is modelled as absent (see the header), so the embedded branch is the
module's own fallback loop over `_difflib_score(q.lower(), c.lower())`,
updating the best candidate on a strictly larger score.  The `details`
dictionary is a logging artefact ignored by every caller and is not
modelled. -/

/-- The candidate loop of `match_one` (difflib branch). -/
def matchOneLoop (q : List Char) : List String → Option String × Q → Option String × Q
  | [], st => st
  | c :: cs, st =>
    let s := difflibScore (q.map Char.toLower) (c.toList.map Char.toLower)
    matchOneLoop q cs (if Q.blt st.2 s then (some c, s) else st)

/-- `matcher.match_one(query, choices, scorer, threshold)` (difflib branch):
returns `(match, best_score)`; the match is `none` when the query strips to
empty or no score reaches the threshold. -/
def matchOne (query : String) (choices : List String) (threshold : Q) :
    Option String × Q :=
  let q := pyStrip query
  if q = "" then (none, Q.ofInt 0)
  else
    let r := matchOneLoop q.toList choices (none, Q.ofInt 0)
    if Q.ble threshold r.2 then r else (none, r.2)

/-! ## `fuzzywuzzy` (pure-Python fallback, v0.18)

`geocoding.py` imports `fuzzywuzzy` unconditionally, so the library is
present at runtime; without `python-Levenshtein` it computes its scores with
`difflib.SequenceMatcher`, embedded above.  Scores are integers obtained by
`utils.intr = int(round(...))` (round-half-to-even).  The rounding is applied
to a float here modelled as an exact rational; an exhaustive comparison
against CPython shows the two can differ only when the combined length of the
compared strings reaches 80, far beyond every string any proof below
evaluates, and no theorem depends on a fuzzywuzzy score of longer strings. -/

/-- Python word characters (`\w`, ASCII fragment): letters, digits and
underscore. -/
def isWordChar (c : Char) : Bool :=
  ('a' ≤ c && c ≤ 'z') || ('A' ≤ c && c ≤ 'Z') || pyIsDigit c || c = '_'

/-- `fuzzywuzzy.utils.full_process(s, force_ascii=True)`: drop non-ASCII,
replace each non-word character by a blank, lower-case, strip. -/
def fullProcess (s : String) : String :=
  pyStrip (pyLower ⟨(s.toList.filter (fun c => c.toNat < 128)).map
    (fun c => if isWordChar c then c else ' ')⟩)

/-- `fuzzywuzzy.fuzz.ratio`: the `utils.check_empty_string` decorator
(score `0` when either argument is empty), then
`utils.intr(100 * SequenceMatcher.ratio())`. -/
def fwRatioInt (s1 s2 : String) : ℤ :=
  if s1.length = 0 ∨ s2.length = 0 then 0
  else pyRound (Q.mul (Q.ofInt 100) (ratioQ s1.toList s2.toList))

/-- One window comparison of `fuzzywuzzy.fuzz.partial_ratio`: the block's
aligned window of the longer string against the whole shorter string. -/
def prWindow (shorter longer : List Char) (blk : Nat × Nat × Nat) : Q :=
  let longStart := blk.2.1 - blk.1
  ratioQ shorter ((longer.drop longStart).take shorter.length)

/-- `fuzzywuzzy.fuzz.partial_ratio(s1, s2)`: the `utils.check_empty_string`
decorator (score `0` when either argument is empty — in particular an empty
sorted token intersection never scores); then each matching block of
shorter-vs-longer induces an aligned window; any window ratio above `0.995`
short-circuits to 100, otherwise the maximum window ratio is rounded.
(`block[1] - block[0] if > 0 else 0` is Nat subtraction.) -/
def partialRatioInt (s1 s2 : String) : ℤ :=
  if s1.length = 0 ∨ s2.length = 0 then 0
  else
    let shorter := if s1.length ≤ s2.length then s1.toList else s2.toList
    let longer := if s1.length ≤ s2.length then s2.toList else s1.toList
    let blocks := getMatchingBlocks shorter longer
    let scores := blocks.map (prWindow shorter longer)
    if scores.any (fun r => Q.blt ⟨199, 200⟩ r) then 100
    else pyRound (Q.mul (Q.ofInt 100) (scores.foldl Q.max2 (Q.ofInt 0)))

/-- Stable insertion into a sorted list: a new element goes after existing
ties (`lt` is the strict order), matching the stability of Python's
sorts. -/
def insSorted {α : Type} (lt : α → α → Bool) (x : α) : List α → List α
  | [] => [x]
  | y :: ys => if lt x y then x :: y :: ys else y :: insSorted lt x ys

/-- Stable sort by a strict order. -/
def stableSortBy {α : Type} (lt : α → α → Bool) (l : List α) : List α :=
  l.foldl (fun acc x => insSorted lt x acc) []

/-- Code-point lexicographic order on character lists (Python `<` on
`str`). -/
def charsLt : List Char → List Char → Bool
  | [], [] => false
  | [], _ :: _ => true
  | _ :: _, [] => false
  | a :: as, b :: bs =>
    if a.toNat < b.toNat then true
    else if b.toNat < a.toNat then false
    else charsLt as bs

/-- Sort a list of strings as Python `sorted` does (code-point
lexicographic). -/
def pySorted (l : List String) : List String :=
  stableSortBy (fun a b => charsLt a.toList b.toList) l

/-- `fuzzywuzzy.fuzz._process_and_sort(s, full_process=...)`. -/
def processAndSort (s : String) (doProcess : Bool) : String :=
  let ts := if doProcess then fullProcess s else s
  pyStrip (pyJoinSpace (pySorted (pySplitWs ts)))

/-- `fuzzywuzzy.fuzz.token_sort_ratio` (`partial=False`). -/
def tokenSortRatioInt (s1 s2 : String) (doProcess : Bool) : ℤ :=
  fwRatioInt (processAndSort s1 doProcess) (processAndSort s2 doProcess)

/-- `fuzzywuzzy.fuzz.partial_token_sort_ratio` (`partial=True`). -/
def partialTokenSortRatioInt (s1 s2 : String) (doProcess : Bool) : ℤ :=
  partialRatioInt (processAndSort s1 doProcess) (processAndSort s2 doProcess)

/-- Deduplicate while keeping first occurrences (set-then-`sorted` semantics
only ever consumes these through `pySorted`, so insertion order is
irrelevant). -/
def dedup (l : List String) : List String :=
  l.foldl (fun acc s => if acc.contains s then acc else acc ++ [s]) []

/-- The three strings compared by `fuzzywuzzy.fuzz._token_set`. -/
def tokenSetParts (p1 p2 : String) : String × String × String :=
  let tokens1 := dedup (pySplitWs p1)
  let tokens2 := dedup (pySplitWs p2)
  let inter := tokens1.filter (fun t => tokens2.contains t)
  let d12 := tokens1.filter (fun t => ¬ tokens2.contains t)
  let d21 := tokens2.filter (fun t => ¬ tokens1.contains t)
  let sortedSect := pyJoinSpace (pySorted inter)
  let sorted12 := pyJoinSpace (pySorted d12)
  let sorted21 := pyJoinSpace (pySorted d21)
  (pyStrip sortedSect,
   pyStrip (sortedSect ++ " " ++ sorted12),
   pyStrip (sortedSect ++ " " ++ sorted21))

/-- `fuzzywuzzy.fuzz._token_set(s1, s2, partial=p, full_process=fp)`. -/
def tokenSetInt (s1 s2 : String) (p doProcess : Bool) : ℤ :=
  let p1 := if doProcess then fullProcess s1 else s1
  let p2 := if doProcess then fullProcess s2 else s2
  if p1.length = 0 || p2.length = 0 then 0
  else
    let parts := tokenSetParts p1 p2
    let f := if p then partialRatioInt else fwRatioInt
    max (f parts.1 parts.2.1) (max (f parts.1 parts.2.2) (f parts.2.1 parts.2.2))

/-- `fuzzywuzzy.fuzz.token_set_ratio(s1, s2)` (full processing, non-partial),
as used by `geocoding.py` and `unstructured_extractor.py`. -/
def tokenSetRatioInt (s1 s2 : String) : ℤ :=
  tokenSetInt s1 s2 false true

/-- `fuzzywuzzy.fuzz.WRatio(s1, s2)`: weighted combination of the plain,
partial and token scorers with the scales of the library source. -/
def wRatioInt (s1 s2 : String) : ℤ :=
  let p1 := fullProcess s1
  let p2 := fullProcess s2
  if p1.length = 0 || p2.length = 0 then 0
  else
    let base := Q.ofInt (fwRatioInt p1 p2)
    let lenRatio : Q := ⟨(max p1.length p2.length : ℤ), (min p1.length p2.length : ℤ)⟩
    let tryPartial := Q.ble ⟨3, 2⟩ lenRatio
    let partialScale : Q := if Q.blt (Q.ofInt 8) lenRatio then ⟨3, 5⟩ else ⟨9, 10⟩
    let unbaseScale : Q := ⟨19, 20⟩
    if tryPartial then
      let part := Q.mul (Q.ofInt (partialRatioInt p1 p2)) partialScale
      let ptsor := Q.mul (Q.mul (Q.ofInt (partialTokenSortRatioInt p1 p2 false)) unbaseScale) partialScale
      let ptser := Q.mul (Q.mul (Q.ofInt (tokenSetInt p1 p2 true false)) unbaseScale) partialScale
      pyRound (Q.max2 base (Q.max2 part (Q.max2 ptsor ptser)))
    else
      let tsor := Q.mul (Q.ofInt (tokenSortRatioInt p1 p2 false)) unbaseScale
      let tser := Q.mul (Q.ofInt (tokenSetInt p1 p2 false false)) unbaseScale
      pyRound (Q.max2 base (Q.max2 tsor tser))

/-- `fuzzywuzzy.process.extractOne(query, choices)` with the default scorer
`WRatio`, default processor and `score_cutoff=0`: the query is processed once
up front (idempotently re-processed inside `WRatio`), the choices are passed
raw because `WRatio` processes internally; the first choice attaining the
maximal score wins (`max` keeps the earliest maximum). -/
def fwExtractOne (query : String) (choices : List String) : Option (String × ℤ) :=
  let pq := fullProcess query
  choices.foldl
    (fun best c =>
      let s := wRatioInt pq c
      match best with
      | none => some (c, s)
      | some b => if b.2 < s then some (c, s) else best)
    none

/-! ## Data model: DataFrames, master files, environment

A pandas DataFrame is modelled as a list of column names plus rows of
optional string cells (`none` models a `NaN` cell).  The reference files live
outside the repository; the environment maps each logical master key of
`masters.DEFAULT_MASTER_FILES` to an optional table, `none` modelling the
`FileNotFoundError` branch of `masters._find_file`, and also carries the two
remaining external effects reachable from `normalize_profile`: the `dateutil`
date parser and `date.today().year`. -/

/-- A pandas DataFrame: column names and rows of optional string cells. -/
structure DFrame where
  cols : List String
  rows : List (List (Option String))
deriving DecidableEq, Repr

/-- Position of column `c` in `df`, if present. -/
def DFrame.colIdx (df : DFrame) (c : String) : Option Nat :=
  df.cols.indexOf? c

/-- The cell of row `r` in column `c` of `df` (`none` both for a `NaN` cell
and for a missing column — callers distinguish the two where the Python code
does). -/
def DFrame.cell (df : DFrame) (r : List (Option String)) (c : String) : Option String :=
  match df.colIdx c with
  | none => none
  | some i => (r.get? i).join

/-- The non-null values of column `c` in order (`df[c].dropna()`). -/
def DFrame.colDropNa (df : DFrame) (c : String) : List String :=
  match df.colIdx c with
  | none => []
  | some i => df.rows.filterMap (fun r => (r.get? i).join)

/-- Python `str(cell)` of a column under `astype(str)`: a `NaN` cell becomes
the string `"nan"`. -/
def cellStr (c : Option String) : String :=
  match c with
  | some s => s
  | none => "nan"

/-- The column values of `c` under `astype(str)`, aligned with the rows. -/
def DFrame.colAsStr (df : DFrame) (c : String) : List String :=
  match df.colIdx c with
  | none => []
  | some i => df.rows.map (fun r => cellStr (r.get? i).join)

/-- `masters.DEFAULT_MASTER_FILES`' logical keys. -/
def masterKeys : List String :=
  ["height", "occupation", "qualification", "caste", "country_state",
   "biodata_output", "marital_status", "manglik"]

/-- A primitive raw-profile / canonical-profile value: Python strings and
integers are the only primitives the normalisation layer produces or
inspects. -/
inductive PyVal where
  | s (v : String)
  | i (n : ℤ)
deriving DecidableEq, Repr

/-- Python `str(value)` on a primitive. -/
def PyVal.str : PyVal → String
  | .s v => v
  | .i n => toString n

/-- The external world of `normalize_profile`: reference tables (by logical
master key), the `dateutil` parser and the current year. -/
structure Env where
  files : String → Option DFrame
  parseDate : String → Option String
  currentYear : ℤ

/-- The process-wide master cache `masters._CACHE`, threaded explicitly. -/
def Cache := List (String × DFrame)

instance : DecidableEq Cache :=
  inferInstanceAs (DecidableEq (List (String × DFrame)))

instance : Repr Cache :=
  inferInstanceAs (Repr (List (String × DFrame)))

/-- Dictionary lookup (first binding; a Python dict holds each key once). -/
def dGet {α : Type} (l : List (String × α)) (k : String) : Option α :=
  match l with
  | [] => none
  | p :: t => if p.1 = k then some p.2 else dGet t k

/-- Python dict assignment: replace the binding in place, else append. -/
def dSet {α : Type} (l : List (String × α)) (k : String) (v : α) :
    List (String × α) :=
  match l with
  | [] => [(k, v)]
  | p :: t => if p.1 = k then (k, v) :: t else p :: dSet t k v

/-- `masters.load_master(key)`: return the cached table if present; otherwise
locate and read the backing file, caching the result.  An unknown key
(`KeyError`) and a missing file (`FileNotFoundError`) are both modelled as
`none` — every caller wraps the call in `try/except`. -/
def loadMaster (cache : Cache) (env : Env) (key : String) : Option DFrame × Cache :=
  match dGet cache key with
  | some df => (some df, cache)
  | none =>
    if masterKeys.contains key then
      match env.files key with
      | some df => (some df, dSet cache key df)
      | none => (none, cache)
    else (none, cache)

/-- `masters.get_master_values(key, column)`: values of the requested column
(first column when `column` is `none`), nulls dropped.  A missing column
raises `KeyError` in pandas; that is modelled as `none` (all call sites catch
it). -/
def getMasterValues (cache : Cache) (env : Env) (key : String)
    (column : Option String) : Option (List String) × Cache :=
  match loadMaster cache env key with
  | (none, c') => (none, c')
  | (some df, c') =>
    let col := match column with
      | some c => c
      | none => df.cols.headD ""
    match df.colIdx col with
    | none => (none, c')
    | some _ => (some (df.colDropNa col), c')

/-- `masters.load_biodata_output_schema`: the header row of the
`Biodata_Output` file (read directly, not through the cache). -/
def loadBiodataOutputSchema (env : Env) : Option (List String) :=
  (env.files "biodata_output").map DFrame.cols

/-! ## `lookups.py` -/

/-- Helper for `pyReplaceL` with a step budget (every step consumes at least
one character, so `l.length + 1` steps always suffice). -/
def pyReplaceAux (pat rep : List Char) : Nat → List Char → List Char
  | 0, l => l
  | _, [] => []
  | fuel + 1, c :: cs =>
    if pat ≠ [] ∧ pat.isPrefixOf (c :: cs) then
      rep ++ pyReplaceAux pat rep fuel ((c :: cs).drop pat.length)
    else c :: pyReplaceAux pat rep fuel cs

/-- Python `str.replace(pat, rep)` on character lists: all occurrences, left
to right, non-overlapping (`pat` is never empty at the call sites). -/
def pyReplaceL (pat rep : List Char) (l : List Char) : List Char :=
  pyReplaceAux pat rep (l.length + 1) l

/-- Python `str.replace` on `String`. -/
def pyReplace (s pat rep : String) : String :=
  ⟨pyReplaceL pat.toList rep.toList s.toList⟩

/-- Python `str.startswith`. -/
def pyStartsWith (s pre : String) : Bool :=
  pre.toList.isPrefixOf s.toList

/-- Python `str.upper()` (ASCII). -/
def pyUpper (s : String) : String :=
  ⟨s.toList.map Char.toUpper⟩

/-- `" ".join(s.split())`: collapse whitespace runs. -/
def collapseWs (s : String) : String :=
  pyJoinSpace (pySplitWs s)

/-- The column renaming both `lookup_caste_by_any_field` and
`lookup_address_by_pincode` apply: `col.lower().replace(' ', '_')`.  In
pandas this assignment mutates the cached frame (the cache hands out the
object itself, not a copy); the state-passing callers below write the renamed
frame back into the cache to model that aliasing. -/
def renameCols (df : DFrame) : DFrame :=
  ⟨df.cols.map (fun c => pyReplace (pyLower c) " " "_"), df.rows⟩

/-- The four-field projection `lookup_caste_by_any_field` builds from a row:
`str(row.get(col, "")).strip() or None` — a missing column yields `None`, a
`NaN` cell yields the string `"nan"`. -/
def casteProj (df : DFrame) (r : List (Option String)) (c : String) : Option String :=
  match df.colIdx c with
  | none => none
  | some i =>
    let t := pyStrip (cellStr (r.get? i).join)
    if t = "" then none else some t

/-- The record returned by `lookup_caste_by_any_field`. -/
structure CasteRec where
  jaati : Option String
  caste : Option String
  gotra : Option String
  sakha : Option String
deriving DecidableEq, Repr

/-- Build the full `CasteRec` of a row. -/
def casteRecOf (df : DFrame) (r : List (Option String)) : CasteRec :=
  ⟨casteProj df r "jaati", casteProj df r "caste",
   casteProj df r "gotra", casteProj df r "sakha"⟩

/-- The search priority of `lookup_caste_by_any_field`. -/
def casteSearchFields : List String :=
  ["gotra", "sakha", "caste", "jaati"]

/-- Exact pass of `lookup_caste_by_any_field` for one field: first row whose
non-null cell, lowered and stripped, equals the lowered query. -/
def casteExactRow (df : DFrame) (f : String) (v : String) :
    Option (List (Option String)) :=
  match df.colIdx f with
  | none => none
  | some i =>
    df.rows.find? (fun r =>
      match (r.get? i).join with
      | none => false
      | some s => pyStrip (pyLower s) = pyLower v)

/-- Fuzzy pass of `lookup_caste_by_any_field` for one field: `match_one`
against the column's non-null values, then the first row whose cell under
`astype(str)` (so `NaN` prints as `"nan"`), lowered and stripped, equals the
lowered match. -/
def casteFuzzyRow (df : DFrame) (f : String) (v : String) :
    Option (List (Option String)) :=
  match df.colIdx f with
  | none => none
  | some i =>
    let vals := df.colDropNa f
    if vals = [] then none
    else
      match (matchOne v vals 80).1 with
      | none => none
      | some m =>
        df.rows.find? (fun r =>
          pyStrip (pyLower (cellStr (r.get? i).join)) = pyLower m)

/-- First hit of a per-field pass over the priority order. -/
def firstFieldHit (pass : String → Option (List (Option String))) :
    List String → Option (List (Option String))
  | [] => none
  | f :: fs =>
    match pass f with
    | some r => some r
    | none => firstFieldHit pass fs

/-- `lookups.lookup_caste_by_any_field(value)`: strip and reject empty;
load the caste master (renaming its columns in place, which mutates the
cached table); exact pass over the priority fields, then fuzzy pass; on any
hit return the whole matched row's four fields. -/
def lookupCasteByAnyField (cache : Cache) (env : Env) (value : String) :
    Option CasteRec × Cache :=
  let v := pyStrip value
  if v = "" then (none, cache)
  else
    match loadMaster cache env "caste" with
    | (none, c') => (none, c')
    | (some df0, c') =>
      let df := renameCols df0
      let c'' := dSet c' "caste" df
      let hit :=
        match firstFieldHit (fun f => casteExactRow df f v) casteSearchFields with
        | some r => some r
        | none => firstFieldHit (fun f => casteFuzzyRow df f v) casteSearchFields
      ((hit.map (casteRecOf df)), c'')

/-- The height-format normalisation applied to the query by
`lookup_height_exact` (the sequential `str.replace` chain; note that
`"inches"` was already rewritten by the `"inch"` replacement). -/
def heightNormQuery (s : String) : String :=
  let n := pyStrip (pyLower s)
  let n := pyReplace (pyReplace n "feet" "ft") "foot" "ft"
  let n := pyReplace (pyReplace n "inch" "in") "inches" "in"
  let n := pyReplace (pyReplace n "\x27" "ft") "\x22" "in"
  collapseWs n

/-- The normalisation applied to a master height value (no quote
replacements). -/
def heightNormMaster (s : String) : String :=
  let n := pyStrip (pyLower s)
  let n := pyReplace (pyReplace n "feet" "ft") "foot" "ft"
  let n := pyReplace (pyReplace n "inch" "in") "inches" "in"
  collapseWs n

/-- `lookups.lookup_height_exact(value)`: first master height whose
normalised form contains or is contained in the normalised query. -/
def lookupHeightExact (cache : Cache) (env : Env) (value : String) :
    Option String × Cache :=
  if value = "" then (none, cache)
  else
    let normalized := heightNormQuery value
    match loadMaster cache env "height" with
    | (none, c') => (none, c')
    | (some df, c') =>
      let hcol := df.cols.headD ""
      match df.colIdx hcol with
      | none => (none, c')
      | some i =>
        let hit := df.rows.findSome? (fun r =>
          match (r.get? i).join with
          | none => none
          | some s =>
            if s = "" then none
            else
              let mn := heightNormMaster s
              if pySubstring normalized mn || pySubstring mn normalized then
                some (pyStrip s)
              else none)
        (hit, c')

/-- The field extraction of `lookup_address_by_pincode` for one result field:
scan the (renamed) columns in order for one equal to the field or starting
with it, taking the first whose cell is non-null. -/
def pinFieldVal (df : DFrame) (r : List (Option String)) (field : String) :
    Option String :=
  (df.cols.findSome? (fun col =>
    if col = field || pyStartsWith col field then
      match df.cell r col with
      | some v => some (pyStrip v)
      | none => none
    else none))

/-- `lookups.lookup_address_by_pincode(pin_code)`: load the country/state
master (renaming its columns in place, again mutating the cache), find the
pin-code-like columns, and return the extracted fields of the first row whose
cell equals the pin code, always including a `zip_code`. -/
def lookupAddressByPincode (cache : Cache) (env : Env) (pin : String) :
    Option (List (String × String)) × Cache :=
  let p := pyStrip pin
  if p = "" then (none, cache)
  else
    match loadMaster cache env "country_state" with
    | (none, c') => (none, c')
    | (some df0, c') =>
      let df := renameCols df0
      let c'' := dSet c' "country_state" df
      let pinCols := df.cols.filter (fun col =>
        pySubstring "pin" col || pySubstring "zip" col || pySubstring "postal" col)
      if pinCols = [] then (none, c'')
      else
        let hit := pinCols.findSome? (fun pc =>
          match df.colIdx pc with
          | none => none
          | some i =>
            df.rows.find? (fun r => pyStrip (cellStr (r.get? i).join) = p))
        match hit with
        | none => (none, c'')
        | some r =>
          let fields := ["country", "state", "city", "zip_code", "postal_code"]
          let res := fields.foldl (fun acc f =>
            match pinFieldVal df r f with
            | some v => acc ++ [(f, v)]
            | none => acc) []
          let res := if (dGet res "zip_code").isSome then res
            else res ++ [("zip_code", p)]
          (some res, c'')

/-- One query of `lookup_qualification`: exact case-insensitive match over
the master column, else `match_one`; `none` when unmatched. -/
def qualMatchOne (vals : List String) (v : String) : Option String :=
  match vals.find? (fun m => pyStrip (pyLower m) = pyLower v) with
  | some m => some (pyStrip m)
  | none => (matchOne v vals 80).1

/-- `lookups.lookup_qualification(value)`: lenient — a missing master or an
unmatched component falls back to the raw text; comma-separated components
are matched independently, matched canonical forms first. -/
def lookupQualification (cache : Cache) (env : Env) (value : String) :
    Option String × Cache :=
  let v := pyStrip value
  if v = "" then (none, cache)
  else
    match loadMaster cache env "qualification" with
    | (none, c') => (some v, c')
    | (some df, c') =>
      let vals := df.colDropNa (df.cols.headD "")
      let parts := (pySplitChar v ',').map pyStrip |>.filter (· ≠ "")
      let matched := parts.filterMap (fun p => qualMatchOne vals p)
      let unmatched := parts.filter (fun p => (qualMatchOne vals p).isNone)
      let all := matched ++ unmatched
      if all ≠ [] then (some (pyJoin ", " all), c')
      else (some v, c')

/-- `lookups.lookup_occupation(value)`: exact case-insensitive master match,
else fuzzy, else the raw value itself (lenient fallback per its
docstring). -/
def lookupOccupation (cache : Cache) (env : Env) (value : String) :
    Option String × Cache :=
  let v := pyStrip value
  if v = "" then (none, cache)
  else
    match loadMaster cache env "occupation" with
    | (none, c') => (some v, c')
    | (some df, c') =>
      let vals := df.colDropNa (df.cols.headD "")
      match vals.find? (fun m => pyStrip (pyLower m) = pyLower v) with
      | some m => (some (pyStrip m), c')
      | none =>
        match (matchOne v vals 80).1 with
        | some m => (some m, c')
        | none => (some v, c')

/-- `lookups.lookup_marital_status(value)`: STRICT — exact case-insensitive
master match, else fuzzy, else `None` (also `None` when the master cannot be
loaded). -/
def lookupMaritalStatus (cache : Cache) (env : Env) (value : String) :
    Option String × Cache :=
  let v := pyStrip value
  if v = "" then (none, cache)
  else
    match loadMaster cache env "marital_status" with
    | (none, c') => (none, c')
    | (some df, c') =>
      let vals := df.colDropNa (df.cols.headD "")
      match vals.find? (fun m => pyStrip (pyLower m) = pyLower v) with
      | some m => (some (pyStrip m), c')
      | none => ((matchOne v vals 80).1, c')

/-- `lookups.lookup_manglik(value)`: STRICT, same shape as the marital-status
lookup over the manglik master. -/
def lookupManglik (cache : Cache) (env : Env) (value : String) :
    Option String × Cache :=
  let v := pyStrip value
  if v = "" then (none, cache)
  else
    match loadMaster cache env "manglik" with
    | (none, c') => (none, c')
    | (some df, c') =>
      let vals := df.colDropNa (df.cols.headD "")
      match vals.find? (fun m => pyStrip (pyLower m) = pyLower v) with
      | some m => (some (pyStrip m), c')
      | none => ((matchOne v vals 80).1, c')

/-- Characters admitted by the degree group `[A-Za-z.]` of
`parse_education_specialization`'s first pattern. -/
def isDegreeChar (c : Char) : Bool :=
  ('a' ≤ c && c ≤ 'z') || ('A' ≤ c && c ≤ 'Z') || c = '.'

/-- `re.match(r'^([A-Za-z.]+)\s*\(([^)]+)\)$', s)`: greedy degree token,
optional whitespace, a parenthesised non-empty specialisation, end of
string. -/
def eduPattern1 (s : String) : Option (String × String) :=
  let l := s.toList
  let g1 := l.takeWhile isDegreeChar
  if g1 = [] then none
  else
    let rest := (l.drop g1.length).dropWhile pyIsSpace
    match rest with
    | '(' :: rest2 =>
      let g2 := rest2.takeWhile (fun c => c ≠ ')')
      if g2 = [] then none
      else if rest2.drop g2.length = [')'] then some (⟨g1⟩, ⟨g2⟩)
      else none
    | _ => none

/-- `re.split(r'\s+', s, maxsplit=1)` for an already-stripped `s`. -/
def splitFirstWs (s : String) : List String :=
  let l := s.toList
  let pre := l.takeWhile (fun c => ¬ pyIsSpace c)
  let rest := (l.drop pre.length).dropWhile pyIsSpace
  if rest = [] ∧ l.length = pre.length then [⟨pre⟩]
  else [⟨pre⟩, ⟨rest⟩]

/-- The abbreviation table of `parse_education_specialization`. -/
def abbrevMap : List (String × String) :=
  [("IT", "Information Technology"), ("CS", "Computer Science"),
   ("CSE", "Computer Science"), ("ECE", "Electronics and Communication"),
   ("ME", "Mechanical Engineering"), ("CE", "Civil Engineering"),
   ("EEE", "Electrical and Electronics Engineering"),
   ("HR", "Human Resources"), ("BM", "Business Management"),
   ("FM", "Finance Management")]

/-- `lookups.parse_education_specialization(education_str)`: split the input
into a degree token and optional specialisation, look the degree up in the
qualification master (exact, then fuzzy; absent when unmatched), and expand
the specialisation through the abbreviation table. -/
def parseEducationSpecialization (cache : Cache) (env : Env) (s : String) :
    (Option String × Option String) × Cache :=
  let v := pyStrip s
  if v = "" then ((none, none), cache)
  else
    match loadMaster cache env "qualification" with
    | (none, c') => ((none, none), c')
    | (some df, c') =>
      let degSpec : String × Option String :=
        match eduPattern1 v with
        | some (d, sp) => (pyStrip d, some (pyStrip sp))
        | none =>
          match splitFirstWs v with
          | [d, sp] => (pyStrip d, some (pyStrip sp))
          | _ => (v, none)
      let vals := df.colDropNa (df.cols.headD "")
      let eduRes :=
        if degSpec.1 = "" then none
        else
          match vals.find? (fun m => pyStrip (pyLower m) = pyLower degSpec.1) with
          | some m => some (pyStrip m)
          | none => (matchOne degSpec.1 vals 80).1
      let specRes :=
        match degSpec.2 with
        | none => none
        | some sp =>
          if sp = "" then none
          else
            match dGet abbrevMap (pyUpper sp) with
            | some exp => some (pyStrip exp)
            | none => some (pyStrip sp)
      ((eduRes, specRes), c')

/-! ## `helpers.py` -/

/-- `helpers.clean_str` on a string: trim, collapse internal whitespace,
`None` for empty. -/
def cleanStrS (s : String) : Option String :=
  let t := collapseWs (pyStrip s)
  if t = "" then none else some t

/-- `helpers.clean_str` on an optional primitive (`str(value)` first). -/
def cleanStr (v : Option PyVal) : Option String :=
  match v with
  | none => none
  | some pv => cleanStrS pv.str

/-- `helpers.parse_name`: comma means `Last, First ...`; otherwise first and
last whitespace token. -/
def parseName (fullName : Option String) : Option String × Option String :=
  match fullName with
  | none => (none, none)
  | some s0 =>
    match cleanStrS s0 with
    | none => (none, none)
    | some s =>
      let commaBranch : Option (Option String × Option String) :=
        if pyContainsChar s ',' then
          let parts := ((pySplitChar s ',').map pyStrip).filter (· ≠ "")
          match parts with
          | l :: f :: _ =>
            let fw := pySplitWs f
            some (fw.head?, some l)
          | _ => none
        else none
      match commaBranch with
      | some r => r
      | none =>
        let parts := pySplitWs s
        match parts with
        | [one] => (some one, none)
        | p :: rest => (some p, rest.getLast?)
        | [] => (none, none)

/-- `helpers.normalize_date`: falsy input (`None`, the empty string, the
integer `0`) short-circuits to `None` (`if not raw`); the `dateutil` parse
itself is the environment's parser. -/
def normalizeDate (env : Env) (raw : Option PyVal) : Option String :=
  match raw with
  | none => none
  | some pv =>
    if pv = PyVal.s "" ∨ pv = PyVal.i 0 then none
    else
      match cleanStrS pv.str with
      | none => none
      | some s => env.parseDate s

/-- Integer value of a digit string. -/
def digitsToInt (l : List Char) : ℤ :=
  l.foldl (fun acc c => acc * 10 + (c.toNat - '0'.toNat : ℤ)) 0

/-- `helpers.normalize_age`: keep the digits, accept 1..120. -/
def normalizeAge (raw : Option PyVal) : Option ℤ :=
  match raw with
  | none => none
  | some pv =>
    match cleanStrS pv.str with
    | none => none
    | some s =>
      let digits := s.toList.filter pyIsDigit
      if digits = [] then none
      else
        let v := digitsToInt digits
        if 0 < v ∧ v ≤ 120 then some v else none

/-- `helpers.normalize_via_master`: clean, then `match_one`. -/
def normalizeViaMaster (raw : Option String) (masterValues : List String)
    (threshold : Q) : Option String :=
  match raw with
  | none => none
  | some r =>
    match cleanStrS r with
    | none => none
    | some s => (matchOne s masterValues threshold).1

/-- `helpers.normalize_height(raw, master_values)`: normalise the format and
match against the master list; with no master values return the normalised
format, and also fall back to it when nothing matches. -/
def normalizeHeight (raw : Option String) (masterValues : List String)
    (threshold : Q) : Option String :=
  match raw with
  | none => none
  | some r =>
    match cleanStrS r with
    | none => none
    | some s =>
      let normalized := heightNormQuery s
      if masterValues = [] then some normalized
      else
        match (matchOne normalized masterValues threshold).1 with
        | some m => some m
        | none =>
          match (matchOne s masterValues threshold).1 with
          | some m => some m
          | none => some normalized

/-- `pandas.Series.unique` after `astype(str)`: first occurrences, in
order. -/
def uniqueStrs (l : List String) : List String :=
  dedup l

/-- `helpers.normalize_country_state(raw_country, raw_state, df)`: match the
country against the first column; restrict states to the matched country's
rows (or the global state list when no country matched); default the country
to India only when the raw country was itself empty. -/
def normalizeCountryState (rawCountry rawState : Option String)
    (df : Option DFrame) (threshold : Q) : Option String × Option String :=
  match df with
  | none => (none, none)
  | some d =>
    if d.rows = [] then (none, none)
    else
      let countryCol := d.cols.headD ""
      let stateCol : Option String := d.cols.get? 1
      let countryList := uniqueStrs (d.colDropNa countryCol)
      let country := normalizeViaMaster rawCountry countryList threshold
      let state :=
        match country, stateCol with
        | some c, some sc =>
          let idxC := d.colIdx countryCol
          let rowsFor := d.rows.filter (fun r =>
            match idxC with
            | none => false
            | some i => cellStr (r.get? i).join = c)
          let statesFor := uniqueStrs
            ((⟨d.cols, rowsFor⟩ : DFrame).colDropNa sc)
          if statesFor ≠ [] then normalizeViaMaster rawState statesFor threshold
          else none
        | none, some sc =>
          normalizeViaMaster rawState (uniqueStrs (d.colDropNa sc)) threshold
        | _, none => none
      let rawCountryEmpty := (rawCountry.bind cleanStrS).isNone
      let country := if country.isNone ∧ rawCountryEmpty then some "India" else country
      (country, state)

/-- Characters of the separator class `[:.\-]` in
`normalize_birth_time`'s first pattern. -/
def isTimeSep (c : Char) : Bool :=
  c = ':' || c = '.' || c = '-'

/-- Leftmost match of `(\d{1,2})[:.\-](\d{2})(?:[:.](\d{2}))?`: hour and
minute groups.  The greedy two-digit hour is tried first; the one-digit
backtrack can only succeed when the second character is a separator. -/
def btFindTime (l : List Char) : Option (ℤ × ℤ) :=
  match l with
  | [] => none
  | c :: cs =>
    let tryHere : Option (ℤ × ℤ) :=
      if pyIsDigit c then
        match cs with
        | c1 :: c2 :: c3 :: c4 :: _ =>
          if pyIsDigit c1 then
            if isTimeSep c2 ∧ pyIsDigit c3 ∧ pyIsDigit c4 then
              some (digitsToInt [c, c1], digitsToInt [c3, c4])
            else none
          else
            if isTimeSep c1 ∧ pyIsDigit c2 ∧ pyIsDigit c3 then
              some (digitsToInt [c], digitsToInt [c2, c3])
            else none
        | [c1, c2, c3] =>
          if ¬ pyIsDigit c1 ∧ isTimeSep c1 ∧ pyIsDigit c2 ∧ pyIsDigit c3 then
            some (digitsToInt [c], digitsToInt [c2, c3])
          else none
        | _ => none
      else none
    match tryHere with
    | some r => some r
    | none => btFindTime cs

/-- Case-insensitive check that one of the given literal alternatives occurs
in the text (used for the existence-only regex searches). -/
def containsAnyCI (s : String) (alts : List String) : Bool :=
  alts.any (fun a => pySubstring (pyLower a) (pyLower s))

/-- Existence of a `\d{1,2}:\d{2}\s*(?:A\.M\.|P\.M\.)` match
(case-insensitive). -/
def btHasDottedAmPm (l : List Char) : Bool :=
  let isAP := fun c : Char => c.toLower = 'a' || c.toLower = 'p'
  let isM := fun c : Char => c.toLower = 'm'
  let rec go : List Char → Bool
    | [] => false
    | c :: cs =>
      let hereTwo :=
        if pyIsDigit c then
          match cs with
          | c1 :: ':' :: c3 :: c4 :: rest =>
            if pyIsDigit c1 ∧ pyIsDigit c3 ∧ pyIsDigit c4 then
              let rest' := rest.dropWhile pyIsSpace
              match rest' with
              | a :: '.' :: m :: '.' :: _ => isAP a ∧ isM m
              | _ => false
            else false
          | _ => false
        else false
      let hereOne :=
        if pyIsDigit c then
          match cs with
          | ':' :: c2 :: c3 :: rest =>
            if pyIsDigit c2 ∧ pyIsDigit c3 then
              let rest' := rest.dropWhile pyIsSpace
              match rest' with
              | a :: '.' :: m :: '.' :: _ => isAP a ∧ isM m
              | _ => false
            else false
          | _ => false
        else false
      hereTwo || hereOne || go cs
  go l

/-- Leftmost match of `(\d{1,2}):(\d{2})\s*([AP])\.?M\.?` (case-insensitive):
hour, minute and the A/P character. -/
def btFindAmPm (l : List Char) : Option (ℤ × ℤ × Char) :=
  let isAP := fun c : Char => c.toLower = 'a' || c.toLower = 'p'
  let isM := fun c : Char => c.toLower = 'm'
  let tail' := fun (rest : List Char) (h m : ℤ) =>
    let rest' := rest.dropWhile pyIsSpace
    match rest' with
    | a :: '.' :: mm :: _ => if isAP a ∧ isM mm then some (h, m, a.toUpper) else none
    | a :: mm :: _ => if isAP a ∧ isM mm then some (h, m, a.toUpper) else none
    | _ => none
  let rec go : List Char → Option (ℤ × ℤ × Char)
    | [] => none
    | c :: cs =>
      let hereTwo : Option (ℤ × ℤ × Char) :=
        if pyIsDigit c then
          match cs with
          | c1 :: ':' :: c3 :: c4 :: rest =>
            if pyIsDigit c1 ∧ pyIsDigit c3 ∧ pyIsDigit c4 then
              tail' rest (digitsToInt [c, c1]) (digitsToInt [c3, c4])
            else none
          | _ => none
        else none
      let hereOne : Option (ℤ × ℤ × Char) :=
        if pyIsDigit c then
          match cs with
          | ':' :: c2 :: c3 :: rest =>
            if pyIsDigit c2 ∧ pyIsDigit c3 then
              tail' rest (digitsToInt [c]) (digitsToInt [c2, c3])
            else none
          | _ => none
        else none
      match hereTwo with
      | some r => some r
      | none =>
        match hereOne with
        | some r => some r
        | none => go cs
  go l

/-- Zero-padded two-digit rendering of a minute value (`{minute:02d}`). -/
def pad2 (n : ℤ) : String :=
  if n < 10 then "0" ++ toString n else toString n

/-- `helpers.normalize_birth_time`: 24-hour times become `h:MM AM/PM`;
otherwise an existing (dotted) 12-hour time is re-rendered as `h:MM A.M.`;
anything else is `None`. -/
def normalizeBirthTime (raw : Option String) : Option String :=
  match raw with
  | none => none
  | some r =>
    match cleanStrS r with
    | none => none
    | some s =>
      let first :=
        match btFindTime s.toList with
        | some (h, m) =>
          if 0 ≤ h ∧ h ≤ 23 ∧ 0 ≤ m ∧ m ≤ 59 then
            let amPm := if h < 12 then "AM" else "PM"
            let h12 := if h = 0 then 12 else if 12 < h then h - 12 else h
            some (toString h12 ++ ":" ++ pad2 m ++ " " ++ amPm)
          else none
        | none => none
      match first with
      | some r => some r
      | none =>
        if containsAnyCI s ["a.m.", "p.m.", "am", "pm"] then
          if btHasDottedAmPm s.toList then
            match btFindAmPm s.toList with
            | some (h, m, ap) =>
              if 1 ≤ h ∧ h ≤ 12 ∧ 0 ≤ m ∧ m ≤ 59 then
                some (toString h ++ ":" ++ pad2 m ++ " " ++ String.singleton ap ++ ".M.")
              else none
            | none => none
          else none
        else none

/-- Maximal digit run at the head of a list, with the remainder. -/
def takeDigits (l : List Char) : List Char × List Char :=
  (l.takeWhile pyIsDigit, l.dropWhile pyIsDigit)

/-- Match a literal (already-lowered patterns are applied to lowered text at
the relevant call sites) at the head of a list. -/
def eatLit (lit : String) (l : List Char) : Option (List Char) :=
  if lit.toList.isPrefixOf l then some (l.drop lit.length) else none

/-- Match the first of several literal alternatives at the head of a list
(regex alternation order). -/
def eatAlt (lits : List String) (l : List Char) : Option (List Char) :=
  match lits with
  | [] => none
  | lit :: rest =>
    match eatLit lit l with
    | some r => some r
    | none => eatAlt rest l

/-- Match of `\d+ft\s+\d+in\s*\(\s*\d+\s*cms\s*\)` at one position (the
already-formatted check of `normalize_height_format`, applied to the original
string). -/
def hfFormattedAt (l : List Char) : Bool :=
  let (d1, r1) := takeDigits l
  if d1 = [] then false else
  match eatLit "ft" r1 with
  | none => false
  | some r2 =>
    let ws := r2.takeWhile pyIsSpace
    if ws = [] then false else
    let r3 := r2.drop ws.length
    let (d2, r4) := takeDigits r3
    if d2 = [] then false else
    match eatLit "in" r4 with
    | none => false
    | some r5 =>
      match eatLit "(" (r5.dropWhile pyIsSpace) with
      | none => false
      | some r6 =>
        let (d3, r7) := takeDigits (r6.dropWhile pyIsSpace)
        if d3 = [] then false else
        match eatLit "cms" (r7.dropWhile pyIsSpace) with
        | none => false
        | some r8 => (eatLit ")" (r8.dropWhile pyIsSpace)).isSome

/-- Existence of the already-formatted pattern anywhere in the string. -/
def hfHasFormatted (l : List Char) : Bool :=
  (List.range (l.length + 1)).any (fun p => hfFormattedAt (l.drop p))

/-- Leftmost match of `(\d+)\s*(?:ft|feet|\')\s*(\d+)\s*(?:in|inch|inches|")?`
over the lowered string: the feet and inches digit groups.  The trailing
optional unit does not constrain the match. -/
def hfFindFeetInches : List Char → Option (ℤ × ℤ)
  | [] => none
  | c :: cs =>
    let here : Option (ℤ × ℤ) :=
      let (d1, r1) := takeDigits (c :: cs)
      if d1 = [] then none else
      match eatAlt ["ft", "feet", "\x27"] (r1.dropWhile pyIsSpace) with
      | none => none
      | some r2 =>
        let (d2, _) := takeDigits (r2.dropWhile pyIsSpace)
        if d2 = [] then none
        else some (digitsToInt d1, digitsToInt d2)
    match here with
    | some r => some r
    | none => hfFindFeetInches cs

/-- Leftmost match of `(\d+)\s*(?:cm|cms|centimeter)` over the lowered
string: the digit group. -/
def hfFindCm : List Char → Option ℤ
  | [] => none
  | c :: cs =>
    let here : Option ℤ :=
      let (d1, r1) := takeDigits (c :: cs)
      if d1 = [] then none else
      if (eatAlt ["cm", "cms", "centimeter"] (r1.dropWhile pyIsSpace)).isSome then
        some (digitsToInt d1)
      else none
    match here with
    | some r => some r
    | none => hfFindCm cs

/-- Leftmost match of `(\d+)[-.\s](\d+)` over the original string. -/
def hfFindSimple : List Char → Option (ℤ × ℤ)
  | [] => none
  | c :: cs =>
    let here : Option (ℤ × ℤ) :=
      let (d1, r1) := takeDigits (c :: cs)
      if d1 = [] then none else
      match r1 with
      | sep :: rest =>
        if sep = '-' || sep = '.' || pyIsSpace sep then
          let (d2, _) := takeDigits rest
          if d2 = [] then none else some (digitsToInt d1, digitsToInt d2)
        else none
      | [] => none
    match here with
    | some r => some r
    | none => hfFindSimple cs

/-- Centimetres of a total-inch count: `round(total_inches * 2.54)`
(round-half-even on the exact rational agrees with CPython's float rounding
over the whole accepted range 0..107). -/
def inchesToCms (ti : ℤ) : ℤ :=
  pyRound ⟨ti * 127, 50⟩

/-- Total inches of a centimetre count: `round(cms / 2.54)` (same remark for
the accepted range 100..250). -/
def cmsToInches (cms : ℤ) : ℤ :=
  pyRound ⟨cms * 50, 127⟩

/-- `helpers.normalize_height_format(raw)`: pass through an
already-formatted value; else feet/inches, else centimetres, else the simple
`f-i` form; `None` when nothing in range matches. -/
def normalizeHeightFormat (raw : Option String) : Option String :=
  match raw with
  | none => none
  | some r =>
    match cleanStrS r with
    | none => none
    | some s =>
      let sLower := pyLower s
      if hfHasFormatted s.toList then some s
      else
        let feetBranch :=
          match hfFindFeetInches sLower.toList with
          | some (f, i) =>
            if 0 ≤ f ∧ f ≤ 8 ∧ 0 ≤ i ∧ i ≤ 11 then
              let cms := inchesToCms (f * 12 + i)
              some (toString f ++ "ft " ++ toString i ++ "in (" ++
                toString cms ++ " cms)")
            else none
          | none => none
        match feetBranch with
        | some v => some v
        | none =>
          let cmBranch :=
            match hfFindCm sLower.toList with
            | some cms =>
              if 100 ≤ cms ∧ cms ≤ 250 then
                let ti := cmsToInches cms
                let f := ti / 12
                let rem := ti % 12
                some (toString f ++ "ft " ++ toString rem ++ "in (" ++
                  toString cms ++ " cms)")
              else none
            | none => none
          match cmBranch with
          | some v => some v
          | none =>
            match hfFindSimple s.toList with
            | some (f, i) =>
              if 0 ≤ f ∧ f ≤ 8 ∧ 0 ≤ i ∧ i ≤ 11 then
                let cms := inchesToCms (f * 12 + i)
                some (toString f ++ "ft " ++ toString i ++ "in (" ++
                  toString cms ++ " cms)")
              else none
            | none => none

/-- Separator-run characters of `summarize_about_yourself`'s
`re.sub(r'\s*[\*\-_]{2,}\s*', '\n', s)`. -/
def isSepSym (c : Char) : Bool :=
  c = '*' || c = '-' || c = '_'

/-- Helper for `subSepRuns` with a step budget (every step consumes at least
one character). -/
def subSepAux : Nat → List Char → List Char
  | 0, l => l
  | _, [] => []
  | fuel + 1, c :: cs =>
    let w := (c :: cs).takeWhile pyIsSpace
    let afterW := (c :: cs).drop w.length
    let sy := afterW.takeWhile isSepSym
    if 2 ≤ sy.length then
      let afterSy := afterW.drop sy.length
      let w2 := afterSy.takeWhile pyIsSpace
      '\n' :: subSepAux fuel (afterSy.drop w2.length)
    else c :: subSepAux fuel cs

/-- The substitution `re.sub(r'\s*[\*\-_]{2,}\s*', '\n', s)`: leftmost
non-overlapping replacement of whitespace-framed runs of two or more
separator symbols by a newline. -/
def subSepRuns (l : List Char) : List Char :=
  subSepAux (l.length + 1) l

/-- `helpers.summarize_about_yourself(text)`: replace separator runs by
newlines, keep the non-empty stripped lines, and cap the result at 1000
characters (cutting at the last newline of the slice). -/
def summarizeAboutYourself (text : Option String) : Option String :=
  match text with
  | none => none
  | some t =>
    if t = "" then none
    else
      match cleanStrS t with
      | none => none
      | some s =>
        let s2 : List Char := subSepRuns s.toList
        let lines := ((s2.splitOn '\n').map (fun l => pyStrip ⟨l⟩)).filter (· ≠ "")
        if lines = [] then none
        else
          let summary := pyJoin "\n" lines
          if 1000 < summary.toList.length then
            let sl := summary.toList.take 1000
            let pre :=
              if sl.contains '\n' then
                (sl.reverse.dropWhile (· ≠ '\n')).drop 1 |>.reverse
              else sl
            some (⟨pre⟩ ++ "\n[... truncated]")
          else some summary

/-- `helpers.MARITAL_ALLOWED`. -/
def maritalAllowed : List String :=
  ["-", "Awaiting Divorce", "Committed", "Divorced", "Married", "Un-Married",
   "Widow", "Widower", "Single", "Widowed", "Separated"]

/-- `helpers.MANGLIK_ALLOWED`. -/
def manglikAllowed : List String :=
  ["Yes", "No", "Don\x27t Know"]

/-- The variant table of `normalize_marital_status`. -/
def maritalVariants : List (String × String) :=
  [("unmarried", "Un-Married"), ("single", "Single"), ("separated", "Separated"),
   ("awaiting divorce", "Awaiting Divorce"), ("awaiting_divorce", "Awaiting Divorce"),
   ("awaiting-divorce", "Awaiting Divorce"), ("divorced", "Divorced"),
   ("married", "Married"), ("widow", "Widow"), ("widower", "Widower"),
   ("widowed", "Widowed"), ("committed", "Committed"), ("-", "-")]

/-- `helpers.normalize_marital_status(raw)`: direct case-insensitive match
against the allowed list, the common-variant table, then fuzzy matching. -/
def normalizeMaritalStatus (raw : Option String) (threshold : Q) : Option String :=
  match raw with
  | none => none
  | some r =>
    match cleanStrS r with
    | none => none
    | some s =>
      let low := pyLower s
      match maritalAllowed.find? (fun a => pyLower a = low) with
      | some a => some a
      | none =>
        match dGet maritalVariants low with
        | some v => some v
        | none => (matchOne s maritalAllowed threshold).1

/-- The variant table of `normalize_manglik` (note the explicit `maybe`
entry whose value is `None`). -/
def manglikVariants : List (String × Option String) :=
  [("yes", some "Yes"), ("y", some "Yes"), ("true", some "Yes"),
   ("no", some "No"), ("n", some "No"), ("false", some "No"),
   ("dont know", some "Don\x27t Know"), ("don\x27t know", some "Don\x27t Know"),
   ("dontknow", some "Don\x27t Know"), ("unknown", some "Don\x27t Know"),
   ("maybe", none)]

/-- `helpers.normalize_manglik(raw)`: direct case-insensitive match against
the allowed values, then the variant table on the punctuation-stripped
lower-case form, then fuzzy matching. -/
def normalizeManglik (raw : Option String) (threshold : Q) : Option String :=
  match raw with
  | none => none
  | some r =>
    match cleanStrS r with
    | none => none
    | some s =>
      let low := pyLower s
      match manglikAllowed.find? (fun a => pyLower a = low) with
      | some a => some a
      | none =>
        let lowClean : String :=
          ⟨low.toList.filter (fun c =>
            ('a' ≤ c && c ≤ 'z') || pyIsDigit c || c = ' ')⟩
        match dGet manglikVariants lowClean with
        | some v => v
        | none => (matchOne s manglikAllowed threshold).1

/-! ## `field_validators.py` -/

/-- A profile dictionary: output and raw profiles both map field names to an
optional primitive (`none` is Python `None`). -/
def PDict := List (String × Option PyVal)

instance : DecidableEq PDict :=
  inferInstanceAs (DecidableEq (List (String × Option PyVal)))

instance : Repr PDict :=
  inferInstanceAs (Repr (List (String × Option PyVal)))

/-- Character class `[a-zA-Z\s\-'&.]` (the location patterns). -/
def isLocChar (c : Char) : Bool :=
  ('a' ≤ c && c ≤ 'z') || ('A' ≤ c && c ≤ 'Z') || pyIsSpace c ||
    c = '-' || c = '\x27' || c = '&' || c = '.'

/-- Character class `[a-zA-Z\s\-']` (the name/caste/occupation patterns). -/
def isNameChar (c : Char) : Bool :=
  ('a' ≤ c && c ≤ 'z') || ('A' ≤ c && c ≤ 'Z') || pyIsSpace c ||
    c = '-' || c = '\x27'

/-- Character class `[a-zA-Z\s\-'&.()]` (the specialization pattern). -/
def isSpecChar (c : Char) : Bool :=
  isLocChar c || c = '(' || c = ')'

/-- Character class `[\w\s\-().,]` (the tail of the education pattern). -/
def isEduTailChar (c : Char) : Bool :=
  isWordChar c || pyIsSpace c || c = '-' || c = '(' || c = ')' || c = '.' || c = ','

/-- Anchored class repetition `^[class]{lo,hi}$`. -/
def classPattern (cls : Char → Bool) (lo hi : Nat) (s : String) : Bool :=
  let l := s.toList
  decide (lo ≤ l.length) && decide (l.length ≤ hi) && l.all cls

/-- The education shape `^[A-Z.]+[\w\s\-().,]*$`: since `[A-Z.]` is contained
in the tail class, the pattern is equivalent to a non-empty string whose
first character is in `[A-Z.]` and whose characters all lie in the tail
class. -/
def eduShape (s : String) : Bool :=
  match s.toList with
  | [] => false
  | c :: cs => (('A' ≤ c && c ≤ 'Z') || c = '.') && cs.all isEduTailChar

/-- The mobile shape `^\+91\s?\d{10}$`. -/
def mobileShape (s : String) : Bool :=
  match s.toList with
  | '+' :: '9' :: '1' :: rest =>
    let digitsPart := if rest.length = 11 then
        match rest with
        | w :: ds => if pyIsSpace w then some ds else none
        | [] => none
      else some rest
    match digitsPart with
    | some ds => decide (ds.length = 10) && ds.all pyIsDigit
    | none => false
  | _ => false

/-- Word-boundary membership test for `(?i)\b(alt|...)\b` patterns (every
alternative both starts and ends with a word character, so the boundaries
reduce to non-word neighbours or the text's ends). -/
def hasWordBoundedAlt (alts : List String) (s : String) : Bool :=
  let l := s.toList.map Char.toLower
  (List.range (l.length + 1)).any (fun p =>
    alts.any (fun alt =>
      let a := (pyLower alt).toList
      a.isPrefixOf (l.drop p) &&
      (decide (p = 0) || !(isWordChar (l.getD (p - 1) ' '))) &&
      (decide (l.length ≤ p + a.length) || !(isWordChar (l.getD (p + a.length) ' ')))))

/-- Plain substring alternation `(?i)(alt|...)` search. -/
def hasSubstrAlt (alts : List String) (s : String) : Bool :=
  alts.any (fun alt => pySubstring (pyLower alt) (pyLower s))

/-- The case-sensitive anchored person-name pattern
`^[A-Z][a-z]*\s[A-Z][a-z]*$` of the city suspicious set. -/
def cityTwoNamePattern (s : String) : Bool :=
  let isUp := fun c : Char => 'A' ≤ c && c ≤ 'Z'
  let isLo := fun c : Char => 'a' ≤ c && c ≤ 'z'
  match s.toList with
  | c :: cs =>
    if isUp c then
      let rest := cs.dropWhile isLo
      match rest with
      | w :: c2 :: cs2 =>
        pyIsSpace w && isUp c2 && (cs2.dropWhile isLo = [])
      | _ => false
    else false
  | [] => false

/-- The marital-status strict-enum list of
`FieldValidator.FIELD_CONSTRAINTS` (note: this differs from the enforcement
list hard-coded in `normalize_profile`). -/
def validatorMaritalAllowed : List String :=
  ["Single", "Married", "Divorced", "Widowed", "Separated", "Un-Married",
   "Awaiting Divorce"]

/-- The suspicious patterns per field (`FieldValidator.SUSPICIOUS_PATTERNS`);
their containers are Python sets, but only existence of any hit matters. -/
def suspiciousHit (field : String) (v : String) : Bool :=
  if field = "education" then
    hasWordBoundedAlt ["university", "college", "school", "institute",
      "department", "faculty", "academy"] v
  else if field = "state" then
    hasSubstrAlt ["road", "street", "area", "colony", "sector", "plot",
      "house", "apartment", "bldg", "mohalla", "lane"] v ||
    hasSubstrAlt ["university", "college", "school", "institute", "hospital",
      "office", "department", "faculty", "academy"] v ||
    hasSubstrAlt ["bandar", "town", "city", "municipal"] v ||
    pyContainsChar v ',' || pyContainsChar v ';'
  else if field = "city" then
    hasWordBoundedAlt ["degree", "diploma", "certified", "b.tech", "mba",
      "m.sc", "b.com", "b.a", "m.a", "university", "college"] v ||
    cityTwoNamePattern v
  else if field = "zip_code" then
    v.toList.any (fun c => ¬ pyIsDigit c)
  else false

/-- The shape pattern per constrained field
(`FieldValidator.FIELD_CONSTRAINTS[...]["pattern"]`); `none` models the
fields with no pattern and the unconstrained fields. -/
def fieldShape (field : String) : Option (String → Bool) :=
  if field = "state" ∨ field = "city" ∨ field = "country" ∨
      field = "district" ∨ field = "village" ∨ field = "tahsil" then
    some (classPattern isLocChar 2 50)
  else if field = "zip_code" then
    some (classPattern pyIsDigit 5 10)
  else if field = "education" then some eduShape
  else if field = "specialization" then some (classPattern isSpecChar 2 50)
  else if field = "first_name" ∨ field = "last_name" then
    some (classPattern isNameChar 2 30)
  else if field = "full_name" then some (classPattern isNameChar 4 60)
  else if field = "occupation" then some (classPattern isNameChar 2 50)
  else if field = "caste" ∨ field = "jaati" ∨ field = "gotra" ∨
      field = "sakha" ∨ field = "religion" then
    some (classPattern isNameChar 2 30)
  else if field = "mobile_no" then some mobileShape
  else none

/-- The fields carrying any constraint entry at all
(`FieldValidator.FIELD_CONSTRAINTS`' keys). -/
def constrainedFields : List String :=
  ["state", "city", "country", "district", "village", "tahsil", "zip_code",
   "address", "education", "specialization", "first_name", "last_name",
   "full_name", "occupation", "caste", "jaati", "gotra", "sakha", "religion",
   "marital_status", "manglik", "mobile_no", "phone_no"]

/-- The strict-enum allow-list per field, when the constraint declares
one. -/
def fieldEnum (field : String) : Option (List String) :=
  if field = "marital_status" then some validatorMaritalAllowed
  else if field = "manglik" then some manglikAllowed
  else none

/-- `FieldValidator.validate_field(field_name, value)` (the boolean part of
the returned pair): null/empty values and unconstrained fields pass; strict
enums must match a member case-insensitively; shape patterns must match;
suspicious patterns must not. -/
def validateField (field : String) (value : Option PyVal) : Bool :=
  match value with
  | none => true
  | some pv =>
    if pv = PyVal.s "" then true
    else
      let vs := pyStrip pv.str
      if vs = "" then true
      else if ¬ constrainedFields.contains field then true
      else
        let enumOk :=
          match fieldEnum field with
          | none => true
          | some allowed =>
            allowed.contains vs ||
              allowed.any (fun a => pyLower a = pyLower vs)
        if !enumOk then false
        else
          let shapeOk :=
            match fieldShape field with
            | none => true
            | some pat => pat vs
          if !shapeOk then false
          else !suspiciousHit field vs

/-- `FieldValidator.validate_profile(profile)`: the fields (in dictionary
order) whose non-null, non-empty values fail validation. -/
def profileErrors (profile : PDict) : List String :=
  (profile.filter (fun p =>
    match p.2 with
    | none => false
    | some pv => ¬ (pv = PyVal.s "") && ¬ validateField p.1 p.2)).map Prod.fst

/-- `FieldValidator.sanitize_profile(profile)`: overwrite every invalid field
with `None`. -/
def sanitizeProfile (profile : PDict) : PDict :=
  let errs := profileErrors profile
  profile.map (fun p => if errs.contains p.1 then (p.1, none) else p)

/-- `PhoneNumberValidator.normalize_mobile_number(value)`: keep the digits;
accept exactly 10 digits, 12 digits starting `91`, or 13 digits starting
`091`, rendering `+91` plus the 10-digit national number; everything else is
`None`.  (The intermediate `cleaned` variable of the source is dead code:
the result is computed from `digits_only`.) -/
def normalizeMobileNumber (value : String) : Option String :=
  if value = "" then none
  else
    let digitsOnly := (pyStrip value).toList.filter pyIsDigit
    if digitsOnly.length = 10 then
      some ("+91 " ++ (⟨digitsOnly⟩ : String))
    else if digitsOnly.length = 12 ∧ digitsOnly.take 2 = ['9', '1'] then
      some ("+91 " ++ (⟨digitsOnly.drop 2⟩ : String))
    else if digitsOnly.length = 13 ∧ digitsOnly.take 3 = ['0', '9', '1'] then
      some ("+91 " ++ (⟨digitsOnly.drop 3⟩ : String))
    else none

/-! ## `gender_detection.py` -/

/-- Python truthiness of an optional primitive (`None`, `""` and `0` are
falsy). -/
def pyTruthy (v : Option PyVal) : Bool :=
  match v with
  | none => false
  | some (.s s) => s ≠ ""
  | some (.i n) => n ≠ 0

/-- `FEMALE_INDICATORS['suffixes']` (the `patterns` entries of the indicator
tables are dead data: no code reads them). -/
def femaleSuffixes : List String :=
  ["a", "i", "ee", "ya", "ta", "na", "da", "ka", "ha",
   "amma", "ina", "ita", "uma", "iya", "ini", "ara", "ela",
   "e", "ie", "ine", "ene", "ene", "ette", "elle", "oise"]

/-- `MALE_INDICATORS['suffixes']`. -/
def maleSuffixes : List String :=
  ["u", "an", "ar", "or", "er", "en", "on", "esh", "ash",
   "ank", "it", "et", "at", "ot", "ut", "pal", "dev", "nath",
   "shar", "singh", "singh", "kumar", "gupta", "sharma", "verma",
   "o", "os", "us", "as", "is", "el", "il", "al",
   "son", "sen", "man", "berg", "stein", "baum", "feld"]

/-- `FEMALE_INDICATORS['names']` (a Python set literal; only membership is
consumed). -/
def femaleNames : List String :=
  ["priya", "ananya", "diya", "neha", "pooja", "kavya", "aisha", "shreya",
   "shruti", "divya", "anjali", "swati", "nisha", "dimple", "sneha", "sakshi",
   "yasmin", "amira", "farah", "riya", "soniya", "simran", "mona", "rani",
   "sunita", "vinita", "anita", "kaveri", "malini", "madhuri", "shalini",
   "seema", "reena", "meena", "geeta", "savita", "sarita", "parita", "sadhana",
   "deepa", "leela", "sheela", "kamala", "rachna", "neetu", "niti", "nikita",
   "bhavna", "jaya", "jyoti", "kalpana", "kanchan", "kiran", "lalita", "namrata",
   "padma", "pratibha", "preeti", "pushpa", "radhika", "ramita", "ranjana",
   "sarala", "savitri", "seema", "shailaja", "shanti", "sharda", "sharmila",
   "shikha", "shilpa", "shobha", "shweta", "sudha", "sulekha", "sumitra",
   "sunaina", "sundari", "supriya", "suruchi", "sushma", "swapna", "sweta",
   "tanvi", "tejal", "tiya", "trisha", "tulsi", "usha", "vandana", "varada",
   "varsha", "vasundhra", "vedavati", "veena", "vidhi", "vidya", "vijaya",
   "vikrama", "vimla", "vinaya", "vini", "violetta", "vipasha", "viraja",
   "virali", "vishalakshi", "vishakha", "vistra", "vituja", "vrinda", "vyomini",
   "wanda", "xavier", "xenia", "yandra", "yasmine", "yashoda", "yavnika",
   "yedda", "yogita", "yoruba", "yolanda", "yuvanika", "yuvika", "zaara",
   "zainab", "zara", "zarina", "zarith", "zeena", "zenobia", "zephyr",
   "zietha", "zipra", "zita", "ziva", "zoey", "zoya", "zorina", "zoya"]

/-- `MALE_INDICATORS['names']`. -/
def maleNames : List String :=
  ["aditya", "amit", "amol", "aneesh", "ankur", "anmol", "anup", "arun",
   "arjun", "aryan", "ashok", "ashish", "ashwani", "asif", "atul", "aurobindo",
   "avinder", "avinash", "avijit", "avneesh", "axel", "ayush", "bablu", "badri",
   "bajrang", "balaji", "balaram", "baldev", "balendra", "balendu", "balgopal",
   "balraj", "balram", "baman", "banmali", "bansi", "bapu", "bapurao", "baradwaj",
   "barath", "barkha", "baruch", "basant", "basavraj", "bashir", "basil", "baskaran",
   "basudeb", "basudeva", "basuki", "basva", "basudev", "basudeo", "basu", "basurao",
   "bata", "batuk", "batuknath", "baul", "bava", "bavaji", "bavakumar", "bavani",
   "bavesh", "bavish", "bawali", "baxiv", "bayadere", "bayard", "bayard", "bayard",
   "bayu", "bazaa", "bbmohd", "beach", "beadle", "beale", "beals", "beaman",
   "bean", "beane", "beanj", "beanna", "beard", "bearden", "beards", "beare",
   "bearn", "bearer", "bearfield", "beary", "beasley", "beason", "beat",
   "beata", "beathen", "beatibox", "beatle", "beatles", "beatley", "beatone",
   "beatrice", "beatrix", "beatty", "beau", "beaubien", "beaudeat", "beaudet",
   "beaudin", "beaudoin", "beaudon", "beaudonmarie", "beaudreau", "beaudry",
   "beauford", "beaufoys", "beaugrand", "beaujean", "beaujeu", "beaulac",
   "beaulavois", "beaulavsky", "beaulaurier", "beauleaf", "beaumarchais", "beaumaris",
   "beaumelle", "beaumont", "beaumont", "beaumonts", "beaumontsmith", "beaumur",
   "beaumont", "beaumontsmith", "beaumont", "beaumont", "beaumont", "beaumont",
   "beaumont", "beaumont", "beaumont", "beaumont", "beaumont", "beaumont",
   "beaumont", "beaumont", "beaumont", "beaumont", "beaumont", "beaumont"]

/-- Python `str.endswith`. -/
def pyEndsWith (s suffix : String) : Bool :=
  suffix.toList.isSuffixOf s.toList

/-- `gender_detection.infer_gender_from_name(name)`: dictionary membership of
the first token, then the suffix rules (length at least 2, or the listed
single-letter exceptions). -/
def inferGenderFromName (name : String) : Option String :=
  let n := pyLower (pyStrip name)
  if n = "" then none
  else
    match pySplitWs n with
    | [] => none
    | first :: _ =>
      if femaleNames.contains first then some "Female"
      else if maleNames.contains first then some "Male"
      else if femaleSuffixes.any (fun suf =>
          pyEndsWith first suf ∧ (2 ≤ suf.length ∨ suf = "a" ∨ suf = "i")) then
        some "Female"
      else if maleSuffixes.any (fun suf =>
          pyEndsWith first suf ∧ (2 ≤ suf.length ∨ suf = "u" ∨ suf = "an")) then
        some "Male"
      else none

/-- Helper for `countAltMatches` with a step budget (every step consumes at
least one character). -/
def countAltAux (alts : List String) : Nat → List Char → Nat
  | 0, _ => 0
  | _, [] => 0
  | fuel + 1, c :: cs =>
    match alts.find? (fun a => a.toList.isPrefixOf (c :: cs)) with
    | some a =>
      if a.length = 0 then countAltAux alts fuel cs
      else 1 + countAltAux alts fuel ((c :: cs).drop a.length)
    | none => countAltAux alts fuel cs

/-- Count of non-overlapping matches of a literal alternation
(`re.findall` with the first-alternative preference of regex alternation;
every pattern in the context tables is such an alternation). -/
def countAltMatches (alts : List String) (l : List Char) : Nat :=
  countAltAux alts (l.length + 1) l

/-- `GENDER_CONTEXT_CLUES['female']`. -/
def femaleContextPatterns : List (List String) :=
  [["pregnant", "pregnancy", "expecting", "pregnant"],
   ["daughter", "sister", "wife", "mother", "girl", "lady", "woman", "her", "she"],
   ["bride", "bride-to-be", "engagement"],
   ["maiden", "spinster", "unmarried", "divorced"],
   ["mother", "aunt", "cousin"]]

/-- `GENDER_CONTEXT_CLUES['male']`. -/
def maleContextPatterns : List (List String) :=
  [["son", "brother", "husband", "father", "boy", "man", "him", "he"],
   ["groom", "groom-to-be", "engagement"],
   ["bachelor", "widower", "divorced"],
   ["father", "uncle", "cousin"],
   ["professional", "engineer", "doctor", "businessman"]]

/-- `gender_detection.infer_gender_from_context(text)`: per-pattern match
counts over the lowered text; a side wins only with the strictly higher
count and at least two hits. -/
def inferGenderFromContext (text : String) : Option String :=
  if text = "" then none
  else
    let l := (pyLower text).toList
    let fscore := (femaleContextPatterns.map (fun p => countAltMatches p l)).sum
    let mscore := (maleContextPatterns.map (fun p => countAltMatches p l)).sum
    if fscore > mscore ∧ 2 ≤ fscore then some "Female"
    else if mscore > fscore ∧ 2 ≤ mscore then some "Male"
    else none

/-- `str(biodata.get(key, ''))`: an absent key gives `""`, a key bound to
`None` gives the string `"None"` (a CPython `str(None)` artefact the code
really exhibits). -/
def strGetDefault (raw : PDict) (key : String) : String :=
  match dGet raw key with
  | none => ""
  | some none => "None"
  | some (some pv) => pv.str

/-- `gender_detection.auto_detect_gender(biodata)`: explicit gender tokens,
then name inference, then context inference; the trailing marital/occupation
blocks of the source are no-ops. -/
def autoDetectGender (raw : PDict) : Option String :=
  let explicitBranch : Option String :=
    if pyTruthy (dGet raw "gender" |>.join) then
      match dGet raw "gender" |>.join with
      | some pv =>
        let g := pyStrip (pyLower pv.str)
        if g = "male" ∨ g = "m" then some "Male"
        else if g = "female" ∨ g = "f" then some "Female"
        else none
      | none => none
    else none
  match explicitBranch with
  | some g => some g
  | none =>
    let nameVal :=
      if pyTruthy (dGet raw "full_name" |>.join) then dGet raw "full_name" |>.join
      else if pyTruthy (dGet raw "first_name" |>.join) then dGet raw "first_name" |>.join
      else if pyTruthy (dGet raw "name" |>.join) then dGet raw "name" |>.join
      else none
    let nameBranch :=
      match nameVal with
      | some pv => inferGenderFromName pv.str
      | none => none
    match nameBranch with
    | some g => some g
    | none =>
      let ctx :=
        if strGetDefault raw "notes" ≠ "" then strGetDefault raw "notes"
        else if strGetDefault raw "description" ≠ "" then strGetDefault raw "description"
        else if strGetDefault raw "text" ≠ "" then strGetDefault raw "text"
        else strGetDefault raw "raw_text"
      if ctx ≠ "" then inferGenderFromContext ctx else none

/-! ## A small regex core for `unstructured_extractor.py`

The education/caste extraction patterns use only: literals, ordered
alternation, an optional atom (`?`), character-class repetition (`[..]*`,
`[..]+`) and word boundaries, all under `re.IGNORECASE`.  `rxEnds` yields the
candidate match lengths in the backtracking preference order of CPython's
engine (greedy, first alternative first); the scanners below implement
`finditer`'s leftmost, non-overlapping semantics. -/

inductive Rx where
  | lit (s : String)
  | seq (a b : Rx)
  | alt2 (a b : Rx)
  | opt (a : Rx)
  | starCls (cls : Char → Bool)
  | plusCls (cls : Char → Bool)

/-- Ordered alternation of a non-empty list. -/
def altN : List Rx → Rx
  | [] => Rx.lit "\x00"
  | r :: rs => rs.foldl Rx.alt2 r

/-- Ordered alternation of literals. -/
def altLits (ls : List String) : Rx :=
  altN (ls.map Rx.lit)

/-- Candidate consumed lengths of a pattern at the head of (lowered) text,
in backtracking preference order. -/
def rxEnds : Rx → List Char → List Nat
  | .lit s, l => if (pyLower s).toList.isPrefixOf l then [s.length] else []
  | .seq a b, l => (rxEnds a l).flatMap (fun ea => (rxEnds b (l.drop ea)).map (ea + ·))
  | .alt2 a b, l => rxEnds a l ++ rxEnds b l
  | .opt a, l => rxEnds a l ++ [0]
  | .starCls cls, l =>
    let n := (l.takeWhile cls).length
    (List.range (n + 1)).reverse
  | .plusCls cls, l =>
    let n := (l.takeWhile cls).length
    ((List.range n).reverse).map (· + 1)

/-- One `finditer` scan: at each position take the first candidate end
(in preference order) that is non-empty and, for `\b`-wrapped patterns,
lands on a word boundary (every alternative starts and ends with a word
character); advance past a match, else by one. -/
def rxScan (bounded : Bool) (r : Rx) (lower orig : List Char) :
    Nat → Nat → List String
  | _, 0 => []
  | p, fuel + 1 =>
    let rest := lower.drop p
    if rest = [] then []
    else
      let okBefore := !bounded || decide (p = 0) ||
        !(isWordChar (lower.getD (p - 1) ' '))
      let ends := if okBefore then rxEnds r rest else []
      let good := ends.find? (fun e =>
        decide (e ≠ 0) &&
        (!bounded || decide (lower.length ≤ p + e) ||
          !(isWordChar (lower.getD (p + e) ' '))))
      match good with
      | some e => (⟨(orig.drop p).take e⟩ : String) :: rxScan bounded r lower orig (p + e) fuel
      | none => rxScan bounded r lower orig (p + 1) fuel

/-- `re.finditer(pattern, s, re.IGNORECASE)` match texts (original casing). -/
def rxFindAll (bounded : Bool) (r : Rx) (s : String) : List String :=
  rxScan bounded r (pyLower s).toList s.toList 0 (s.length + 1)

/-! ## `unstructured_extractor.py` -/

/-- Shorthand constructors for transcribing the patterns. -/
def rseq (rs : List Rx) : Rx :=
  match rs with
  | [] => Rx.lit ""
  | r :: rest => rest.foldl Rx.seq r

/-- An optional literal (`X?` over a one-atom literal). -/
def optLit (s : String) : Rx :=
  Rx.opt (Rx.lit s)

/-- Membership class of a literal character set (for `[ing]*`-style
repetitions). -/
def clsOf (cs : List Char) : Char → Bool :=
  fun c => cs.contains c

/-- `EDUCATION_PATTERNS['degree_markers']`, each wrapped in `\b...\b`. -/
def degreeMarkers : List Rx :=
  [altN [rseq [Rx.lit "B", optLit ".", Rx.lit "A"], Rx.lit "BA",
     rseq [Rx.lit "Bachelor of Art", optLit "s"]],
   altN [rseq [Rx.lit "B", optLit ".", Rx.lit "Sc"], Rx.lit "BSc",
     rseq [Rx.lit "Bachelor of Scienc", optLit "e"]],
   altN [rseq [Rx.lit "B", optLit ".", Rx.lit "Com"], Rx.lit "BCom",
     rseq [Rx.lit "Bachelor of Commerc", optLit "e"]],
   altN [rseq [Rx.lit "B", optLit ".", Rx.lit "Tech"], Rx.lit "BTech",
     rseq [Rx.lit "Bachelor of Technolog", optLit "y"]],
   altN [rseq [Rx.lit "B", optLit ".", Rx.lit "E"], Rx.lit "BE",
     rseq [Rx.lit "Bachelor of Engineer", Rx.starCls (clsOf ['i', 'n', 'g'])]],
   altN [rseq [Rx.lit "M", optLit ".", Rx.lit "A"], Rx.lit "MA",
     rseq [Rx.lit "Master of Art", optLit "s"]],
   altN [rseq [Rx.lit "M", optLit ".", Rx.lit "Sc"], Rx.lit "MSc",
     rseq [Rx.lit "Master of Scienc", optLit "e"]],
   altN [rseq [Rx.lit "M", optLit ".", Rx.lit "Com"], Rx.lit "MCom",
     rseq [Rx.lit "Master of Commerc", optLit "e"]],
   altN [rseq [Rx.lit "M", optLit ".", Rx.lit "Tech"], Rx.lit "MTech",
     rseq [Rx.lit "Master of Technolog", optLit "y"]],
   altN [rseq [Rx.lit "M", optLit ".", Rx.lit "B", optLit ".", Rx.lit "A"],
     Rx.lit "MBA",
     rseq [Rx.lit "Master of Business Admin",
       Rx.starCls (clsOf ['i', 's', 't', 'r', 'a', 'o', 'n'])]],
   altN [rseq [Rx.lit "M", optLit ".", Rx.lit "C", optLit ".", Rx.lit "A"],
     Rx.lit "MCA",
     rseq [Rx.lit "Master of Computer Application", optLit "s"]],
   altN [rseq [Rx.lit "B", optLit ".", Rx.lit "C", optLit ".", Rx.lit "A"],
     Rx.lit "BCA",
     rseq [Rx.lit "Bachelor of Computer Application", optLit "s"]],
   altN [rseq [Rx.lit "LL", optLit "B"],
     rseq [Rx.lit "Bachelor of Law", Rx.starCls (clsOf ['s'])]],
   altN [Rx.lit "LLM", rseq [Rx.lit "Master of Law", Rx.starCls (clsOf ['s'])]],
   altN [Rx.lit "MBBS",
     rseq [Rx.lit "Bachelor of Medicine",
       Rx.plusCls (fun c => c = ',' || pyIsSpace c),
       Rx.lit " Bachelor of Surgery"]],
   altN [rseq [Rx.lit "M", optLit ".", Rx.lit "D"], Rx.lit "MD"],
   altN [rseq [Rx.lit "Ph", optLit ".", Rx.lit "D"], Rx.lit "PhD",
     Rx.lit "Doctor of Philosophy"],
   altN [rseq [Rx.lit "D", optLit ".", Rx.lit "M", optLit ".", Rx.lit "D"],
     Rx.lit "DMD"],
   altN [rseq [Rx.lit "B", optLit ".", Rx.lit "D", optLit ".", Rx.lit "S"],
     Rx.lit "BDS", Rx.lit "Bachelor of Dental Surgery"],
   altN [rseq [Rx.lit "A", optLit ".", Rx.lit "D", optLit ".", Rx.lit "C"],
     Rx.lit "ADC", Rx.lit "Auxiliary Dental Surgeon"],
   Rx.lit "Diploma",
   altN [rseq [Rx.lit "HSS", optLit "C"], Rx.lit "High School", Rx.lit "10+2",
     Rx.lit "12th", Rx.lit "12 pass"],
   altN [Rx.lit "SSC", Rx.lit "10th", Rx.lit "10 pass"]]

/-- `EDUCATION_PATTERNS['field_markers']` (no word boundaries). -/
def fieldMarkers : List Rx :=
  [altLits ["Engineering", "Engineer"],
   altLits ["Commerce", "Commercial"],
   Rx.lit "Science",
   altN [rseq [Rx.lit "Art", optLit "s"], Rx.lit "Humanities"],
   altLits ["Medicine", "Medical"],
   altLits ["Law", "Legal"],
   altLits ["Business", "Management"],
   altLits ["Information Technology", "IT", "Computer"],
   altLits ["Finance", "Accounting"],
   Rx.lit "Marketing",
   altN [rseq [Rx.lit "Human Resource", optLit "s"], Rx.lit "HR"],
   altLits ["Education", "Teaching"]]

/-- Character class `[A-Za-z\s&\.,-]` of the institution pattern. -/
def instClassChar (c : Char) : Bool :=
  ('a' ≤ c && c ≤ 'z') || ('A' ≤ c && c ≤ 'Z') || pyIsSpace c ||
    c = '&' || c = '.' || c = ',' || c = '-'

/-- The institution-name suffix alternatives. -/
def instSuffixes : List String :=
  ["university", "college", "institute", "school", "academy"]

/-- Try the institution pattern
`(?:from|at|studied at)\s+([A-Z][A-Za-z\s&\.,-]*(?:University|...))` at one
position: on success, the captured group-1 text and the match end. -/
def instFindAt (lower orig : List Char) (p : Nat) : Option (String × Nat) :=
  (["from", "at", "studied at"].findSome? (fun lead =>
    if lead.toList.isPrefixOf (lower.drop p) then
      let q := p + lead.length
      let ws := ((lower.drop q).takeWhile pyIsSpace).length
      if ws = 0 then none
      else
        let r := q + ws
        match lower.get? r with
        | none => none
        | some c =>
          if ('a' ≤ c && c ≤ 'z') || ('A' ≤ c && c ≤ 'Z') then
            let m := ((lower.drop (r + 1)).takeWhile instClassChar).length
            ((List.range (m + 1)).reverse).findSome? (fun e =>
              (instSuffixes.findSome? (fun suf =>
                if suf.toList.isPrefixOf (lower.drop (r + 1 + e)) then
                  let fin := r + 1 + e + suf.length
                  some ((⟨(orig.drop r).take (fin - r)⟩ : String), fin)
                else none)))
          else none
    else none))

/-- `finditer` of the institution pattern (group-1 captures). -/
def instScan (lower orig : List Char) : Nat → Nat → List String
  | _, 0 => []
  | p, fuel + 1 =>
    if lower.length ≤ p then []
    else
      match instFindAt lower orig p with
      | some (g, fin) =>
        if p < fin then g :: instScan lower orig fin fuel
        else instScan lower orig (p + 1) fuel
      | none => instScan lower orig (p + 1) fuel

/-- All institution captures in a text. -/
def instFindAll (s : String) : List String :=
  instScan (pyLower s).toList s.toList 0 (s.length + 1)

/-- `extract_education_from_text(text)`: degree markers (word-bounded), field
markers, institution names; stripped, deduplicated (a Python set) and
sorted. -/
def extractEducationFromText (text : String) : List String :=
  if text = "" then []
  else
    let degs := degreeMarkers.flatMap (fun r => (rxFindAll true r text).map pyStrip)
    let flds := fieldMarkers.flatMap (fun r => (rxFindAll false r text).map pyStrip)
    let insts := (instFindAll text).map pyStrip
    pySorted (dedup (degs ++ flds ++ insts))

/-- `CASTE_PATTERNS['jaati_markers']`. -/
def jaatiMarkers : List (List String) :=
  [["Pareek", "Joshi", "Gupta", "Sharma", "Verma", "Singh", "Patel", "Reddy",
    "Nair", "Iyer", "Iyengar"],
   ["Brahmin", "Brahman", "Bania", "Baniya", "Kshatriya", "Shudra", "Vaishya"],
   ["Rajput", "Maratha", "Ahir", "Jat", "Yaadav", "Yadav"]]

/-- `CASTE_PATTERNS['gotra_markers']`. -/
def gotraMarkers : List (List String) :=
  [["Upmanyu", "Bharadwaj", "Kashyap", "Kaushal", "Vashist", "Atri", "Bhrigu",
    "Angirasa"],
   ["Kachhyap", "Goutam", "Maudgalya", "Punarvasu", "Gautam", "Agastya", "Rishi"]]

/-- `CASTE_PATTERNS['sakha_markers']`. -/
def sakhaMarkers : List (List String) :=
  [["Rigveda", "Yajurveda", "Samaveda", "Atharvaveda"],
   ["Shukla", "Krishna"]]

/-- Scan a text with a list of alternation patterns, appending stripped
matches not already collected (the `if x not in result: append` loops). -/
def extractMarkerList (pats : List (List String)) (s : String) : List String :=
  pats.foldl (fun acc p =>
    ((rxFindAll false (altLits p) s).map pyStrip).foldl
      (fun a m => if a.contains m then a else a ++ [m]) acc) []

/-- `unstructured_extractor._find_best_caste_match(value, df, column)`: best
`fuzz.token_set_ratio` over the (stripped) column values, accepted from 75
up, strictly-better-wins. -/
def findBestCasteMatch (value : String) (df : DFrame) (col : String) :
    Option String :=
  match df.colIdx col with
  | none => none
  | some _ =>
    ((df.colDropNa col).foldl (fun best mv =>
      let mvs := pyStrip mv
      let score := tokenSetRatioInt (pyLower value) (pyLower mvs)
      match best with
      | none => if 75 ≤ score then some (mvs, score) else none
      | some b => if b.2 < score ∧ 75 ≤ score then some (mvs, score) else best)
      none).map Prod.fst

/-- The iterate-while-appending refinement loop of
`extract_caste_components_from_text`: Python appends the accepted best match
to the very list being iterated, so appended elements are themselves
processed.  Each append adds a fresh element drawn from the finite master
column, so the fuel `cur.length + column size + 1` can never be exhausted. -/
def refineLoop (df : DFrame) (col : String) : Nat → Nat → List String → List String
  | _, 0, cur => cur
  | idx, fuel + 1, cur =>
    match cur.get? idx with
    | none => cur
    | some v =>
      let cur' :=
        match findBestCasteMatch v df col with
        | some b => if cur.contains b then cur else cur ++ [b]
        | none => cur
      refineLoop df col (idx + 1) fuel cur'

/-- Run the refinement loop on one extracted list. -/
def refineList (df : DFrame) (col : String) (l : List String) : List String :=
  refineLoop df col 0 (l.length + (df.colDropNa col).length + 1) l

/-- The three extracted caste component lists. -/
structure CasteParts where
  jaati : List String
  gotra : List String
  sakha : List String
deriving Repr, DecidableEq

/-- `extract_caste_components_from_text(text)`: regex extraction of the
marker lists, then — when the caste master loads — the master refinement
pass (which silently skips capitalised columns that are no longer present
after a cache-mutating rename). -/
def extractCasteComponentsFromText (cache : Cache) (env : Env) (text : String) :
    CasteParts × Cache :=
  if text = "" then (⟨[], [], []⟩, cache)
  else
    let raw : CasteParts :=
      ⟨extractMarkerList jaatiMarkers text,
       extractMarkerList gotraMarkers text,
       extractMarkerList sakhaMarkers text⟩
    match loadMaster cache env "caste" with
    | (none, c') => (raw, c')
    | (some df, c') =>
      (⟨refineList df "Jaati" raw.jaati,
        refineList df "Gotra" raw.gotra,
        refineList df "Sakha" raw.sakha⟩, c')

/-- `extract_all_structured_info(text)` (an empty list models an absent
key). -/
structure ExtractedInfo where
  education : List String
  jaati : List String
  gotra : List String
  sakha : List String

/-- `extract_all_structured_info(text)`. -/
def extractAllStructuredInfo (cache : Cache) (env : Env) (text : String) :
    ExtractedInfo × Cache :=
  let edu := extractEducationFromText text
  let (cp, c') := extractCasteComponentsFromText cache env text
  (⟨edu, cp.jaati, cp.gotra, cp.sakha⟩, c')

/-- `enrich_profile_from_unstructured_text(biodata, text)`: fill education
and the three caste fields from the extracted lists' first elements, only
where the current value is falsy; on a biodata dictionary lacking such a key
this inserts the key. -/
def enrichProfileFromUnstructuredText (cache : Cache) (env : Env)
    (biodata : PDict) (text : String) : PDict × Cache :=
  let (ext, c') := extractAllStructuredInfo cache env text
  let fill := fun (d : PDict) (key : String) (vals : List String) =>
    if ¬ pyTruthy ((dGet d key).join) ∧ vals ≠ [] then
      dSet d key (some (PyVal.s (vals.headD "")))
    else d
  let d := biodata
  let d := fill d "education" ext.education
  let d := fill d "jaati" ext.jaati
  let d := fill d "gotra" ext.gotra
  let d := fill d "sakha" ext.sakha
  (d, c')

/-! ## `geocoding.py` -/

/-- Rename a column the way the geocoding result dictionaries do
(`col.lower().replace(' ', '_')`). -/
def geoKey (c : String) : String :=
  pyReplace (pyLower c) " " "_"

/-- A result dictionary of the geocoding lookups: renamed column names to
stripped values (only non-null cells). -/
def geoRowDict (df : DFrame) (r : List (Option String)) : List (String × String) :=
  df.cols.foldl (fun acc col =>
    match df.cell r col with
    | some v => dSet acc (geoKey col) (pyStrip v)
    | none => acc) []

/-- `geocoding._lookup_by_city_state(df, city, state)`: filter by
case-insensitive city/state equality on the first matching column, and
return the first remaining row's dictionary. -/
def lookupByCityState (df : DFrame) (city state : Option String) :
    Option (List (String × String)) :=
  if city.isNone ∧ state.isNone then none
  else
    let rows0 := df.rows
    let rows1 :=
      match city with
      | none => rows0
      | some cv =>
        match (df.cols.filter (fun c => pySubstring "city" (pyLower c))).head? with
        | none => rows0
        | some cc =>
          match df.colIdx cc with
          | none => rows0
          | some i => rows0.filter (fun r => pyLower (cellStr (r.get? i).join) = pyLower cv)
    let rows2 :=
      match state with
      | none => rows1
      | some sv =>
        match (df.cols.filter (fun c => pySubstring "state" (pyLower c))).head? with
        | none => rows1
        | some sc =>
          match df.colIdx sc with
          | none => rows1
          | some i => rows1.filter (fun r => pyLower (cellStr (r.get? i).join) = pyLower sv)
    match rows2 with
    | [] => none
    | r :: _ => some (geoRowDict df r)

/-- `geocoding.lookup_zipcode_by_address(address, city, state)`: restrict to
city/state matches when possible (falling back to the whole table), score
every non-null address-column cell with `token_set_ratio`, and from 60 up
return the dictionary of the best row — which is looked up by the
misaligned `search_df.index[idx]` of the source: the positional index of the
`dropna` sequence applied to the filtered frame's index. -/
def lookupZipcodeByAddress (cache : Cache) (env : Env) (address : String)
    (city state : Option String) : Option (List (String × String)) × Cache :=
  let a := pyStrip address
  if a = "" then (none, cache)
  else
    match loadMaster cache env "country_state" with
    | (none, c') => (none, c')
    | (some df, c') =>
      let addressCols := df.cols.filter (fun col =>
        ["address", "street", "area", "locality", "place"].any
          (fun x => pySubstring x (pyLower col)))
      if addressCols = [] then (lookupByCityState df city state, c')
      else
        let indexed := (List.range df.rows.length).zip df.rows
        let filt1 :=
          match city with
          | none => indexed
          | some cv =>
            match (df.cols.filter (fun c => pySubstring "city" (pyLower c))).head? with
            | none => indexed
            | some cc =>
              match df.colIdx cc with
              | none => indexed
              | some i => indexed.filter (fun p =>
                  pyLower (cellStr (p.2.get? i).join) = pyLower cv)
        let filt2 :=
          match state with
          | none => filt1
          | some sv =>
            match (df.cols.filter (fun c => pySubstring "state" (pyLower c))).head? with
            | none => filt1
            | some sc =>
              match df.colIdx sc with
              | none => filt1
              | some i => filt1.filter (fun p =>
                  pyLower (cellStr (p.2.get? i).join) = pyLower sv)
        let searchDf := if filt2 = [] then indexed else filt2
        let best := addressCols.foldl (fun best col =>
          match df.colIdx col with
          | none => best
          | some i =>
            let vals := searchDf.filterMap (fun p => (p.2.get? i).join)
            (List.range vals.length).foldl (fun best idx =>
              match vals.get? idx with
              | none => best
              | some mv =>
                let score := tokenSetRatioInt (pyLower a) (pyLower (pyStrip mv))
                if best.1 < score then
                  (score, (searchDf.get? idx).map Prod.fst)
                else best) best) ((0 : ℤ), (none : Option Nat))
        match best.2 with
        | some rowIdx =>
          if 60 ≤ best.1 then
            match df.rows.get? rowIdx with
            | some r => (some (geoRowDict df r), c')
            | none => (none, c')
          else (none, c')
        | none => (none, c')

/-- The components extracted by `geocoding.extract_address_components`. -/
structure AddrComponents where
  street : Option String
  city : Option String
  state : Option String
  zipCode : Option String
  country : Option String
deriving Repr, DecidableEq

/-- Leftmost `\b\d{5,6}\b` match: the first maximal digit run of length 5 or
6 not flanked by word characters; yields the run and its start. -/
def findZip56 (l : List Char) : Option (String × Nat) :=
  let n := l.length
  (List.range n).findSome? (fun p =>
    let prevOk := p = 0 ∨ ¬ isWordChar (l.getD (p - 1) ' ')
    if prevOk then
      let run := (l.drop p).takeWhile pyIsDigit
      if run.length = 5 ∨ run.length = 6 then
        if n ≤ p + run.length ∨ ¬ isWordChar (l.getD (p + run.length) ' ') then
          some ((⟨run⟩ : String), p)
        else none
      else none
    else none)

/-- `geocoding.extract_address_components(full_address)`: pull out a 5–6
digit postal code, then split the remaining text on commas into street /
city / state. -/
def extractAddressComponents (fullAddress : String) : AddrComponents :=
  if fullAddress = "" then ⟨none, none, none, none, none⟩
  else
    let l := fullAddress.toList
    let (zipc, rest) :=
      match findZip56 l with
      | some (z, p) => (some z, pyStrip ⟨l.take p⟩)
      | none => (none, fullAddress)
    let parts := (pySplitChar rest ',').map pyStrip
    if 3 ≤ parts.length then
      ⟨parts.head?, parts.get? (parts.length - 2), parts.getLast?, zipc, none⟩
    else
      match parts with
      | [a, b] => ⟨some a, some b, none, zipc, none⟩
      | _ => ⟨some rest, none, none, zipc, none⟩

/-- `geocoding.find_closest_zipcode(partial_address, threshold)`: score every
row's address-capable cells (a `NaN` prints as `"nan"` and is scored too),
keep rows at or above the threshold, sort by score descending (stable), and
return the top ten as dictionaries with a `_match_score` entry. -/
def findClosestZipcode (cache : Cache) (env : Env) (partial' : String)
    (threshold : ℤ) : List (List (String × String)) × Cache :=
  let a := pyStrip partial'
  if a = "" then ([], cache)
  else
    match loadMaster cache env "country_state" with
    | (none, c') => ([], c')
    | (some df, c') =>
      let addressCols := df.cols.filter (fun col =>
        ["address", "street", "area", "locality", "city"].any
          (fun x => pySubstring x (pyLower col)))
      if addressCols = [] then ([], c')
      else
        let scored := df.rows.filterMap (fun r =>
          let maxScore := addressCols.foldl (fun m col =>
            let mv := pyStrip (cellStr (df.cell r col))
            if mv ≠ "" then max m (tokenSetRatioInt (pyLower a) (pyLower mv))
            else m) 0
          if threshold ≤ maxScore then some (maxScore, r) else none)
        let sorted := stableSortBy (fun x y => x.1 > y.1) scored
        let top := sorted.take 10
        (top.map (fun p => geoRowDict df p.2 ++ [("_match_score", toString p.1)]), c')

/-! ## `normalisation.py` -/

/-- Python truthiness of an optional string. -/
def pyTruthyS (v : Option String) : Bool :=
  match v with
  | none => false
  | some s => s ≠ ""

/-- The hardcoded fallback output schema of `_load_schema`. -/
def fallbackSchema : List String :=
  ["full_name", "first_name", "last_name", "gender", "date_of_birth", "age",
   "birth_time", "birth_place", "height", "marital_status", "religion",
   "caste", "jaati", "gotra", "sakha", "manglik", "education",
   "specialization", "occupation", "annual_income", "address", "village",
   "tahsil", "district", "native_state", "state", "city", "country",
   "zip_code", "email_id", "mobile_no", "phone_no", "about_yourself_summary"]

/-- `normalisation._load_schema`: the `Biodata_Output` headers when the file
exists, else the fallback list. -/
def loadSchema (env : Env) : List String :=
  match loadBiodataOutputSchema env with
  | some h => h
  | none => fallbackSchema

/-- `out = {k: None for k in output_columns}`. -/
def mkOut (schema : List String) : PDict :=
  schema.foldl (fun o k => dSet o k none) []

/-- `_get(*keys)`: first key bound to a non-`None` value. -/
def rawGet (raw : PDict) : List String → Option PyVal
  | [] => none
  | k :: ks =>
    match dGet raw k with
    | some (some v) => some v
    | _ => rawGet raw ks

/-- The Pascal-case alias built by `_get_pascal`. -/
def pascalOf (k : String) : String :=
  String.join ((pySplitChar k '_').map pyCapitalize)

/-- `_get_pascal(*keys)`: each key is tried as given and as its Pascal-case
alias. -/
def rawGetPascal (raw : PDict) : List String → Option PyVal
  | [] => none
  | k :: ks =>
    match dGet raw k with
    | some (some v) => some v
    | _ =>
      match dGet raw (pascalOf k) with
      | some (some v) => some v
      | _ => rawGetPascal raw ks

/-- `"k" in out`. -/
def outHas (out : PDict) (k : String) : Bool :=
  (dGet out k).isSome

/-- `out.get(k)` (also `out[k]` where the key is known present). -/
def outGet (out : PDict) (k : String) : Option PyVal :=
  (dGet out k).join

/-- `if "k" in out: out["k"] = v`. -/
def setIf (out : PDict) (k : String) (v : Option PyVal) : PDict :=
  if outHas out k then dSet out k v else out

/-- An optional string as an optional profile value. -/
def sv (o : Option String) : Option PyVal :=
  o.map PyVal.s

/-- `normalisation._is_institution_like(val)`: institution keywords or
comma/semicolon. -/
def isInstitutionLike (val : Option String) : Bool :=
  match val with
  | none => false
  | some s =>
    if s = "" then false
    else
      let v := pyLower s
      ["university", "college", "institute", "department", "faculty",
        "school", "hospital"].any (fun i => pySubstring i v) ||
      pyContainsChar v ',' || pyContainsChar v ';'

/-- Full-name resolution and split (`normalize_profile`, names section). -/
def npNames (raw : PDict) (st : PDict × Cache) : PDict × Cache :=
  let fnRaw := rawGetPascal raw ["full_name", "name", "FullName", "fullname"]
  let fnRaw :=
    if ¬ pyTruthy fnRaw then
      let fr := rawGetPascal raw ["first_name", "FirstName"]
      let lr := rawGetPascal raw ["last_name", "LastName"]
      if pyTruthy fr ∨ pyTruthy lr then
        let parts := (if pyTruthy fr then [pyStrip (fr.map PyVal.str).iget] else []) ++
          (if pyTruthy lr then [pyStrip (lr.map PyVal.str).iget] else [])
        if parts ≠ [] then some (PyVal.s (pyJoinSpace parts)) else none
      else fnRaw
    else fnRaw
  let fullName := cleanStr fnRaw
  let (first, last) := parseName fullName
  let out := setIf st.1 "full_name" (sv fullName)
  let out := setIf out "first_name" (sv first)
  let out := setIf out "last_name" (sv last)
  (out, st.2)

/-- Python `int(s)` on the year component of the ISO date (sign and
surrounding whitespace per CPython; a non-numeric component raises, caught
by the enclosing `except`). -/
def parseIntOpt (s : String) : Option ℤ :=
  let t := pyStrip s
  match t.toList with
  | '-' :: ds => if ds ≠ [] ∧ ds.all pyIsDigit then some (-(digitsToInt ds)) else none
  | ds => if ds ≠ [] ∧ ds.all pyIsDigit then some (digitsToInt ds) else none

/-- Age and date-of-birth section. -/
def npAgeDob (env : Env) (raw : PDict) (st : PDict × Cache) : PDict × Cache :=
  let dobIso := normalizeDate env (rawGetPascal raw ["date_of_birth", "dob", "DOB", "DateOfBirth"])
  let ageInt := normalizeAge (rawGetPascal raw ["age", "Age"])
  let ageInt :=
    match ageInt, dobIso with
    | none, some d =>
      match (pySplitChar d '-').head? with
      | none => none
      | some y0 =>
        match parseIntOpt y0 with
        | none => none
        | some y =>
          let a := env.currentYear - y
          if a ≤ 0 ∨ 120 < a then none else some a
    | a, _ => a
  let out := setIf st.1 "age" (ageInt.map PyVal.i)
  let out := setIf out "date_of_birth" (sv dobIso)
  (out, st.2)

/-- Birth time and birth place section. -/
def npBirth (raw : PDict) (st : PDict × Cache) : PDict × Cache :=
  let out := st.1
  let out :=
    if outHas out "birth_time" then
      let btRaw := cleanStr (rawGetPascal raw ["birth_time", "birthtime", "BirthTime"])
      match btRaw with
      | some b =>
        let n := normalizeBirthTime (some b)
        dSet out "birth_time" (sv (some (n.getD b)))
      | none => dSet out "birth_time" none
    else out
  let out := setIf out "birth_place"
    (sv (cleanStr (rawGetPascal raw ["birth_place", "birthplace", "BirthPlace"])))
  (out, st.2)

/-- Gender section: token mapping, raw passthrough for unrecognised tokens,
auto-detection when absent. -/
def npGender (raw : PDict) (st : PDict × Cache) : PDict × Cache :=
  let out := st.1
  let out :=
    if outHas out "gender" then
      match cleanStr (rawGetPascal raw ["gender", "sex", "Gender"]) with
      | some g =>
        let low := pyStrip (pyLower g)
        if ["m", "male", "boy"].contains low then dSet out "gender" (some (.s "Male"))
        else if ["f", "female", "girl", "woman"].contains low then
          dSet out "gender" (some (.s "Female"))
        else dSet out "gender" (some (.s g))
      | none => dSet out "gender" (sv (autoDetectGender raw))
    else out
  (out, st.2)

/-- Marital status: strict master lookup with the local-normaliser
fallback. -/
def npMaritalLookup (env : Env) (raw : PDict) (st : PDict × Cache) : PDict × Cache :=
  let (out, cache) := st
  if outHas out "marital_status" then
    match cleanStr (rawGetPascal raw ["marital_status", "maritalstatus", "MaritialStatus"]) with
    | some mr =>
      let (v1, cache') := lookupMaritalStatus cache env mr
      let v := if ¬ pyTruthyS v1 then normalizeMaritalStatus (some mr) 80 else v1
      (dSet out "marital_status" (sv v), cache')
    | none => (dSet out "marital_status" none, cache)
  else (out, cache)

/-- The enforcement allow-list hard-coded in `normalize_profile` (narrower
than, and inconsistent with, both the validator's enum list and the master
data: it has no `Single`). -/
def enforcedMaritalAllowed : List String :=
  ["Awaiting Divorce", "Committed", "Divorced", "Married", "Un-Married",
   "Widow", "Widower"]

/-- The `matched` computation of the marital-status enforcement block:
case-insensitive equality, then substring containment either way, then
`fuzzywuzzy.process.extractOne` from the threshold up. -/
def maritalEnforceMatch (mv : String) (threshold : ℤ) : Option String :=
  match enforcedMaritalAllowed.find? (fun a => pyLower a = pyLower mv) with
  | some a => some a
  | none =>
    match enforcedMaritalAllowed.find? (fun a =>
        pySubstring (pyLower a) (pyLower mv) || pySubstring (pyLower mv) (pyLower a)) with
    | some a => some a
    | none =>
      match fwExtractOne mv enforcedMaritalAllowed with
      | some (c, s) => if threshold ≤ s then some c else none
      | none => none

/-- Marital-status enforcement section (`Enforce marital status to the
allowed canonical set from business rules`). -/
def npMaritalEnforce (raw : PDict) (st : PDict × Cache) : PDict × Cache :=
  let (out, cache) := st
  if outHas out "marital_status" then
    let msRawVal :=
      if pyTruthy (outGet out "marital_status") then outGet out "marital_status"
      else sv (cleanStr (rawGetPascal raw ["marital_status", "maritalstatus", "MaritialStatus"]))
    let matched :=
      if pyTruthy msRawVal then
        maritalEnforceMatch (pyStrip (msRawVal.map PyVal.str).iget) 80
      else none
    (dSet out "marital_status" (sv matched), cache)
  else (out, cache)

/-- Manglik: strict master lookup with the local-normaliser fallback. -/
def npManglikLookup (env : Env) (raw : PDict) (st : PDict × Cache) : PDict × Cache :=
  let (out, cache) := st
  if outHas out "manglik" then
    match cleanStr (rawGetPascal raw ["manglik", "Manglik"]) with
    | some mr =>
      let (v1, cache') := lookupManglik cache env mr
      let v := if ¬ pyTruthyS v1 then normalizeManglik (some mr) 80 else v1
      (dSet out "manglik" (sv v), cache')
    | none => (dSet out "manglik" none, cache)
  else (out, cache)

/-- The final manglik coercion of the ensure-section: any value containing a
yes-token maps to `Yes`, else a no-token (including the substrings `no` and
`non`) to `No`, anything else — including a missing value — to
`Don't Know`. -/
def manglikCoerce (mv : String) : String :=
  if ["yes", "y", "true", "t", "manglik"].contains mv ∨ pySubstring "yes" mv then "Yes"
  else if ["no", "n", "false", "f", "non-manglik", "non manglik"].contains mv ∨
      pySubstring "no" mv ∨ pySubstring "non" mv then "No"
  else "Don\x27t Know"

/-- Manglik ensure-section (`Ensure manglik is always one of ...`). -/
def npManglikEnsure (raw : PDict) (st : PDict × Cache) : PDict × Cache :=
  let (out, cache) := st
  if outHas out "manglik" then
    let mVal :=
      if pyTruthy (outGet out "manglik") then outGet out "manglik"
      else sv (cleanStr (rawGetPascal raw ["manglik", "Manglik"]))
    if pyTruthy mVal then
      (dSet out "manglik" (some (.s (manglikCoerce (pyLower (mVal.map PyVal.str).iget)))), cache)
    else (dSet out "manglik" (some (.s "Don\x27t Know")), cache)
  else (out, cache)

/-- Religion section. -/
def npReligion (raw : PDict) (st : PDict × Cache) : PDict × Cache :=
  (setIf st.1 "religion" (sv (cleanStr (rawGetPascal raw ["religion", "Religion"]))), st.2)

/-- First truthy caste-related raw value, in the source's field order. -/
def casteLookupValue (raw : PDict) : Option PyVal :=
  ["gotra", "sakha", "jaati", "caste", "community", "Gotra", "Sakha",
   "Jaati", "Caste"].findSome? (fun f =>
    let v := rawGetPascal raw [f]
    if pyTruthy v then v else none)

/-- `out[k] = caste_data.get(k) or out[k]`. -/
def casteFill (out : PDict) (k : String) (v : Option String) : PDict :=
  if outHas out k then
    dSet out k (if pyTruthyS v then sv v else outGet out k)
  else out

/-- One per-field fallback of the caste section: master values of the given
capitalised column (empty list when the load or the column access raises),
then `normalize_via_master`. -/
def casteFieldFallback (cache : Cache) (env : Env) (raw : PDict)
    (out : PDict) (k : String) (rawKeys : List String) (col : String) :
    PDict × Cache :=
  if outHas out k then
    let (vals, cache') := getMasterValues cache env "caste" (some col)
    let master := vals.getD []
    let v := normalizeViaMaster ((rawGetPascal raw rawKeys).map PyVal.str) master 80
    (dSet out k (sv v), cache')
  else (out, cache)

/-- Caste section: joint lookup across the four correlated fields, with the
independent per-field fallback when the joint lookup misses. -/
def npCaste (env : Env) (raw : PDict) (st : PDict × Cache) : PDict × Cache :=
  let (out, cache) := st
  match casteLookupValue raw with
  | none => (out, cache)
  | some clv =>
    let (casteData, cache) :=
      match clv with
      | .s s => lookupCasteByAnyField cache env s
      | .i _ => (none, cache)
    match casteData with
    | some cd =>
      let out := casteFill out "jaati" cd.jaati
      let out := casteFill out "caste" cd.caste
      let out := casteFill out "gotra" cd.gotra
      let out := casteFill out "sakha" cd.sakha
      (out, cache)
    | none =>
      let (out, cache) := casteFieldFallback cache env raw out "jaati"
        ["jaati", "caste", "community"] "Jaati"
      let (out, cache) := casteFieldFallback cache env raw out "caste"
        ["caste", "Caste"] "Caste"
      let (out, cache) := casteFieldFallback cache env raw out "gotra"
        ["gotra", "Gotra"] "Gotra"
      let (out, cache) := casteFieldFallback cache env raw out "sakha"
        ["sakha", "Sakha"] "Sakha"
      (out, cache)

/-- Education section: parse and look up the combined degree/specialisation
string. -/
def npEducation (env : Env) (raw : PDict) (st : PDict × Cache) : PDict × Cache :=
  let (out, cache) := st
  if outHas out "education" then
    let qualRaw := rawGetPascal raw ["education", "qualification", "degree", "Education"]
    if pyTruthy qualRaw then
      let (es, cache) :=
        match qualRaw with
        | some (.s s) => parseEducationSpecialization cache env s
        | _ => ((none, none), cache)
      let out := dSet out "education" (sv es.1)
      let out :=
        if outHas out "specialization" ∧ pyTruthyS es.2 then
          dSet out "specialization" (sv es.2)
        else out
      (out, cache)
    else (dSet out "education" none, cache)
  else (out, cache)

/-- Direct specialisation lookup when the education parse set nothing. -/
def npSpecialization (raw : PDict) (st : PDict × Cache) : PDict × Cache :=
  let out := st.1
  let out :=
    if outHas out "specialization" ∧ ¬ pyTruthy (outGet out "specialization") then
      dSet out "specialization"
        (sv (cleanStr (rawGetPascal raw ["specialization", "field_of_study", "Specialization"])))
    else out
  (out, st.2)

/-- Occupation section. -/
def npOccupation (env : Env) (raw : PDict) (st : PDict × Cache) : PDict × Cache :=
  let (out, cache) := st
  if outHas out "occupation" then
    let occRaw := rawGetPascal raw ["occupation", "job", "profession", "Occupation"]
    if pyTruthy occRaw then
      let (v, cache) :=
        match occRaw with
        | some (.s s) => lookupOccupation cache env s
        | _ => (none, cache)
      (dSet out "occupation" (sv v), cache)
    else (dSet out "occupation" none, cache)
  else (out, cache)

/-- Annual income section. -/
def npIncome (raw : PDict) (st : PDict × Cache) : PDict × Cache :=
  (setIf st.1 "annual_income"
    (sv (cleanStr (rawGetPascal raw ["annual_income", "income", "AnnualIncome"]))), st.2)

/-- Address passthrough section (`_get`, not `_get_pascal`). -/
def npAddress (raw : PDict) (st : PDict × Cache) : PDict × Cache :=
  (setIf st.1 "address" (sv (cleanStr (rawGet raw ["address"]))), st.2)

/-- The current state value after the institution-like filter. -/
def currentStateOf (raw : PDict) : Option String :=
  let cs := cleanStr (rawGetPascal raw ["state", "region", "State"])
  if isInstitutionLike cs then none else cs

/-- `if "k" in out and not out["k"]: out["k"] = v`. -/
def fillIfEmpty (out : PDict) (k : String) (v : Option PyVal) : PDict :=
  if outHas out k ∧ ¬ pyTruthy (outGet out k) then dSet out k v else out

/-- Pin-code lookup section. -/
def npPincode (env : Env) (raw : PDict) (st : PDict × Cache) : PDict × Cache :=
  let (out, cache) := st
  let zipRaw := rawGetPascal raw
    ["zip_code", "zipcode", "postal_code", "pincode", "pin", "ZipCode"]
  if pyTruthy zipRaw then
    let z := pyStrip (zipRaw.map PyVal.str).iget
    let (ad, cache) := lookupAddressByPincode cache env z
    match ad with
    | some d =>
      if d ≠ [] then
        let out := fillIfEmpty out "country" (sv (dGet d "country"))
        let out := fillIfEmpty out "state" (sv (dGet d "state"))
        let out := fillIfEmpty out "city" (sv (dGet d "city"))
        let out := fillIfEmpty out "district" (sv (dGet d "district"))
        let out := fillIfEmpty out "zip_code" (some (.s z))
        (out, cache)
      else (out, cache)
    | none => (out, cache)
  else (out, cache)

/-- Reverse-geocoding section: only when an address is present and no zip
code was resolved yet. -/
def npRevGeo (env : Env) (raw : PDict) (st : PDict × Cache) : PDict × Cache :=
  let (out, cache) := st
  let addressRaw := cleanStr (rawGet raw ["address"])
  if pyTruthyS addressRaw ∧ ¬ pyTruthy (outGet out "zip_code") then
    let (zr, cache) := lookupZipcodeByAddress cache env addressRaw.iget
      (cleanStr (rawGetPascal raw ["city", "City"])) (currentStateOf raw)
    match zr with
    | some d =>
      if d ≠ [] then
        let zc :=
          if pyTruthyS (dGet d "zip_code") then dGet d "zip_code"
          else dGet d "postal_code"
        let out := fillIfEmpty out "zip_code" (sv zc)
        let out := fillIfEmpty out "city" (sv (dGet d "city"))
        let out := fillIfEmpty out "state" (sv (dGet d "state"))
        let out := fillIfEmpty out "country" (sv (dGet d "country"))
        let out := fillIfEmpty out "district" (sv (dGet d "district"))
        (out, cache)
      else (out, cache)
    | none => (out, cache)
  else (out, cache)

/-- `out[k] = out.get(k) or v`. -/
def keepOr (out : PDict) (k : String) (v : Option PyVal) : PDict :=
  if outHas out k then
    dSet out k (if pyTruthy (outGet out k) then outGet out k else v)
  else out

/-- Village/tahsil/district/native-state/city/zip passthrough section. -/
def npLocalFields (raw : PDict) (st : PDict × Cache) : PDict × Cache :=
  let out := st.1
  let out := setIf out "village" (sv (cleanStr (rawGetPascal raw ["village", "Village"])))
  let out := setIf out "tahsil" (sv (cleanStr (rawGetPascal raw ["tahsil", "Tahsil"])))
  let out := keepOr out "district" (sv (cleanStr (rawGetPascal raw ["district", "District"])))
  let out :=
    if outHas out "native_state" then
      let nsv := cleanStr (rawGetPascal raw ["native_state", "nativestate", "NativeState"])
      dSet out "native_state" (some (.s (nsv.getD "Rajasthan")))
    else out
  let out := keepOr out "city" (sv (cleanStr (rawGetPascal raw ["city", "City"])))
  let out := keepOr out "zip_code"
    (sv (cleanStr (rawGetPascal raw ["zip_code", "zipcode", "postal_code", "pincode", "ZipCode"])))
  (out, st.2)

/-- Zip-code fallback section: structural parse of the address text, then
the partial-address ranking at threshold 65. -/
def npZipFallback (env : Env) (raw : PDict) (st : PDict × Cache) : PDict × Cache :=
  let (out, cache) := st
  if outHas out "zip_code" ∧ ¬ pyTruthy (outGet out "zip_code") then
    let addressRaw := cleanStr (rawGet raw ["address"])
    let components := extractAddressComponents (addressRaw.getD "")
    let out :=
      if pyTruthyS components.zipCode then
        dSet out "zip_code" (sv components.zipCode)
      else out
    if ¬ pyTruthy (outGet out "zip_code") then
      let parts := [sv addressRaw, outGet out "city", outGet out "district",
        outGet out "state", outGet out "birth_place"].filterMap (fun f =>
          if pyTruthy f then some (f.map PyVal.str).iget else none)
      let partial' := pyJoin ", " parts
      if partial' ≠ "" then
        let (ms, cache) := findClosestZipcode cache env partial' 65
        match ms with
        | first :: _ =>
          let zc :=
            if pyTruthyS (dGet first "zip_code") then dGet first "zip_code"
            else if pyTruthyS (dGet first "pincode") then dGet first "pincode"
            else dGet first "postal_code"
          if pyTruthyS zc then (dSet out "zip_code" (sv zc), cache)
          else (out, cache)
        | [] => (out, cache)
      else (out, cache)
    else (out, cache)
  else (out, cache)

/-- Country/state section: master-restricted matching with the India
default. -/
def npCountryState (env : Env) (raw : PDict) (st : PDict × Cache) : PDict × Cache :=
  let (out, cache) := st
  if outHas out "country" ∨ outHas out "state" then
    let countryRaw := (rawGetPascal raw ["country", "nationality", "Country"]).map PyVal.str
    let stateRaw := (rawGetPascal raw ["state", "region", "State"]).map PyVal.str
    let (df, cache) := loadMaster cache env "country_state"
    let (cv, stv) := normalizeCountryState countryRaw stateRaw df 80
    let out := setIf out "country" (sv cv)
    let out := setIf out "state" (sv stv)
    (out, cache)
  else (out, cache)

/-- Height section: exact master lookup, the standard-format fallback, then
the legacy normaliser with an empty master list. -/
def npHeight (env : Env) (raw : PDict) (st : PDict × Cache) : PDict × Cache :=
  let (out, cache) := st
  if outHas out "height" then
    let hRaw := rawGetPascal raw ["height", "Height", "height_cm"]
    if pyTruthy hRaw then
      let (v1, cache) :=
        match hRaw with
        | some (.s s) => lookupHeightExact cache env s
        | _ => (none, cache)
      let v :=
        if ¬ pyTruthyS v1 then
          let hs := (hRaw.map PyVal.str).iget
          match normalizeHeightFormat (some hs) with
          | some f => some f
          | none => normalizeHeight (some hs) [] 80
        else v1
      (dSet out "height" (sv v), cache)
    else (dSet out "height" none, cache)
  else (out, cache)

/-- Contact fields section. -/
def npContacts (raw : PDict) (st : PDict × Cache) : PDict × Cache :=
  let out := st.1
  let out := setIf out "email_id" (sv (cleanStr (rawGetPascal raw ["email_id", "email", "EmailId"])))
  let out := setIf out "mobile_no"
    (sv (cleanStr (rawGetPascal raw ["mobile_no", "mobile", "phone", "contact", "MobileNo"])))
  let out := setIf out "phone_no" (sv (cleanStr (rawGetPascal raw ["phone_no", "phone", "PhoneNo"])))
  (out, st.2)

/-- Enrichment section: fill the four enrichable fields from the
unstructured text, then the about-yourself summary. -/
def npEnrich (env : Env) (raw : PDict) (st : PDict × Cache) : PDict × Cache :=
  let (out, cache) := st
  let unstructured := rawGet raw ["notes", "description", "text", "raw_text",
    "comments", "about_yourself", "ABOUT YOURSELF"]
  if pyTruthy unstructured then
    let txt := (unstructured.map PyVal.str).iget
    let (out, cache) := enrichProfileFromUnstructuredText cache env out txt
    let out :=
      if outHas out "about_yourself_summary" then
        dSet out "about_yourself_summary" (sv (summarizeAboutYourself (some txt)))
      else out
    (out, cache)
  else (out, cache)

/-- `normalisation.normalize_profile(raw_profile)` under the default
configuration (`scorer="auto"`, threshold 80): the canonical-profile
dictionary (the companion cache state is threaded through the lookups). -/
def normalizeProfileSt (env : Env) (cache : Cache) (raw : PDict) : PDict × Cache :=
  let out := mkOut (loadSchema env)
  let st := (out, cache)
  let st := npNames raw st
  let st := npAgeDob env raw st
  let st := npBirth raw st
  let st := npGender raw st
  let st := npMaritalLookup env raw st
  let st := npMaritalEnforce raw st
  let st := npManglikLookup env raw st
  let st := npManglikEnsure raw st
  let st := npReligion raw st
  let st := npCaste env raw st
  let st := npEducation env raw st
  let st := npSpecialization raw st
  let st := npOccupation env raw st
  let st := npIncome raw st
  let st := npAddress raw st
  let st := npPincode env raw st
  let st := npRevGeo env raw st
  let st := npLocalFields raw st
  let st := npZipFallback env raw st
  let st := npCountryState env raw st
  let st := npHeight env raw st
  let st := npContacts raw st
  let st := npEnrich env raw st
  st

/-- The canonical profile returned by `normalize_profile` (starting from an
empty master cache, as at process start). -/
def normalizeProfile (env : Env) (raw : PDict) : PDict :=
  (normalizeProfileSt env [] raw).1

/-! ## Proof-measure definitions and concrete scenario data

`npos`/`dstreak` measure autojunk-surviving runs for the `difflib` proofs.
The small environments below instantiate the end-to-end scenarios of the
specification (each claim's scenario gets its own copies, so the witnesses
stay independent). -/

/-- Position `p` survives autojunk (its character keeps a `b2j` chain). -/
def npos (l : List Char) (p : Nat) : Bool :=
  decide (p < l.length) && ! isPopular l (l.getD p ' ')

/-- Length of the maximal run of autojunk-surviving positions ending at
`i`. -/
def dstreak (l : List Char) : Nat → Nat
  | 0 => if npos l 0 then 1 else 0
  | i + 1 => if npos l (i + 1) then dstreak l i + 1 else 0

/-- A `Biodata_Output` header with four columns, schema of the enrichment
scenario. -/
def dfSchemaC1 : DFrame :=
  ⟨["full_name", "education", "gotra", "sakha"], []⟩

/-- Environment providing only the four-column output schema. -/
def envC1 : Env :=
  ⟨fun k => if k = "biodata_output" then some dfSchemaC1 else none,
   fun _ => none, 2026⟩

/-- A raw profile whose only content is an unstructured note. -/
def rawC1 : PDict :=
  [("notes", some (.s "Pareek"))]

/-- Marital-status master with the canonical form `Single`. -/
def dfMaritalC3 : DFrame :=
  ⟨["marital_status"], [[some "Single"], [some "Married"], [some "Divorced"]]⟩

/-- Manglik master with the canonical form `Yes`. -/
def dfManglikC3 : DFrame :=
  ⟨["manglik"], [[some "Yes"], [some "No"]]⟩

/-- The reference data of the Priya scenario. -/
def envC3 : Env :=
  ⟨fun k =>
    if k = "marital_status" then some dfMaritalC3
    else if k = "manglik" then some dfManglikC3
    else none,
   fun _ => none, 2026⟩

/-- The raw profile of the Priya scenario. -/
def rawC3 : PDict :=
  [("full_name", some (.s "Priya Sharma")),
   ("marital_status", some (.s "single")),
   ("manglik", some (.s "y"))]

/-- Reference data for the strict-enum witness. -/
def envC2 : Env :=
  ⟨fun k =>
    if k = "marital_status" then some dfMaritalC3
    else if k = "manglik" then some dfManglikC3
    else none,
   fun _ => none, 2026⟩

/-- A raw profile whose marital status survives the enforcement block. -/
def rawC2 : PDict :=
  [("full_name", some (.s "Priya Sharma")),
   ("marital_status", some (.s "married")),
   ("manglik", some (.s "y"))]

/-- Occupation master without any match for the passthrough scenario. -/
def dfOccC4 : DFrame :=
  ⟨["occupation"], [[some "Engineer"], [some "Doctor"]]⟩

/-- Environment providing only the occupation master. -/
def envC4 : Env :=
  ⟨fun k => if k = "occupation" then some dfOccC4 else none, fun _ => none, 2026⟩

/-- Caste master for the single-row scenario. -/
def dfCasteC5 : DFrame :=
  ⟨["Jaati", "Gotra"],
   [[some "Pareek", some "Kashyap"], [some "Joshi", some "Bharadwaj"]]⟩

/-- Environment providing only the caste master. -/
def envC5 : Env :=
  ⟨fun k => if k = "caste" then some dfCasteC5 else none, fun _ => none, 2026⟩

/-- The record the caste lookup returns in the single-row scenario. -/
def recC5 : CasteRec :=
  ⟨some "Pareek", none, some "Kashyap", none⟩

/-- The cache state after the caste lookup of the single-row scenario. -/
def cacheC5 : Cache :=
  [("caste",
    ⟨["jaati", "gotra"],
     [[some "Pareek", some "Kashyap"], [some "Joshi", some "Bharadwaj"]]⟩)]

/-- Caste master whose column names are not yet in the renamed form. -/
def dfC8 : DFrame :=
  ⟨["Jaati Name", "Caste"], [[some "Pareek", some "Brahmin"]]⟩

/-- Environment providing only the caste master of the mutation scenario. -/
def envC8 : Env :=
  ⟨fun k => if k = "caste" then some dfC8 else none, fun _ => none, 2026⟩

/-- An environment with no reference files at all. -/
def envC9 : Env :=
  ⟨fun _ => none, fun _ => none, 2026⟩

/-- A raw profile with a structurally invalid religion and an
institution-like state. -/
def rawC9 : PDict :=
  [("religion", some (.s "@@")),
   ("state", some (.s "Central University of Rajasthan"))]

/-- An environment with no reference files for the manglik scenario. -/
def envC10 : Env :=
  ⟨fun _ => none, fun _ => none, 2026⟩

/-- A raw profile whose manglik value carries no yes- or no-token. -/
def rawC10 : PDict :=
  [("manglik", some (.s "es"))]

/-! # Verification

Lemmas about the embedded program, then the theorems settling the spec
sentences.  The development first settles the dictionary primitives, the
membership behaviour of the matchers, and the order theory of the exact
fractions; a dedicated section then proves that `difflib`'s ratio of a string
with itself is `1`. -/

/-! ## Dictionary primitives -/

theorem dGet_nil {α : Type} (k : String) : dGet ([] : List (String × α)) k = none :=
  rfl

theorem dGet_cons {α : Type} (p : String × α) (t : List (String × α)) (k : String) :
    dGet (p :: t) k = if p.1 = k then some p.2 else dGet t k :=
  rfl

theorem dSet_nil {α : Type} (k : String) (v : α) : dSet ([] : List (String × α)) k v = [(k, v)] :=
  rfl

theorem dSet_cons {α : Type} (p : String × α) (t : List (String × α)) (k : String) (v : α) :
    dSet (p :: t) k v = if p.1 = k then (k, v) :: t else p :: dSet t k v :=
  rfl

theorem dGet_dSet {α : Type} (l : List (String × α)) (k k' : String) (v : α) :
    dGet (dSet l k v) k' = if k' = k then some v else dGet l k' := by
  induction l with
  | nil =>
    by_cases h : k' = k
    · subst h; simp [dSet_nil, dGet_cons]
    · have h2 : ¬ k = k' := fun hh => h hh.symm
      simp [dSet_nil, dGet_cons, dGet_nil, h, h2]
  | cons p t ih =>
    by_cases hp : p.1 = k
    · by_cases h : k' = k
      · subst h
        simp [dSet_cons, dGet_cons, hp]
      · have h2 : ¬ k = k' := fun hh => h hh.symm
        have h3 : ¬ p.1 = k' := fun hh => h2 (hp ▸ hh)
        simp [dSet_cons, dGet_cons, hp, h, h2, h3]
    · by_cases hp' : p.1 = k'
      · have h : ¬ k' = k := fun hh => hp (hh ▸ hp')
        simp [dSet_cons, dGet_cons, hp, hp', h]
      · simp [dSet_cons, dGet_cons, hp, hp', ih]

theorem dGet_dSet_self {α : Type} (l : List (String × α)) (k : String) (v : α) :
    dGet (dSet l k v) k = some v := by
  simp [dGet_dSet]

theorem dGet_dSet_ne {α : Type} (l : List (String × α)) (k k' : String) (v : α)
    (h : k' ≠ k) : dGet (dSet l k v) k' = dGet l k' := by
  simp [dGet_dSet, h]

theorem isSome_dGet_dSet {α : Type} (l : List (String × α)) (k k' : String) (v : α) :
    (dGet (dSet l k v) k').isSome = ((dGet l k').isSome || decide (k' = k)) := by
  rw [dGet_dSet]
  by_cases h : k' = k <;> simp [h]

theorem dGet_setIf_ne (out : PDict) (k k' : String) (v : Option PyVal)
    (h : k' ≠ k) : dGet (setIf out k v) k' = dGet out k' := by
  unfold setIf
  split <;> simp [dGet_dSet_ne _ _ _ _ h]

theorem isSome_dGet_setIf (out : PDict) (k k' : String) (v : Option PyVal) :
    (dGet (setIf out k v) k').isSome = (dGet out k').isSome := by
  unfold setIf
  split
  · rename_i h
    rw [isSome_dGet_dSet]
    by_cases hk : k' = k
    · subst hk
      simp only [outHas] at h
      simp [h]
    · simp [hk]
  · rfl

theorem dGet_fillIfEmpty_ne (out : PDict) (k k' : String) (v : Option PyVal)
    (h : k' ≠ k) : dGet (fillIfEmpty out k v) k' = dGet out k' := by
  unfold fillIfEmpty
  split <;> simp [dGet_dSet_ne _ _ _ _ h]

theorem isSome_dGet_fillIfEmpty (out : PDict) (k k' : String) (v : Option PyVal) :
    (dGet (fillIfEmpty out k v) k').isSome = (dGet out k').isSome := by
  unfold fillIfEmpty
  split
  · rename_i h
    rw [isSome_dGet_dSet]
    by_cases hk : k' = k
    · subst hk
      simp only [outHas] at h
      simp [h.1]
    · simp [hk]
  · rfl

theorem dGet_keepOr_ne (out : PDict) (k k' : String) (v : Option PyVal)
    (h : k' ≠ k) : dGet (keepOr out k v) k' = dGet out k' := by
  unfold keepOr
  split <;> simp [dGet_dSet_ne _ _ _ _ h]

theorem isSome_dGet_keepOr (out : PDict) (k k' : String) (v : Option PyVal) :
    (dGet (keepOr out k v) k').isSome = (dGet out k').isSome := by
  unfold keepOr
  split
  · rename_i h
    rw [isSome_dGet_dSet]
    by_cases hk : k' = k
    · subst hk
      simp only [outHas] at h
      simp [h]
    · simp [hk]
  · rfl

theorem dGet_casteFill_ne (out : PDict) (k k' : String) (v : Option String)
    (h : k' ≠ k) : dGet (casteFill out k v) k' = dGet out k' := by
  unfold casteFill
  split <;> simp [dGet_dSet_ne _ _ _ _ h]

theorem isSome_dGet_casteFill (out : PDict) (k k' : String) (v : Option String) :
    (dGet (casteFill out k v) k').isSome = (dGet out k').isSome := by
  unfold casteFill
  split
  · rename_i h
    rw [isSome_dGet_dSet]
    by_cases hk : k' = k
    · subst hk
      simp only [outHas] at h
      simp [h]
    · simp [hk]
  · rfl

/-! ## Membership behaviour of the matchers -/

theorem foldl_preserve {α β : Type} (f : α → β → α) (P : α → Prop)
    (l : List β) (a : α) (h : P a) (hf : ∀ acc b, b ∈ l → P acc → P (f acc b)) :
    P (l.foldl f a) := by
  induction l generalizing a with
  | nil => exact h
  | cons c t ih =>
    exact ih (f a c) (hf a c (by simp) h)
      (fun acc b hb hacc => hf acc b (by simp [hb]) hacc)

theorem fwExtractOne_mem (q : String) (cs : List String) (p : String × ℤ)
    (h : fwExtractOne q cs = some p) : p.1 ∈ cs := by
  have key := foldl_preserve
    (fun (best : Option (String × ℤ)) (c : String) =>
      let s := wRatioInt (fullProcess q) c
      match best with
      | none => some (c, s)
      | some b => if b.2 < s then some (c, s) else best)
    (fun best => ∀ r : String × ℤ, best = some r → r.1 ∈ cs) cs none
    (fun r hr => by cases hr)
    (by
      intro acc b hb hacc r hr
      cases acc with
      | none =>
        cases hr
        exact hb
      | some b0 =>
        by_cases hcmp : b0.2 < wRatioInt (fullProcess q) b
        · simp only [hcmp, if_true] at hr
          cases hr
          exact hb
        · simp only [hcmp, if_false] at hr
          exact hacc r hr)
  exact key p h

theorem firstFieldHit_mem (pass : String → Option (List (Option String))) :
    ∀ (fs : List String) (r : List (Option String)),
      firstFieldHit pass fs = some r → ∃ f ∈ fs, pass f = some r := by
  intro fs
  induction fs with
  | nil => intro r h; cases h
  | cons f ft ih =>
    intro r h
    unfold firstFieldHit at h
    cases hf : pass f with
    | some r0 =>
      rw [hf] at h
      cases h
      exact ⟨f, by simp, hf⟩
    | none =>
      rw [hf] at h
      obtain ⟨f', hf', hp⟩ := ih r h
      exact ⟨f', by simp [hf'], hp⟩

theorem maritalEnforceMatch_mem (mv : String) (t : ℤ) (r : String)
    (h : maritalEnforceMatch mv t = some r) : r ∈ enforcedMaritalAllowed := by
  unfold maritalEnforceMatch at h
  cases h1 : enforcedMaritalAllowed.find? (fun a => pyLower a = pyLower mv) with
  | some a =>
    rw [h1] at h
    cases h
    exact List.mem_of_find?_eq_some h1
  | none =>
    rw [h1] at h
    cases h2 : enforcedMaritalAllowed.find? (fun a =>
        pySubstring (pyLower a) (pyLower mv) || pySubstring (pyLower mv) (pyLower a)) with
    | some a =>
      rw [h2] at h
      cases h
      exact List.mem_of_find?_eq_some h2
    | none =>
      rw [h2] at h
      cases h3 : fwExtractOne mv enforcedMaritalAllowed with
      | some p =>
        rw [h3] at h
        by_cases hcut : t ≤ p.2
        · have := fwExtractOne_mem mv enforcedMaritalAllowed p h3
          simp [hcut] at h
          rwa [← h]
        · simp [hcut] at h
      | none =>
        rw [h3] at h
        cases h

theorem manglikCoerce_mem (mv : String) :
    manglikCoerce mv ∈ (["Yes", "No", "Don\x27t Know"] : List String) := by
  unfold manglikCoerce
  split
  · simp
  · split <;> simp

/-! ## Order theory of the exact fractions -/

theorem Q.ble_iff {a b : Q} (ha : 0 < a.d) (hb : 0 < b.d) :
    Q.ble a b = true ↔ a.val ≤ b.val := by
  unfold Q.ble Q.val
  rw [decide_eq_true_iff,
    div_le_div_iff₀ (by exact_mod_cast ha) (by exact_mod_cast hb)]
  constructor
  · intro h
    exact_mod_cast h
  · intro h
    exact_mod_cast h

theorem Q.blt_iff {a b : Q} (ha : 0 < a.d) (hb : 0 < b.d) :
    Q.blt a b = true ↔ a.val < b.val := by
  unfold Q.blt Q.val
  rw [decide_eq_true_iff,
    div_lt_div_iff₀ (by exact_mod_cast ha) (by exact_mod_cast hb)]
  constructor
  · intro h
    exact_mod_cast h
  · intro h
    exact_mod_cast h

theorem Q.ofInt_val (i : ℤ) : (Q.ofInt i).val = (i : ℚ) := by
  unfold Q.ofInt Q.val
  simp

theorem Q.ofInt_d (i : ℤ) : (Q.ofInt i).d = 1 :=
  rfl

theorem ratioQ_d_pos (a b : List Char) : 0 < (ratioQ a b).d := by
  unfold ratioQ
  simp only
  by_cases h : a.length + b.length = 0
  · rw [if_pos h]
    exact one_pos
  · rw [if_neg h]
    have : 0 < a.length + b.length := Nat.pos_of_ne_zero h
    show (0 : ℤ) < ((a.length + b.length : ℕ) : ℤ)
    exact_mod_cast this

theorem difflibScore_d_pos (a b : List Char) : 0 < (difflibScore a b).d := by
  unfold difflibScore Q.mul
  simp only [Q.ofInt, mul_one]
  exact ratioQ_d_pos a b

theorem matchOneLoop_cons (q : List Char) (c : String) (cs : List String)
    (st : Option String × Q) :
    matchOneLoop q (c :: cs) st =
      matchOneLoop q cs
        (if Q.blt st.2 (difflibScore (q.map Char.toLower) (c.toList.map Char.toLower))
         then (some c, difflibScore (q.map Char.toLower) (c.toList.map Char.toLower))
         else st) :=
  rfl

theorem matchOneLoop_pos_mono (q : List Char) :
    ∀ (cs : List String) (st : Option String × Q), 0 < st.2.d →
      0 < (matchOneLoop q cs st).2.d ∧ st.2.val ≤ (matchOneLoop q cs st).2.val := by
  intro cs
  induction cs with
  | nil => intro st h; exact ⟨h, le_refl _⟩
  | cons c ct ih =>
    intro st h
    rw [matchOneLoop_cons]
    by_cases hb : Q.blt st.2 (difflibScore (q.map Char.toLower) (c.toList.map Char.toLower)) = true
    · rw [if_pos hb]
      have hd := difflibScore_d_pos (q.map Char.toLower) (c.toList.map Char.toLower)
      have hlt := (Q.blt_iff h hd).mp hb
      obtain ⟨h1, h2⟩ := ih (some c, difflibScore (q.map Char.toLower) (c.toList.map Char.toLower)) hd
      exact ⟨h1, le_trans (le_of_lt hlt) h2⟩
    · rw [if_neg hb]
      exact ih st h

theorem matchOneLoop_ge (q : List Char) :
    ∀ (cs : List String) (st : Option String × Q), 0 < st.2.d → ∀ c ∈ cs,
      (difflibScore (q.map Char.toLower) (c.toList.map Char.toLower)).val ≤
        (matchOneLoop q cs st).2.val := by
  intro cs
  induction cs with
  | nil => intro st _ c hc; cases hc
  | cons c0 ct ih =>
    intro st h c hc
    rw [matchOneLoop_cons]
    have hd0 := difflibScore_d_pos (q.map Char.toLower) (c0.toList.map Char.toLower)
    rcases List.mem_cons.mp hc with hc | hc
    · subst hc
      by_cases hb : Q.blt st.2 (difflibScore (q.map Char.toLower) (c.toList.map Char.toLower)) = true
      · rw [if_pos hb]
        exact (matchOneLoop_pos_mono q ct _ hd0).2
      · rw [if_neg hb]
        have : ¬ st.2.val < (difflibScore (q.map Char.toLower) (c.toList.map Char.toLower)).val :=
          fun hlt => hb ((Q.blt_iff h hd0).mpr hlt)
        exact le_trans (le_of_not_lt this) (matchOneLoop_pos_mono q ct st h).2
    · by_cases hb : Q.blt st.2 (difflibScore (q.map Char.toLower) (c0.toList.map Char.toLower)) = true
      · rw [if_pos hb]
        exact ih _ hd0 c hc
      · rw [if_neg hb]
        exact ih st h c hc

theorem matchOneLoop_keepSome (q : List Char) :
    ∀ (cs : List String) (st : Option String × Q), st.1.isSome →
      (matchOneLoop q cs st).1.isSome := by
  intro cs
  induction cs with
  | nil => intro st h; exact h
  | cons c ct ih =>
    intro st h
    rw [matchOneLoop_cons]
    split
    · exact ih _ (by simp)
    · exact ih st h

theorem matchOneLoop_isSome (q : List Char) :
    ∀ (cs : List String) (st : Option String × Q), 0 < st.2.d →
      (∃ c ∈ cs, st.2.val <
        (difflibScore (q.map Char.toLower) (c.toList.map Char.toLower)).val) →
      (matchOneLoop q cs st).1.isSome := by
  intro cs
  induction cs with
  | nil => intro st _ h; obtain ⟨c, hc, _⟩ := h; cases hc
  | cons c0 ct ih =>
    intro st h hex
    obtain ⟨c, hc, hlt⟩ := hex
    rw [matchOneLoop_cons]
    have hd0 := difflibScore_d_pos (q.map Char.toLower) (c0.toList.map Char.toLower)
    rcases List.mem_cons.mp hc with hceq | hct
    · subst hceq
      rw [if_pos ((Q.blt_iff h hd0).mpr hlt)]
      exact matchOneLoop_keepSome q ct _ (by simp)
    · by_cases hb : Q.blt st.2 (difflibScore (q.map Char.toLower) (c0.toList.map Char.toLower)) = true
      · rw [if_pos hb]
        exact matchOneLoop_keepSome q ct _ (by simp)
      · rw [if_neg hb]
        exact ih st h ⟨c, hct, hlt⟩

/-! ## The `difflib` ratio of a string with itself

On equal inputs, every strict improvement of the best triple during the
dynamic programming of `find_longest_match` happens at a diagonal cell: a
common autojunk-surviving suffix ending at an off-diagonal cell is never
longer than a diagonal streak already scored.  The two extension loops then
stretch a diagonal best over the whole string (they extend over arbitrary
equal elements), so the single matching block covers everything and the
ratio is `1` — also in the autojunk regime. -/

theorem dstreak_le (l : List Char) (i : Nat) : dstreak l i ≤ i + 1 := by
  induction i with
  | zero => unfold dstreak; split <;> omega
  | succ m ih => unfold dstreak; split <;> omega

theorem dstreak_succ_np (l : List Char) (i : Nat) (h : npos l i = true) :
    dstreak l i = (if i = 0 then 0 else dstreak l (i - 1)) + 1 := by
  cases i with
  | zero => simp [dstreak, h]
  | succ m => simp [dstreak, h]

theorem dstreak_zero_of_not_np (l : List Char) (i : Nat) (h : ¬ npos l i = true) :
    dstreak l i = 0 := by
  cases i with
  | zero => simp [dstreak, h]
  | succ m => simp [dstreak, h]

theorem get?_eq_some_getD (l : List Char) (i : Nat) (h : i < l.length) :
    l.get? i = some (l.getD i ' ') := by
  rw [List.getD_eq_getElem?_getD, List.get?_eq_getElem?]
  cases hx : l[i]? with
  | none => exact absurd (List.getElem?_eq_none_iff.mp hx) (by omega)
  | some c => rfl

theorem npos_of_mem_b2j (l : List Char) (i j : Nat) (hi : i < l.length)
    (hj : j ∈ b2jOf l (l.getD i ' ')) :
    npos l i = true ∧ npos l j = true ∧ j < l.length := by
  unfold b2jOf at hj
  by_cases hp : isPopular l (l.getD i ' ') = true
  · rw [if_pos hp] at hj
    cases hj
  · rw [if_neg hp] at hj
    unfold charIdxs at hj
    rw [List.mem_filter] at hj
    obtain ⟨hr, hc⟩ := hj
    rw [List.mem_range] at hr
    have hcv : l.get? j = some (l.getD i ' ') := of_decide_eq_true hc
    have hgd : l.getD j ' ' = l.getD i ' ' := by
      rw [List.getD_eq_getElem?_getD, ← List.get?_eq_getElem?, hcv]
      rfl
    refine ⟨?_, ?_, hr⟩
    · unfold npos
      rw [Bool.and_eq_true, Bool.not_eq_true']
      exact ⟨decide_eq_true hi, Bool.eq_false_iff.mpr hp⟩
    · unfold npos
      rw [hgd, Bool.and_eq_true, Bool.not_eq_true']
      exact ⟨decide_eq_true hr, Bool.eq_false_iff.mpr hp⟩

theorem mem_b2j_self (l : List Char) (i : Nat) (hi : i < l.length)
    (hnp : npos l i = true) : i ∈ b2jOf l (l.getD i ' ') := by
  unfold npos at hnp
  rw [Bool.and_eq_true, Bool.not_eq_true'] at hnp
  unfold b2jOf
  have hfalse : ¬ isPopular l (l.getD i ' ') = true := by
    rw [hnp.2]
    exact Bool.false_ne_true
  rw [if_neg hfalse]
  unfold charIdxs
  rw [List.mem_filter, List.mem_range]
  exact ⟨hi, decide_eq_true (get?_eq_some_getD l i hi)⟩

theorem pairwise_b2j (l : List Char) (c : Char) :
    List.Pairwise (· < ·) (b2jOf l c) := by
  unfold b2jOf
  split
  · exact List.Pairwise.nil
  · exact List.Pairwise.sublist (List.filter_sublist _) (List.pairwise_lt_range _)

theorem flmScan_cons (prev : Nat → Nat) (i blo bhi j : Nat) (js : List Nat)
    (acc : Nat → Nat) (best : Nat × Nat × Nat) :
    flmScan prev i blo bhi (j :: js) acc best =
      if j < blo then flmScan prev i blo bhi js acc best
      else if bhi ≤ j then (acc, best)
      else
        flmScan prev i blo bhi js
          (fun j' => if j' = j then (if j = 0 then 0 else prev (j - 1)) + 1 else acc j')
          (if best.2.2 < (if j = 0 then 0 else prev (j - 1)) + 1
           then (i + 1 - ((if j = 0 then 0 else prev (j - 1)) + 1),
                 j + 1 - ((if j = 0 then 0 else prev (j - 1)) + 1),
                 (if j = 0 then 0 else prev (j - 1)) + 1)
           else best) :=
  rfl

theorem flmScan_self (l : List Char) (i : Nat) (prev : Nat → Nat) (cap : Nat)
    (hi : i < l.length)
    (hprev : ∀ j, prev j ≤ dstreak l j ∧ prev j ≤ cap)
    (hcap : npos l i = true → cap + 1 ≤ dstreak l i)
    (hde : i = 0 ∨ prev (i - 1) = dstreak l (i - 1)) :
    ∀ (js : List Nat) (acc : Nat → Nat) (best : Nat × Nat × Nat),
      (∀ j ∈ js, j ∈ b2jOf l (l.getD i ' ')) →
      List.Pairwise (· < ·) js →
      (∀ j, acc j ≤ dstreak l j ∧ acc j ≤ dstreak l i) →
      best.1 = best.2.1 →
      best.1 + best.2.2 ≤ l.length →
      (∀ q, q < i → dstreak l q ≤ best.2.2) →
      (i ∈ js ∨ (acc i = dstreak l i ∧ dstreak l i ≤ best.2.2)) →
      (∀ j, (flmScan prev i 0 l.length js acc best).1 j ≤ dstreak l j ∧
        (flmScan prev i 0 l.length js acc best).1 j ≤ dstreak l i) ∧
      (flmScan prev i 0 l.length js acc best).1 i = dstreak l i ∧
      (flmScan prev i 0 l.length js acc best).2.1 =
        (flmScan prev i 0 l.length js acc best).2.2.1 ∧
      (flmScan prev i 0 l.length js acc best).2.1 +
        (flmScan prev i 0 l.length js acc best).2.2.2 ≤ l.length ∧
      (∀ q, q < i + 1 → dstreak l q ≤ (flmScan prev i 0 l.length js acc best).2.2.2) := by
  intro js
  induction js with
  | nil =>
    intro acc best _ _ hacc hb1 hb2 hb3 hdiag
    have hdr : acc i = dstreak l i ∧ dstreak l i ≤ best.2.2 := by
      rcases hdiag with h | h
      · cases h
      · exact h
    refine ⟨hacc, hdr.1, hb1, hb2, ?_⟩
    intro q hq
    rcases Nat.lt_succ_iff_lt_or_eq.mp hq with h | h
    · exact hb3 q h
    · subst h
      exact hdr.2
  | cons j js ih =>
    intro acc best hmem hsort hacc hb1 hb2 hb3 hdiag
    have hj := hmem j (by simp)
    obtain ⟨hnpi, hnpj, hjn⟩ := npos_of_mem_b2j l i j hi hj
    rw [flmScan_cons, if_neg (Nat.not_lt_zero j), if_neg (not_le.mpr hjn)]
    have hKj : (if j = 0 then 0 else prev (j - 1)) + 1 ≤ dstreak l j := by
      rw [dstreak_succ_np l j hnpj]
      by_cases hj0 : j = 0
      · simp [hj0]
      · simp only [hj0, if_false]
        exact Nat.succ_le_succ (hprev (j - 1)).1
    have hKi : (if j = 0 then 0 else prev (j - 1)) + 1 ≤ dstreak l i := by
      refine le_trans ?_ (hcap hnpi)
      by_cases hj0 : j = 0
      · simp [hj0]
      · simp only [hj0, if_false]
        exact Nat.succ_le_succ (hprev (j - 1)).2
    have hKdiag : j = i → (if j = 0 then 0 else prev (j - 1)) + 1 = dstreak l i := by
      intro hji
      subst hji
      rw [dstreak_succ_np l j hnpi]
      by_cases hj0 : j = 0
      · simp [hj0]
      · simp only [hj0, if_false]
        rcases hde with h | h
        · exact absurd h hj0
        · rw [h]
    have haccK : ∀ j', (fun j' => if j' = j then (if j = 0 then 0 else prev (j - 1)) + 1
        else acc j') j' ≤ dstreak l j' ∧
        (fun j' => if j' = j then (if j = 0 then 0 else prev (j - 1)) + 1
        else acc j') j' ≤ dstreak l i := by
      intro j'
      by_cases hj' : j' = j
      · subst hj'
        simp only [if_pos rfl]
        exact ⟨hKj, hKi⟩
      · simp only [hj', if_false]
        exact hacc j'
    by_cases hup : best.2.2 < (if j = 0 then 0 else prev (j - 1)) + 1
    · have hji : j = i := by
        by_contra hne
        rcases Nat.lt_or_ge j i with hlt | hge
        · exact absurd (lt_of_le_of_lt (le_trans hKj (hb3 j hlt)) hup) (lt_irrefl _)
        · have hgt : i < j := lt_of_le_of_ne hge (fun hh => hne hh.symm)
          have hni : ¬ i ∈ j :: js := by
            intro hin
            rcases List.mem_cons.mp hin with hh | hh
            · exact hne hh.symm
            · have := (List.pairwise_cons.mp hsort).1 i hh
              omega
          rcases hdiag with hd | hd
          · exact hni hd
          · exact absurd (lt_of_le_of_lt (le_trans hKi hd.2) hup) (lt_irrefl _)
      subst hji
      rw [if_pos hup]
      have hKeq := hKdiag rfl
      have hKle : (if j = 0 then 0 else prev (j - 1)) + 1 ≤ j + 1 := by
        rw [hKeq]
        exact dstreak_le l j
      refine ih _ _ (fun x hx => hmem x (by simp [hx]))
        (List.pairwise_cons.mp hsort).2 haccK rfl
        (by
          show j + 1 - ((if j = 0 then 0 else prev (j - 1)) + 1) +
            ((if j = 0 then 0 else prev (j - 1)) + 1) ≤ l.length
          omega) ?_ ?_
      · intro q hq
        exact le_of_lt (lt_of_le_of_lt (hb3 q hq) hup)
      · right
        refine ⟨?_, ?_⟩
        · show (if j = j then (if j = 0 then 0 else prev (j - 1)) + 1 else acc j)
            = dstreak l j
          rw [if_pos rfl]
          exact hKeq
        · show dstreak l j ≤ (if j = 0 then 0 else prev (j - 1)) + 1
          omega
    · rw [if_neg hup]
      refine ih _ _ (fun x hx => hmem x (by simp [hx]))
        (List.pairwise_cons.mp hsort).2 haccK hb1 hb2 hb3 ?_
      by_cases hji : j = i
      · subst hji
        right
        refine ⟨?_, ?_⟩
        · show (if j = j then (if j = 0 then 0 else prev (j - 1)) + 1 else acc j)
            = dstreak l j
          rw [if_pos rfl]
          exact hKdiag rfl
        · have := hKdiag rfl
          omega
      · rcases hdiag with hd | hd
        · rcases List.mem_cons.mp hd with hh | hh
          · exact absurd hh.symm hji
          · exact Or.inl hh
        · right
          have hij : ¬ i = j := fun hh => hji hh.symm
          refine ⟨?_, hd.2⟩
          show (if i = j then (if j = 0 then 0 else prev (j - 1)) + 1 else acc i)
            = dstreak l i
          rw [if_neg hij]
          exact hd.1

theorem flmRows_nil (a b : List Char) (blo bhi : Nat)
    (st : (Nat → Nat) × (Nat × Nat × Nat)) :
    flmRows a b blo bhi [] st = st :=
  rfl

theorem flmRows_cons (a b : List Char) (blo bhi i : Nat) (is : List Nat)
    (st : (Nat → Nat) × (Nat × Nat × Nat)) :
    flmRows a b blo bhi (i :: is) st =
      flmRows a b blo bhi is
        (flmScan st.1 i blo bhi (b2jOf b (a.getD i ' ')) (fun _ => 0) st.2) :=
  rfl

theorem flmRows_self (l : List Char) :
    ∀ (cnt i : Nat) (prev : Nat → Nat) (cap : Nat) (best : Nat × Nat × Nat),
      i + cnt ≤ l.length →
      (∀ j, prev j ≤ dstreak l j ∧ prev j ≤ cap) →
      (npos l i = true → cap + 1 ≤ dstreak l i) →
      (i = 0 ∨ prev (i - 1) = dstreak l (i - 1)) →
      best.1 = best.2.1 →
      best.1 + best.2.2 ≤ l.length →
      (∀ q, q < i → dstreak l q ≤ best.2.2) →
      (flmRows l l 0 l.length (List.range' i cnt) (prev, best)).2.1 =
        (flmRows l l 0 l.length (List.range' i cnt) (prev, best)).2.2.1 ∧
      (flmRows l l 0 l.length (List.range' i cnt) (prev, best)).2.1 +
        (flmRows l l 0 l.length (List.range' i cnt) (prev, best)).2.2.2 ≤ l.length := by
  intro cnt
  induction cnt with
  | zero =>
    intro i prev cap best _ _ _ _ h5 h6 _
    exact ⟨h5, h6⟩
  | succ cnt ih =>
    intro i prev cap best h1 h2 h3 h4 h5 h6 h7
    have hi : i < l.length := by omega
    rw [List.range'_succ, flmRows_cons]
    have hdiag0 : i ∈ b2jOf l (l.getD i ' ') ∨
        ((fun _ : Nat => 0) i = dstreak l i ∧ dstreak l i ≤ best.2.2) := by
      by_cases hnp : npos l i = true
      · exact Or.inl (mem_b2j_self l i hi hnp)
      · right
        rw [dstreak_zero_of_not_np l i hnp]
        exact ⟨rfl, Nat.zero_le _⟩
    have hscan := flmScan_self l i prev cap hi h2 h3 h4
      (b2jOf l (l.getD i ' ')) (fun _ => 0) best
      (fun _ hx => hx) (pairwise_b2j l _)
      (fun _ => ⟨Nat.zero_le _, Nat.zero_le _⟩) h5 h6 h7 hdiag0
    obtain ⟨hs1, hs2, hs3, hs4, hs5⟩ := hscan
    exact ih (i + 1)
      (flmScan prev i 0 l.length (b2jOf l (l.getD i ' ')) (fun _ => 0) best).1
      (dstreak l i)
      (flmScan prev i 0 l.length (b2jOf l (l.getD i ' ')) (fun _ => 0) best).2
      (by omega) hs1
      (fun hnp => by rw [dstreak_succ_np l (i + 1) hnp]; simp)
      (Or.inr hs2) hs3 hs4 hs5

theorem chEq_self (l : List Char) (d : Nat) (h : d < l.length) :
    chEq l l d d = true := by
  unfold chEq
  rw [get?_eq_some_getD l d h]
  simp

theorem extBack_succ (a b : List Char) (alo blo bi bj bs : Nat) :
    extBack a b alo blo (bi + 1) bj bs =
      if alo < bi + 1 ∧ blo < bj ∧ chEq a b bi (bj - 1) then
        extBack a b alo blo bi (bj - 1) (bs + 1)
      else (bi + 1, bj, bs) :=
  rfl

theorem extBack_self (l : List Char) :
    ∀ (d K : Nat), d + K ≤ l.length → extBack l l 0 0 d d K = (0, 0, K + d) := by
  intro d
  induction d with
  | zero => intro K _; rfl
  | succ m ih =>
    intro K h
    rw [extBack_succ,
      if_pos ⟨Nat.succ_pos m, Nat.succ_pos m, chEq_self l m (by omega)⟩]
    have hrec := ih (K + 1) (by omega)
    have harith : K + 1 + m = K + (m + 1) := by omega
    rw [show m + 1 - 1 = m from rfl, hrec, harith]

theorem extFwdF_succ (a b : List Char) (ahi bhi fuel bi bj bs : Nat) :
    extFwdF a b ahi bhi (fuel + 1) bi bj bs =
      if bi + bs < ahi ∧ bj + bs < bhi ∧ chEq a b (bi + bs) (bj + bs) then
        extFwdF a b ahi bhi fuel bi bj (bs + 1)
      else (bi, bj, bs) :=
  rfl

theorem extFwdF_self (l : List Char) :
    ∀ (fuel s : Nat), l.length ≤ s + fuel → s ≤ l.length →
      extFwdF l l l.length l.length fuel 0 0 s = (0, 0, l.length) := by
  intro fuel
  induction fuel with
  | zero =>
    intro s h1 h2
    have hs : s = l.length := by omega
    subst hs
    rfl
  | succ f ih =>
    intro s h1 h2
    rw [extFwdF_succ]
    simp only [Nat.zero_add]
    by_cases hs : s < l.length
    · rw [if_pos ⟨hs, hs, chEq_self l s hs⟩]
      exact ih (s + 1) (by omega) (by omega)
    · have hse : s = l.length := by omega
      subst hse
      rw [if_neg (fun hh => absurd hh.1 (lt_irrefl _))]

theorem extFwd_self (l : List Char) (s : Nat) (hs : s ≤ l.length) :
    extFwd l l l.length l.length 0 0 s = (0, 0, l.length) := by
  unfold extFwd
  exact extFwdF_self l (l.length + 1 - (0 + s)) s (by omega) hs

theorem findLongestMatch_self (l : List Char) :
    findLongestMatch l l 0 l.length 0 l.length = (0, 0, l.length) := by
  have h := flmRows_self l l.length 0 (fun _ => 0) 0 (0, 0, 0) (by omega)
    (fun _ => ⟨Nat.zero_le _, Nat.le_refl 0⟩)
    (fun hnp => by rw [dstreak_succ_np l 0 hnp]; simp)
    (Or.inl rfl) rfl (by simp) (fun q hq => absurd hq (Nat.not_lt_zero q))
  obtain ⟨h1, h2⟩ := h
  unfold findLongestMatch
  simp only [Nat.sub_zero]
  generalize hst :
    flmRows l l 0 l.length (List.range' 0 l.length) (fun _ => 0, (0, 0, 0)) = st
    at h1 h2 ⊢
  obtain ⟨f, bi, bj, bs⟩ := st
  simp only at h1 h2 ⊢
  subst h1
  rw [extBack_self l bi bs h2]
  exact extFwd_self l (bs + bi) (by omega)

theorem extFwdF_stall (l : List Char) (x y bj : Nat) (hxy : ¬ y < x) :
    ∀ fuel, extFwdF l l x x fuel y bj 0 = (y, bj, 0) := by
  intro fuel
  cases fuel with
  | zero => rfl
  | succ f =>
    rw [extFwdF_succ]
    rw [if_neg (fun hh => hxy (by omega : y < x))]

theorem findLongestMatch_self_degenerate (l : List Char) (x : Nat) :
    (findLongestMatch l l x x x x).2.2 = 0 := by
  unfold findLongestMatch
  simp only [Nat.sub_self, List.range'_zero]
  rw [flmRows_nil]
  have hb : ∃ y, extBack l l x x x x 0 = (y, x, 0) ∧ ¬ y < x := by
    cases x with
    | zero => exact ⟨0, rfl, by omega⟩
    | succ m =>
      refine ⟨m + 1, ?_, by omega⟩
      rw [extBack_succ, if_neg (fun hh => absurd hh.1 (lt_irrefl _))]
  obtain ⟨y, hy, hxy⟩ := hb
  rw [hy]
  unfold extFwd
  rw [extFwdF_stall l x y x hxy]

theorem mbCore_succ (a b : List Char) (fuel alo ahi blo bhi : Nat) :
    mbCore a b (fuel + 1) alo ahi blo bhi =
      if (findLongestMatch a b alo ahi blo bhi).2.2 = 0 then []
      else
        mbCore a b fuel alo (findLongestMatch a b alo ahi blo bhi).1 blo
            (findLongestMatch a b alo ahi blo bhi).2.1 ++
          (findLongestMatch a b alo ahi blo bhi) ::
            mbCore a b fuel
              ((findLongestMatch a b alo ahi blo bhi).1 +
                (findLongestMatch a b alo ahi blo bhi).2.2)
              ahi
              ((findLongestMatch a b alo ahi blo bhi).2.1 +
                (findLongestMatch a b alo ahi blo bhi).2.2)
              bhi :=
  rfl

theorem mbCore_self_degenerate (l : List Char) :
    ∀ (fuel x : Nat), mbCore l l fuel x x x x = [] := by
  intro fuel x
  cases fuel with
  | zero => rfl
  | succ f =>
    rw [mbCore_succ, if_pos (findLongestMatch_self_degenerate l x)]

theorem getMatchingBlocks_self (l : List Char) (h : l.length ≠ 0) :
    getMatchingBlocks l l =
      [(0, 0, l.length), (l.length, l.length, 0)] := by
  unfold getMatchingBlocks
  rw [mbCore_succ]
  simp only [findLongestMatch_self]
  rw [if_neg h, mbCore_self_degenerate l _ 0]
  simp only [Nat.zero_add]
  rw [mbCore_self_degenerate l _ l.length]
  rfl

theorem Q.mul_val (a b : Q) : (Q.mul a b).val = a.val * b.val := by
  unfold Q.mul Q.val
  push_cast
  rw [div_mul_div_comm]

theorem ratioQ_self_val (l : List Char) : (ratioQ l l).val = 1 := by
  by_cases h : l.length = 0
  · unfold ratioQ
    rw [if_pos (by omega)]
    rw [Q.ofInt_val]
    norm_num
  · unfold ratioQ
    simp only [getMatchingBlocks_self l h]
    rw [if_neg (by omega)]
    unfold Q.val
    simp only [List.map_cons, List.map_nil, List.sum_cons, List.sum_nil]
    have hpos : (0 : ℚ) < (l.length : ℚ) := by
      exact_mod_cast Nat.pos_of_ne_zero h
    have hne : (l.length : ℚ) + (l.length : ℚ) ≠ 0 := by linarith
    push_cast
    rw [div_eq_one_iff_eq hne]
    ring

theorem difflibScore_self_val (l : List Char) : (difflibScore l l).val = 100 := by
  unfold difflibScore
  rw [Q.mul_val, ratioQ_self_val, Q.ofInt_val]
  norm_num

theorem matchOne_exact (query : String) (choices : List String) (t : Q)
    (hq : ¬ pyStrip query = "") (hmem : pyStrip query ∈ choices)
    (htd : 0 < t.d) (ht : t.val ≤ 100) :
    (matchOne query choices t).1.isSome = true := by
  have hd0 : (0 : ℤ) < (Q.ofInt 0).d := by
    rw [Q.ofInt_d]
    exact one_pos
  have hscore :
      (difflibScore ((pyStrip query).toList.map Char.toLower)
        ((pyStrip query).toList.map Char.toLower)).val = 100 :=
    difflibScore_self_val _
  have hloopd :=
    (matchOneLoop_pos_mono (pyStrip query).toList choices (none, Q.ofInt 0) hd0).1
  have hge :=
    matchOneLoop_ge (pyStrip query).toList choices (none, Q.ofInt 0) hd0
      (pyStrip query) hmem
  have hble :
      Q.ble t (matchOneLoop (pyStrip query).toList choices (none, Q.ofInt 0)).2
        = true := by
    rw [Q.ble_iff htd hloopd]
    calc t.val ≤ 100 := ht
    _ = (difflibScore ((pyStrip query).toList.map Char.toLower)
          ((pyStrip query).toList.map Char.toLower)).val := hscore.symm
    _ ≤ _ := hge
  have hsome :=
    matchOneLoop_isSome (pyStrip query).toList choices (none, Q.ofInt 0) hd0
      ⟨pyStrip query, hmem, by rw [hscore, Q.ofInt_val]; norm_num⟩
  simp only [matchOne, if_neg hq, hble, if_true]
  exact hsome

theorem matchOne_nil (query : String) (t : Q) :
    (matchOne query [] t).1 = none := by
  by_cases hq : pyStrip query = ""
  · simp [matchOne, hq]
  · simp only [matchOne, if_neg hq]
    split <;> rfl

/-! ## Key-presence and frame lemmas for the normalisation sections

Every section of `normalize_profile` writes its fields through guarded
assignments (`setIf`, `fillIfEmpty`, `keepOr`, `casteFill`, or a `dSet`
under an explicit `outHas` test), so no section changes which keys the
output dictionary holds; the enrichment section is the one exception.  Each
section also leaves every key it does not write untouched. -/

theorem isSome_dGet_dSet_of_mem {α : Type} (l : List (String × α)) (k k' : String)
    (v : α) (h : (dGet l k).isSome = true) :
    (dGet (dSet l k v) k').isSome = (dGet l k').isSome := by
  rw [isSome_dGet_dSet]
  by_cases hk : k' = k
  · subst hk
    simp [h]
  · simp [hk]

theorem npNames_presence (raw : PDict) (st : PDict × Cache) (k : String) :
    (dGet (npNames raw st).1 k).isSome = (dGet st.1 k).isSome := by
  obtain ⟨out, cache⟩ := st
  unfold npNames
  simp only [isSome_dGet_setIf]

theorem npNames_frame (raw : PDict) (st : PDict × Cache) (k : String)
    (h1 : k ≠ "full_name") (h2 : k ≠ "first_name") (h3 : k ≠ "last_name") :
    dGet (npNames raw st).1 k = dGet st.1 k := by
  obtain ⟨out, cache⟩ := st
  unfold npNames
  simp only [dGet_setIf_ne _ _ _ _ h1, dGet_setIf_ne _ _ _ _ h2,
    dGet_setIf_ne _ _ _ _ h3]

theorem npAgeDob_presence (env : Env) (raw : PDict) (st : PDict × Cache) (k : String) :
    (dGet (npAgeDob env raw st).1 k).isSome = (dGet st.1 k).isSome := by
  obtain ⟨out, cache⟩ := st
  unfold npAgeDob
  simp only [isSome_dGet_setIf]

theorem npAgeDob_frame (env : Env) (raw : PDict) (st : PDict × Cache) (k : String)
    (h1 : k ≠ "age") (h2 : k ≠ "date_of_birth") :
    dGet (npAgeDob env raw st).1 k = dGet st.1 k := by
  obtain ⟨out, cache⟩ := st
  unfold npAgeDob
  simp only [dGet_setIf_ne _ _ _ _ h1, dGet_setIf_ne _ _ _ _ h2]

theorem npBirth_presence (raw : PDict) (st : PDict × Cache) (k : String) :
    (dGet (npBirth raw st).1 k).isSome = (dGet st.1 k).isSome := by
  obtain ⟨out, cache⟩ := st
  unfold npBirth
  simp only
  split
  · rename_i h
    split <;> simp [isSome_dGet_setIf, isSome_dGet_dSet_of_mem, outHas] at h ⊢ <;>
      simp [isSome_dGet_dSet_of_mem _ _ _ _ h]
  · simp only [isSome_dGet_setIf]

theorem npBirth_frame (raw : PDict) (st : PDict × Cache) (k : String)
    (h1 : k ≠ "birth_time") (h2 : k ≠ "birth_place") :
    dGet (npBirth raw st).1 k = dGet st.1 k := by
  obtain ⟨out, cache⟩ := st
  unfold npBirth
  simp only
  split
  · split <;> simp only [dGet_setIf_ne _ _ _ _ h2, dGet_dSet_ne _ _ _ _ h1]
  · simp only [dGet_setIf_ne _ _ _ _ h2]

theorem npGender_presence (raw : PDict) (st : PDict × Cache) (k : String) :
    (dGet (npGender raw st).1 k).isSome = (dGet st.1 k).isSome := by
  obtain ⟨out, cache⟩ := st
  unfold npGender
  simp only
  split
  · rename_i h
    simp only [outHas] at h
    split
    · split
      · exact isSome_dGet_dSet_of_mem out _ k _ h
      · split
        · exact isSome_dGet_dSet_of_mem out _ k _ h
        · exact isSome_dGet_dSet_of_mem out _ k _ h
    · exact isSome_dGet_dSet_of_mem out _ k _ h
  · rfl

theorem npGender_frame (raw : PDict) (st : PDict × Cache) (k : String)
    (h1 : k ≠ "gender") :
    dGet (npGender raw st).1 k = dGet st.1 k := by
  obtain ⟨out, cache⟩ := st
  unfold npGender
  simp only
  split
  · split
    · split
      · exact dGet_dSet_ne _ _ _ _ h1
      · split
        · exact dGet_dSet_ne _ _ _ _ h1
        · exact dGet_dSet_ne _ _ _ _ h1
    · exact dGet_dSet_ne _ _ _ _ h1
  · rfl

theorem npMaritalLookup_presence (env : Env) (raw : PDict) (st : PDict × Cache)
    (k : String) :
    (dGet (npMaritalLookup env raw st).1 k).isSome = (dGet st.1 k).isSome := by
  obtain ⟨out, cache⟩ := st
  unfold npMaritalLookup
  simp only
  split
  · rename_i h
    simp only [outHas] at h
    split
    · exact isSome_dGet_dSet_of_mem out _ k _ h
    · exact isSome_dGet_dSet_of_mem out _ k _ h
  · rfl

theorem npMaritalLookup_frame (env : Env) (raw : PDict) (st : PDict × Cache)
    (k : String) (h1 : k ≠ "marital_status") :
    dGet (npMaritalLookup env raw st).1 k = dGet st.1 k := by
  obtain ⟨out, cache⟩ := st
  unfold npMaritalLookup
  simp only
  split
  · split
    · exact dGet_dSet_ne _ _ _ _ h1
    · exact dGet_dSet_ne _ _ _ _ h1
  · rfl

theorem npMaritalEnforce_presence (raw : PDict) (st : PDict × Cache) (k : String) :
    (dGet (npMaritalEnforce raw st).1 k).isSome = (dGet st.1 k).isSome := by
  obtain ⟨out, cache⟩ := st
  unfold npMaritalEnforce
  simp only
  split
  · rename_i h
    simp only [outHas] at h
    exact isSome_dGet_dSet_of_mem out _ k _ h
  · rfl

theorem npMaritalEnforce_frame (raw : PDict) (st : PDict × Cache) (k : String)
    (h1 : k ≠ "marital_status") :
    dGet (npMaritalEnforce raw st).1 k = dGet st.1 k := by
  obtain ⟨out, cache⟩ := st
  unfold npMaritalEnforce
  simp only
  split
  · exact dGet_dSet_ne _ _ _ _ h1
  · rfl

theorem npManglikLookup_presence (env : Env) (raw : PDict) (st : PDict × Cache)
    (k : String) :
    (dGet (npManglikLookup env raw st).1 k).isSome = (dGet st.1 k).isSome := by
  obtain ⟨out, cache⟩ := st
  unfold npManglikLookup
  simp only
  split
  · rename_i h
    simp only [outHas] at h
    split
    · exact isSome_dGet_dSet_of_mem out _ k _ h
    · exact isSome_dGet_dSet_of_mem out _ k _ h
  · rfl

theorem npManglikLookup_frame (env : Env) (raw : PDict) (st : PDict × Cache)
    (k : String) (h1 : k ≠ "manglik") :
    dGet (npManglikLookup env raw st).1 k = dGet st.1 k := by
  obtain ⟨out, cache⟩ := st
  unfold npManglikLookup
  simp only
  split
  · split
    · exact dGet_dSet_ne _ _ _ _ h1
    · exact dGet_dSet_ne _ _ _ _ h1
  · rfl

theorem npManglikEnsure_presence (raw : PDict) (st : PDict × Cache) (k : String) :
    (dGet (npManglikEnsure raw st).1 k).isSome = (dGet st.1 k).isSome := by
  obtain ⟨out, cache⟩ := st
  unfold npManglikEnsure
  simp only
  split
  · rename_i h
    simp only [outHas] at h
    repeat' split
    all_goals exact isSome_dGet_dSet_of_mem out _ k _ h
  · rfl

theorem npManglikEnsure_frame (raw : PDict) (st : PDict × Cache) (k : String)
    (h1 : k ≠ "manglik") :
    dGet (npManglikEnsure raw st).1 k = dGet st.1 k := by
  obtain ⟨out, cache⟩ := st
  unfold npManglikEnsure
  simp only
  split
  · repeat' split
    all_goals exact dGet_dSet_ne _ _ _ _ h1
  · rfl

theorem npReligion_presence (raw : PDict) (st : PDict × Cache) (k : String) :
    (dGet (npReligion raw st).1 k).isSome = (dGet st.1 k).isSome := by
  obtain ⟨out, cache⟩ := st
  unfold npReligion
  simp only [isSome_dGet_setIf]

theorem npReligion_frame (raw : PDict) (st : PDict × Cache) (k : String)
    (h1 : k ≠ "religion") :
    dGet (npReligion raw st).1 k = dGet st.1 k := by
  obtain ⟨out, cache⟩ := st
  unfold npReligion
  simp only [dGet_setIf_ne _ _ _ _ h1]

theorem isSome_dGet_casteFieldFallback (cache : Cache) (env : Env) (raw : PDict)
    (out : PDict) (k : String) (rawKeys : List String) (col : String) (k' : String) :
    (dGet (casteFieldFallback cache env raw out k rawKeys col).1 k').isSome
      = (dGet out k').isSome := by
  unfold casteFieldFallback
  split
  · rename_i h
    simp only [outHas] at h
    repeat' split
    all_goals exact isSome_dGet_dSet_of_mem out _ k' _ h
  · rfl

theorem dGet_casteFieldFallback_ne (cache : Cache) (env : Env) (raw : PDict)
    (out : PDict) (k : String) (rawKeys : List String) (col : String) (k' : String)
    (h : k' ≠ k) :
    dGet (casteFieldFallback cache env raw out k rawKeys col).1 k' = dGet out k' := by
  unfold casteFieldFallback
  repeat' split
  all_goals first
    | rfl
    | exact dGet_dSet_ne _ _ _ _ h

theorem npCaste_presence (env : Env) (raw : PDict) (st : PDict × Cache) (k : String) :
    (dGet (npCaste env raw st).1 k).isSome = (dGet st.1 k).isSome := by
  obtain ⟨out, cache⟩ := st
  unfold npCaste
  simp only
  cases casteLookupValue raw with
  | none => rfl
  | some clv =>
    simp only
    cases clv with
    | i n =>
      simp only [isSome_dGet_casteFill, isSome_dGet_casteFieldFallback]
    | s s0 =>
      simp only
      rcases hcd : lookupCasteByAnyField cache env s0 with ⟨cd, c2⟩
      cases cd with
      | some cdr =>
        simp only [isSome_dGet_casteFill]
      | none =>
        simp only [isSome_dGet_casteFieldFallback]

theorem npCaste_frame (env : Env) (raw : PDict) (st : PDict × Cache) (k : String)
    (h1 : k ≠ "jaati") (h2 : k ≠ "caste") (h3 : k ≠ "gotra") (h4 : k ≠ "sakha") :
    dGet (npCaste env raw st).1 k = dGet st.1 k := by
  obtain ⟨out, cache⟩ := st
  unfold npCaste
  simp only
  cases casteLookupValue raw with
  | none => rfl
  | some clv =>
    simp only
    cases clv with
    | i n =>
      simp only [dGet_casteFill_ne _ _ _ _ h1, dGet_casteFill_ne _ _ _ _ h2,
          dGet_casteFill_ne _ _ _ _ h3, dGet_casteFill_ne _ _ _ _ h4,
          dGet_casteFieldFallback_ne _ _ _ _ _ _ _ _ h1,
          dGet_casteFieldFallback_ne _ _ _ _ _ _ _ _ h2,
          dGet_casteFieldFallback_ne _ _ _ _ _ _ _ _ h3,
          dGet_casteFieldFallback_ne _ _ _ _ _ _ _ _ h4]
    | s s0 =>
      simp only
      rcases hcd : lookupCasteByAnyField cache env s0 with ⟨cd, c2⟩
      cases cd with
      | some cdr =>
        simp only [dGet_casteFill_ne _ _ _ _ h1, dGet_casteFill_ne _ _ _ _ h2,
          dGet_casteFill_ne _ _ _ _ h3, dGet_casteFill_ne _ _ _ _ h4]
      | none =>
        simp only [dGet_casteFieldFallback_ne _ _ _ _ _ _ _ _ h1,
          dGet_casteFieldFallback_ne _ _ _ _ _ _ _ _ h2,
          dGet_casteFieldFallback_ne _ _ _ _ _ _ _ _ h3,
          dGet_casteFieldFallback_ne _ _ _ _ _ _ _ _ h4]

theorem npEducation_presence (env : Env) (raw : PDict) (st : PDict × Cache)
    (k : String) :
    (dGet (npEducation env raw st).1 k).isSome = (dGet st.1 k).isSome := by
  obtain ⟨out, cache⟩ := st
  unfold npEducation
  simp only
  repeat' split
  all_goals
    simp_all [outHas, isSome_dGet_dSet_of_mem]

theorem npEducation_frame (env : Env) (raw : PDict) (st : PDict × Cache) (k : String)
    (h1 : k ≠ "education") (h2 : k ≠ "specialization") :
    dGet (npEducation env raw st).1 k = dGet st.1 k := by
  obtain ⟨out, cache⟩ := st
  unfold npEducation
  simp only
  repeat' split
  all_goals
    simp_all [dGet_dSet_ne _ _ _ _ h1, dGet_dSet_ne _ _ _ _ h2]

theorem npSpecialization_presence (raw : PDict) (st : PDict × Cache) (k : String) :
    (dGet (npSpecialization raw st).1 k).isSome = (dGet st.1 k).isSome := by
  obtain ⟨out, cache⟩ := st
  unfold npSpecialization
  simp only
  repeat' split
  all_goals
    simp_all [outHas, isSome_dGet_dSet_of_mem]

theorem npSpecialization_frame (raw : PDict) (st : PDict × Cache) (k : String)
    (h2 : k ≠ "specialization") :
    dGet (npSpecialization raw st).1 k = dGet st.1 k := by
  obtain ⟨out, cache⟩ := st
  unfold npSpecialization
  simp only
  repeat' split
  all_goals
    simp_all [dGet_dSet_ne _ _ _ _ h2]

theorem npOccupation_presence (env : Env) (raw : PDict) (st : PDict × Cache)
    (k : String) :
    (dGet (npOccupation env raw st).1 k).isSome = (dGet st.1 k).isSome := by
  obtain ⟨out, cache⟩ := st
  unfold npOccupation
  simp only
  repeat' split
  all_goals
    simp_all [outHas, isSome_dGet_dSet_of_mem]

theorem npOccupation_frame (env : Env) (raw : PDict) (st : PDict × Cache) (k : String)
    (h1 : k ≠ "occupation") :
    dGet (npOccupation env raw st).1 k = dGet st.1 k := by
  obtain ⟨out, cache⟩ := st
  unfold npOccupation
  simp only
  repeat' split
  all_goals
    simp_all [dGet_dSet_ne _ _ _ _ h1]

theorem npIncome_presence (raw : PDict) (st : PDict × Cache) (k : String) :
    (dGet (npIncome raw st).1 k).isSome = (dGet st.1 k).isSome := by
  obtain ⟨out, cache⟩ := st
  unfold npIncome
  simp only [isSome_dGet_setIf]

theorem npIncome_frame (raw : PDict) (st : PDict × Cache) (k : String)
    (h1 : k ≠ "annual_income") :
    dGet (npIncome raw st).1 k = dGet st.1 k := by
  obtain ⟨out, cache⟩ := st
  unfold npIncome
  simp only [dGet_setIf_ne _ _ _ _ h1]

theorem npAddress_presence (raw : PDict) (st : PDict × Cache) (k : String) :
    (dGet (npAddress raw st).1 k).isSome = (dGet st.1 k).isSome := by
  obtain ⟨out, cache⟩ := st
  unfold npAddress
  simp only [isSome_dGet_setIf]

theorem npAddress_frame (raw : PDict) (st : PDict × Cache) (k : String)
    (h1 : k ≠ "address") :
    dGet (npAddress raw st).1 k = dGet st.1 k := by
  obtain ⟨out, cache⟩ := st
  unfold npAddress
  simp only [dGet_setIf_ne _ _ _ _ h1]

theorem npPincode_presence (env : Env) (raw : PDict) (st : PDict × Cache)
    (k : String) :
    (dGet (npPincode env raw st).1 k).isSome = (dGet st.1 k).isSome := by
  obtain ⟨out, cache⟩ := st
  unfold npPincode
  simp only
  repeat' split
  all_goals
    simp only [isSome_dGet_fillIfEmpty]

theorem npPincode_frame (env : Env) (raw : PDict) (st : PDict × Cache) (k : String)
    (h1 : k ≠ "country") (h2 : k ≠ "state") (h3 : k ≠ "city") (h4 : k ≠ "district")
    (h5 : k ≠ "zip_code") :
    dGet (npPincode env raw st).1 k = dGet st.1 k := by
  obtain ⟨out, cache⟩ := st
  unfold npPincode
  simp only
  repeat' split
  all_goals
    simp only [dGet_fillIfEmpty_ne _ _ _ _ h1, dGet_fillIfEmpty_ne _ _ _ _ h2,
      dGet_fillIfEmpty_ne _ _ _ _ h3, dGet_fillIfEmpty_ne _ _ _ _ h4,
      dGet_fillIfEmpty_ne _ _ _ _ h5]

theorem npRevGeo_presence (env : Env) (raw : PDict) (st : PDict × Cache)
    (k : String) :
    (dGet (npRevGeo env raw st).1 k).isSome = (dGet st.1 k).isSome := by
  obtain ⟨out, cache⟩ := st
  unfold npRevGeo
  simp only
  repeat' split
  all_goals
    simp only [isSome_dGet_fillIfEmpty]

theorem npRevGeo_frame (env : Env) (raw : PDict) (st : PDict × Cache) (k : String)
    (h1 : k ≠ "country") (h2 : k ≠ "state") (h3 : k ≠ "city") (h4 : k ≠ "district")
    (h5 : k ≠ "zip_code") :
    dGet (npRevGeo env raw st).1 k = dGet st.1 k := by
  obtain ⟨out, cache⟩ := st
  unfold npRevGeo
  simp only
  repeat' split
  all_goals
    simp only [dGet_fillIfEmpty_ne _ _ _ _ h1, dGet_fillIfEmpty_ne _ _ _ _ h2,
      dGet_fillIfEmpty_ne _ _ _ _ h3, dGet_fillIfEmpty_ne _ _ _ _ h4,
      dGet_fillIfEmpty_ne _ _ _ _ h5]

theorem npLocalFields_presence (raw : PDict) (st : PDict × Cache) (k : String) :
    (dGet (npLocalFields raw st).1 k).isSome = (dGet st.1 k).isSome := by
  obtain ⟨out, cache⟩ := st
  unfold npLocalFields
  simp only
  repeat' split
  all_goals
    simp_all [outHas, isSome_dGet_setIf, isSome_dGet_keepOr, isSome_dGet_dSet_of_mem]

theorem npLocalFields_frame (raw : PDict) (st : PDict × Cache) (k : String)
    (h1 : k ≠ "village") (h2 : k ≠ "tahsil") (h3 : k ≠ "district")
    (h4 : k ≠ "native_state") (h5 : k ≠ "city") (h6 : k ≠ "zip_code") :
    dGet (npLocalFields raw st).1 k = dGet st.1 k := by
  obtain ⟨out, cache⟩ := st
  unfold npLocalFields
  simp only
  repeat' split
  all_goals
    simp_all [dGet_setIf_ne _ _ _ _ h1, dGet_setIf_ne _ _ _ _ h2,
      dGet_keepOr_ne _ _ _ _ h3, dGet_dSet_ne _ _ _ _ h4,
      dGet_keepOr_ne _ _ _ _ h5, dGet_keepOr_ne _ _ _ _ h6]

theorem npZipFallback_presence (env : Env) (raw : PDict) (st : PDict × Cache)
    (k : String) :
    (dGet (npZipFallback env raw st).1 k).isSome = (dGet st.1 k).isSome := by
  obtain ⟨out, cache⟩ := st
  unfold npZipFallback
  simp only
  repeat' split
  all_goals
    simp_all [outHas, isSome_dGet_dSet_of_mem]

theorem npZipFallback_frame (env : Env) (raw : PDict) (st : PDict × Cache) (k : String)
    (h6 : k ≠ "zip_code") :
    dGet (npZipFallback env raw st).1 k = dGet st.1 k := by
  obtain ⟨out, cache⟩ := st
  unfold npZipFallback
  simp only
  repeat' split
  all_goals
    simp_all [dGet_dSet_ne _ _ _ _ h6]

theorem npCountryState_presence (env : Env) (raw : PDict) (st : PDict × Cache)
    (k : String) :
    (dGet (npCountryState env raw st).1 k).isSome = (dGet st.1 k).isSome := by
  obtain ⟨out, cache⟩ := st
  unfold npCountryState
  simp only
  repeat' split
  all_goals
    simp only [isSome_dGet_setIf]

theorem npCountryState_frame (env : Env) (raw : PDict) (st : PDict × Cache)
    (k : String) (h1 : k ≠ "country") (h2 : k ≠ "state") :
    dGet (npCountryState env raw st).1 k = dGet st.1 k := by
  obtain ⟨out, cache⟩ := st
  unfold npCountryState
  simp only
  repeat' split
  all_goals
    simp only [dGet_setIf_ne _ _ _ _ h1, dGet_setIf_ne _ _ _ _ h2]

theorem npHeight_presence (env : Env) (raw : PDict) (st : PDict × Cache)
    (k : String) :
    (dGet (npHeight env raw st).1 k).isSome = (dGet st.1 k).isSome := by
  obtain ⟨out, cache⟩ := st
  unfold npHeight
  simp only
  repeat' split
  all_goals
    simp_all [outHas, isSome_dGet_dSet_of_mem]

theorem npHeight_frame (env : Env) (raw : PDict) (st : PDict × Cache) (k : String)
    (h1 : k ≠ "height") :
    dGet (npHeight env raw st).1 k = dGet st.1 k := by
  obtain ⟨out, cache⟩ := st
  unfold npHeight
  simp only
  repeat' split
  all_goals
    simp_all [dGet_dSet_ne _ _ _ _ h1]

theorem npContacts_presence (raw : PDict) (st : PDict × Cache) (k : String) :
    (dGet (npContacts raw st).1 k).isSome = (dGet st.1 k).isSome := by
  obtain ⟨out, cache⟩ := st
  unfold npContacts
  simp only [isSome_dGet_setIf]

theorem npContacts_frame (raw : PDict) (st : PDict × Cache) (k : String)
    (h1 : k ≠ "email_id") (h2 : k ≠ "mobile_no") (h3 : k ≠ "phone_no") :
    dGet (npContacts raw st).1 k = dGet st.1 k := by
  obtain ⟨out, cache⟩ := st
  unfold npContacts
  simp only [dGet_setIf_ne _ _ _ _ h1, dGet_setIf_ne _ _ _ _ h2,
    dGet_setIf_ne _ _ _ _ h3]

theorem enrich_mono (cache : Cache) (env : Env) (biodata : PDict) (text : String)
    (k : String) (h : (dGet biodata k).isSome = true) :
    (dGet (enrichProfileFromUnstructuredText cache env biodata text).1 k).isSome
      = true := by
  unfold enrichProfileFromUnstructuredText
  simp only
  repeat' split
  all_goals simp_all [isSome_dGet_dSet]

theorem enrich_frame (cache : Cache) (env : Env) (biodata : PDict) (text : String)
    (k : String) (h1 : k ≠ "education") (h2 : k ≠ "jaati") (h3 : k ≠ "gotra")
    (h4 : k ≠ "sakha") :
    dGet (enrichProfileFromUnstructuredText cache env biodata text).1 k
      = dGet biodata k := by
  unfold enrichProfileFromUnstructuredText
  simp only
  repeat' split
  all_goals simp_all [dGet_dSet_ne _ _ _ _ h1, dGet_dSet_ne _ _ _ _ h2,
    dGet_dSet_ne _ _ _ _ h3, dGet_dSet_ne _ _ _ _ h4]

theorem npEnrich_presence_mono (env : Env) (raw : PDict) (st : PDict × Cache)
    (k : String) (h : (dGet st.1 k).isSome = true) :
    (dGet (npEnrich env raw st).1 k).isSome = true := by
  obtain ⟨out, cache⟩ := st
  unfold npEnrich
  simp only
  split
  · split
    · rename_i hg
      simp only [outHas] at hg
      rw [isSome_dGet_dSet_of_mem _ _ _ _ hg]
      exact enrich_mono _ _ _ _ _ h
    · exact enrich_mono _ _ _ _ _ h
  · exact h

theorem npEnrich_presence_other (env : Env) (raw : PDict) (st : PDict × Cache)
    (k : String) (h1 : k ≠ "education") (h2 : k ≠ "jaati") (h3 : k ≠ "gotra")
    (h4 : k ≠ "sakha") :
    (dGet (npEnrich env raw st).1 k).isSome = (dGet st.1 k).isSome := by
  obtain ⟨out, cache⟩ := st
  unfold npEnrich
  simp only
  split
  · split
    · rename_i hg
      simp only [outHas] at hg
      rw [isSome_dGet_dSet_of_mem _ _ _ _ hg]
      rw [enrich_frame _ _ _ _ _ h1 h2 h3 h4]
    · rw [enrich_frame _ _ _ _ _ h1 h2 h3 h4]
  · rfl

theorem npEnrich_frame (env : Env) (raw : PDict) (st : PDict × Cache)
    (k : String) (h1 : k ≠ "education") (h2 : k ≠ "jaati") (h3 : k ≠ "gotra")
    (h4 : k ≠ "sakha") (h5 : k ≠ "about_yourself_summary") :
    dGet (npEnrich env raw st).1 k = dGet st.1 k := by
  obtain ⟨out, cache⟩ := st
  unfold npEnrich
  simp only
  split
  · split
    · rw [dGet_dSet_ne _ _ _ _ h5]
      rw [enrich_frame _ _ _ _ _ h1 h2 h3 h4]
    · rw [enrich_frame _ _ _ _ _ h1 h2 h3 h4]
  · rfl

theorem isSome_dGet_mkOut_aux :
    ∀ (schema : List String) (o : PDict) (k : String),
      (dGet (schema.foldl (fun o k => dSet o k none) o) k).isSome
        = ((dGet o k).isSome || schema.contains k) := by
  intro schema
  induction schema with
  | nil => simp
  | cons s t ih =>
    intro o k
    simp only [List.foldl]
    rw [ih, isSome_dGet_dSet]
    by_cases hk : k = s
    · subst hk
      simp
    · simp [hk]

theorem isSome_dGet_mkOut (schema : List String) (k : String) :
    (dGet (mkOut schema) k).isSome = schema.contains k := by
  unfold mkOut
  have h := isSome_dGet_mkOut_aux schema [] k
  rw [dGet_nil] at h
  simpa using h

/-! ## Values of the strict-enum fields, and the key set of the output -/

theorem sv_enforce_cases (m : Option String) (v : Option PyVal) (h : sv m = v)
    (hmem : ∀ s, m = some s → s ∈ enforcedMaritalAllowed) :
    v = none ∨ ∃ s, v = some (PyVal.s s) ∧ s ∈ enforcedMaritalAllowed := by
  cases m with
  | none => exact Or.inl h.symm
  | some s => exact Or.inr ⟨s, h.symm, hmem s rfl⟩

theorem maritalEnforce_value (raw : PDict) (st : PDict × Cache) (v : Option PyVal)
    (h : dGet (npMaritalEnforce raw st).1 "marital_status" = some v) :
    v = none ∨ ∃ s, v = some (PyVal.s s) ∧ s ∈ enforcedMaritalAllowed := by
  obtain ⟨out, cache⟩ := st
  unfold npMaritalEnforce at h
  simp only at h
  by_cases hhas : outHas out "marital_status" = true
  · rw [if_pos hhas, dGet_dSet_self] at h
    injection h with h
    repeat' split at h
    all_goals first
      | exact Or.inl h.symm
      | exact sv_enforce_cases _ v h (fun s hs => maritalEnforceMatch_mem _ _ s hs)
  · rw [if_neg hhas] at h
    simp only [outHas] at hhas
    cases hdg : dGet out "marital_status" with
    | none => rw [hdg] at h; cases h
    | some d => rw [hdg] at hhas; simp at hhas

theorem manglikEnsure_value (raw : PDict) (st : PDict × Cache)
    (hhas : (dGet st.1 "manglik").isSome = true) :
    ∃ s, dGet (npManglikEnsure raw st).1 "manglik" = some (some (PyVal.s s)) ∧
      s ∈ (["Yes", "No", "Don\x27t Know"] : List String) := by
  obtain ⟨out, cache⟩ := st
  unfold npManglikEnsure
  simp only
  have hhas2 : outHas out "manglik" = true := hhas
  rw [if_pos hhas2]
  repeat' split
  all_goals rw [dGet_dSet_self]
  all_goals first
    | exact ⟨manglikCoerce _, rfl, manglikCoerce_mem _⟩
    | exact ⟨"Don\x27t Know", rfl, by simp⟩

theorem manglikEnsure_value_of_some (raw : PDict) (st : PDict × Cache)
    (v : Option PyVal)
    (h : dGet (npManglikEnsure raw st).1 "manglik" = some v) :
    ∃ s, v = some (PyVal.s s) ∧
      s ∈ (["Yes", "No", "Don\x27t Know"] : List String) := by
  have hpres : (dGet (npManglikEnsure raw st).1 "manglik").isSome = true := by
    rw [h]
    rfl
  rw [npManglikEnsure_presence] at hpres
  obtain ⟨s, hs, hmem⟩ := manglikEnsure_value raw st hpres
  rw [h] at hs
  injection hs with hs
  exact ⟨s, hs, hmem⟩

theorem manglik_missing (env : Env) (raw : PDict) (st : PDict × Cache)
    (hmiss : cleanStr (rawGetPascal raw ["manglik", "Manglik"]) = none)
    (hhas : (dGet st.1 "manglik").isSome = true) :
    dGet (npManglikEnsure raw (npManglikLookup env raw st)).1 "manglik"
      = some (some (PyVal.s "Don\x27t Know")) := by
  obtain ⟨out, cache⟩ := st
  unfold npManglikLookup
  simp only
  have hhas1 : outHas out "manglik" = true := hhas
  rw [if_pos hhas1, hmiss]
  unfold npManglikEnsure
  simp only
  have hhas2 : outHas (dSet out "manglik" none) "manglik" = true := by
    unfold outHas
    rw [dGet_dSet_self]
    rfl
  rw [if_pos hhas2]
  have hget : outGet (dSet out "manglik" none) "manglik" = none := by
    unfold outGet
    rw [dGet_dSet_self]
    rfl
  rw [hget, hmiss]
  simp only [pyTruthy, sv, Option.map_none]
  rw [if_neg (by simp), dGet_dSet_self]

theorem marital_after_enforce (env : Env) (raw : PDict) :
    dGet (normalizeProfile env raw) "marital_status" =
      dGet (npMaritalEnforce raw (npMaritalLookup env raw (npGender raw
        (npBirth raw (npAgeDob env raw (npNames raw
          (mkOut (loadSchema env), ([] : Cache)))))))).1 "marital_status" := by
  unfold normalizeProfile normalizeProfileSt
  rw [npEnrich_frame _ _ _ _ (by decide) (by decide) (by decide) (by decide) (by decide),
    npContacts_frame _ _ _ (by decide) (by decide) (by decide),
    npHeight_frame _ _ _ _ (by decide),
    npCountryState_frame _ _ _ _ (by decide) (by decide),
    npZipFallback_frame _ _ _ _ (by decide),
    npLocalFields_frame _ _ _ (by decide) (by decide) (by decide) (by decide)
      (by decide) (by decide),
    npRevGeo_frame _ _ _ _ (by decide) (by decide) (by decide) (by decide) (by decide),
    npPincode_frame _ _ _ _ (by decide) (by decide) (by decide) (by decide) (by decide),
    npAddress_frame _ _ _ (by decide),
    npIncome_frame _ _ _ (by decide),
    npOccupation_frame _ _ _ _ (by decide),
    npSpecialization_frame _ _ _ (by decide),
    npEducation_frame _ _ _ _ (by decide) (by decide),
    npCaste_frame _ _ _ _ (by decide) (by decide) (by decide) (by decide),
    npReligion_frame _ _ _ (by decide),
    npManglikEnsure_frame _ _ _ (by decide),
    npManglikLookup_frame _ _ _ _ (by decide)]

theorem manglik_after_ensure (env : Env) (raw : PDict) :
    dGet (normalizeProfile env raw) "manglik" =
      dGet (npManglikEnsure raw (npManglikLookup env raw (npMaritalEnforce raw
        (npMaritalLookup env raw (npGender raw (npBirth raw (npAgeDob env raw
          (npNames raw (mkOut (loadSchema env), ([] : Cache)))))))))).1
        "manglik" := by
  unfold normalizeProfile normalizeProfileSt
  rw [npEnrich_frame _ _ _ _ (by decide) (by decide) (by decide) (by decide) (by decide),
    npContacts_frame _ _ _ (by decide) (by decide) (by decide),
    npHeight_frame _ _ _ _ (by decide),
    npCountryState_frame _ _ _ _ (by decide) (by decide),
    npZipFallback_frame _ _ _ _ (by decide),
    npLocalFields_frame _ _ _ (by decide) (by decide) (by decide) (by decide)
      (by decide) (by decide),
    npRevGeo_frame _ _ _ _ (by decide) (by decide) (by decide) (by decide) (by decide),
    npPincode_frame _ _ _ _ (by decide) (by decide) (by decide) (by decide) (by decide),
    npAddress_frame _ _ _ (by decide),
    npIncome_frame _ _ _ (by decide),
    npOccupation_frame _ _ _ _ (by decide),
    npSpecialization_frame _ _ _ (by decide),
    npEducation_frame _ _ _ _ (by decide) (by decide),
    npCaste_frame _ _ _ _ (by decide) (by decide) (by decide) (by decide),
    npReligion_frame _ _ _ (by decide)]

theorem normalizeProfile_presence_mono (env : Env) (raw : PDict) (k : String)
    (h : (dGet (mkOut (loadSchema env)) k).isSome = true) :
    (dGet (normalizeProfile env raw) k).isSome = true := by
  unfold normalizeProfile normalizeProfileSt
  apply npEnrich_presence_mono
  simp only [npContacts_presence, npHeight_presence, npCountryState_presence,
    npZipFallback_presence, npLocalFields_presence, npRevGeo_presence,
    npPincode_presence, npAddress_presence, npIncome_presence,
    npOccupation_presence, npSpecialization_presence, npEducation_presence,
    npCaste_presence, npReligion_presence, npManglikEnsure_presence,
    npManglikLookup_presence, npMaritalEnforce_presence, npMaritalLookup_presence,
    npGender_presence, npBirth_presence, npAgeDob_presence, npNames_presence]
  exact h

theorem normalizeProfile_presence_bound (env : Env) (raw : PDict) (k : String)
    (h : (dGet (normalizeProfile env raw) k).isSome = true)
    (h1 : k ≠ "education") (h2 : k ≠ "jaati") (h3 : k ≠ "gotra") (h4 : k ≠ "sakha") :
    (dGet (mkOut (loadSchema env)) k).isSome = true := by
  unfold normalizeProfile normalizeProfileSt at h
  rw [npEnrich_presence_other _ _ _ _ h1 h2 h3 h4] at h
  simp only [npContacts_presence, npHeight_presence, npCountryState_presence,
    npZipFallback_presence, npLocalFields_presence, npRevGeo_presence,
    npPincode_presence, npAddress_presence, npIncome_presence,
    npOccupation_presence, npSpecialization_presence, npEducation_presence,
    npCaste_presence, npReligion_presence, npManglikEnsure_presence,
    npManglikLookup_presence, npMaritalEnforce_presence, npMaritalLookup_presence,
    npGender_presence, npBirth_presence, npAgeDob_presence, npNames_presence] at h
  exact h

/-! ## Lookup behaviour: occupation passthrough, caste single-row, cache -/

theorem casteExactRow_mem (df : DFrame) (f v : String) (r : List (Option String))
    (h : casteExactRow df f v = some r) : r ∈ df.rows := by
  unfold casteExactRow at h
  cases hc : df.colIdx f with
  | none => rw [hc] at h; cases h
  | some i =>
    rw [hc] at h
    exact List.mem_of_find?_eq_some h

theorem casteFuzzyRow_mem (df : DFrame) (f v : String) (r : List (Option String))
    (h : casteFuzzyRow df f v = some r) : r ∈ df.rows := by
  unfold casteFuzzyRow at h
  cases hc : df.colIdx f with
  | none => rw [hc] at h; cases h
  | some i =>
    rw [hc] at h
    simp only at h
    split at h
    · cases h
    · split at h
      · cases h
      · exact List.mem_of_find?_eq_some h

theorem firstFieldHit_row_mem (df : DFrame)
    (pass : String → Option (List (Option String))) (fs : List String)
    (r : List (Option String))
    (hpass : ∀ f r', pass f = some r' → r' ∈ df.rows)
    (h : firstFieldHit pass fs = some r) : r ∈ df.rows := by
  obtain ⟨f, _, hp⟩ := firstFieldHit_mem pass fs r h
  exact hpass f r hp

/-- C5: whenever `lookup_caste_by_any_field` returns a non-absent record,
all four returned fields are the projections of one single row of the
(renamed) caste master — the row found first by the exact pass and then the
fuzzy pass over the priority fields — never mixed across rows; with no hit
the result is absent by construction. -/
theorem lookupCaste_single_row (cache : Cache) (env : Env) (value : String)
    (rec : CasteRec) (c' : Cache)
    (h : lookupCasteByAnyField cache env value = (some rec, c')) :
    ∃ df0 c1 r, loadMaster cache env "caste" = (some df0, c1) ∧
      r ∈ (renameCols df0).rows ∧ rec = casteRecOf (renameCols df0) r := by
  unfold lookupCasteByAnyField at h
  simp only at h
  split at h
  · simp at h
  · split at h
    · simp at h
    · rename_i df0 c1 heq
      injection h with h1 h2
      rw [Option.map_eq_some'] at h1
      obtain ⟨r, hr, hrec⟩ := h1
      refine ⟨df0, c1, r, heq, ?_, hrec.symm⟩
      split at hr
      · rename_i r0 hex
        injection hr with hr
        subst hr
        exact firstFieldHit_row_mem (renameCols df0) _ _ r0
          (fun f r' hp => casteExactRow_mem _ f (pyStrip value) r' hp) hex
      · exact firstFieldHit_row_mem (renameCols df0) _ _ r
          (fun f r' hp => casteFuzzyRow_mem _ f (pyStrip value) r' hp) hr

/-- C4 (amended): when the occupation master loads and neither the exact
case-insensitive pass nor the fuzzy matcher finds a candidate at the
threshold, `lookup_occupation` resolves to the stripped raw input itself —
a lenient passthrough (per its docstring), not the absence the specification
claims; the strict absent-on-no-match behaviour belongs to the
marital-status and manglik lookups instead. -/
theorem lookupOccupation_passthrough (cache : Cache) (env : Env) (value : String)
    (df : DFrame) (c' : Cache)
    (hv : ¬ pyStrip value = "")
    (hload : loadMaster cache env "occupation" = (some df, c'))
    (hexact : (df.colDropNa (df.cols.headD "")).find?
      (fun m => pyStrip (pyLower m) = pyLower (pyStrip value)) = none)
    (hfuzzy : (matchOne (pyStrip value) (df.colDropNa (df.cols.headD "")) 80).1
      = none) :
    lookupOccupation cache env value = (some (pyStrip value), c') := by
  unfold lookupOccupation
  simp only
  rw [if_neg hv, hload]
  simp only
  rw [hexact]
  simp only
  rw [hfuzzy]

/-- C8 (amended): `load_master` loads each key at most once — when a call
returns a table, calling again with the resulting cache returns the same
table and leaves the cache unchanged, without re-reading storage.  The
immutability half of the claim is false: the caste and pin-code lookups
rename the cached table's columns in place (see the counterexample). -/
theorem loadMaster_at_most_once (cache : Cache) (env : Env) (key : String)
    (df : DFrame) (c' : Cache)
    (h : loadMaster cache env key = (some df, c')) :
    loadMaster c' env key = (some df, c') := by
  unfold loadMaster at h ⊢
  split at h
  · rename_i d0 hg
    injection h with h1 h2
    injection h1 with h1
    subst h1
    subst h2
    rw [hg]
  · split at h
    · split at h
      · rename_i df0 hf
        injection h with h1 h2
        injection h1 with h1
        subst h1
        subst h2
        rw [dGet_dSet_self]
      · simp at h
    · simp at h

theorem normalizeMobileNumber_digit_count (s : String)
    (h : ((pyStrip s).toList.filter pyIsDigit).length = 7 ∨
      ((pyStrip s).toList.filter pyIsDigit).length = 9 ∨
      ((pyStrip s).toList.filter pyIsDigit).length = 11) :
    normalizeMobileNumber s = none := by
  unfold normalizeMobileNumber
  by_cases hs : s = ""
  · rw [if_pos hs]
  · rw [if_neg hs]
    simp only
    simp only [String.toList] at h
    rcases h with h | h | h <;> simp [h]

/-! ## The claims -/

/-- C1 (counterexample): with the four-column output schema and a raw
profile holding only the unstructured note `Pareek`, the enrichment pass
inserts the key `jaati`, so the key set of the returned map is strictly
larger than the resolved canonical schema. -/
theorem claim1_counterexample :
    (normalizeProfile envC1 rawC1).map Prod.fst
        = ["full_name", "education", "gotra", "sakha", "jaati"] ∧
      loadSchema envC1 = ["full_name", "education", "gotra", "sakha"] ∧
      ¬ (normalizeProfile envC1 rawC1).map Prod.fst = loadSchema envC1 := by
  decide

/-- C1 (amended): for every environment and raw profile, the key set of the
map returned by `normalize_profile` contains every key of the resolved
canonical schema, and every key of the map is either a schema key or one of
the four enrichable keys `education`, `jaati`, `gotra`, `sakha` that
`enrich_profile_from_unstructured_text` may insert when they are missing
from the schema. -/
theorem claim1_key_set (env : Env) (raw : PDict) :
    (∀ k, k ∈ loadSchema env → (dGet (normalizeProfile env raw) k).isSome = true) ∧
    (∀ k, (dGet (normalizeProfile env raw) k).isSome = true →
      k ∈ loadSchema env ∨
        k ∈ (["education", "jaati", "gotra", "sakha"] : List String)) := by
  constructor
  · intro k hk
    apply normalizeProfile_presence_mono
    rw [isSome_dGet_mkOut]
    simpa using hk
  · intro k hk
    by_cases h4 : k ∈ (["education", "jaati", "gotra", "sakha"] : List String)
    · exact Or.inr h4
    · left
      simp only [List.mem_cons, List.not_mem_nil, or_false, not_or] at h4
      obtain ⟨h1, h2, h3, h4'⟩ := h4
      have hb := normalizeProfile_presence_bound env raw k hk h1 h2 h3 h4'
      rw [isSome_dGet_mkOut] at hb
      simpa using hb

theorem claim1_key_set_witness :
    (dGet (normalizeProfile envC1 rawC1) "full_name").isSome = true ∧
      ("jaati" ∈ loadSchema envC1 ∨
        "jaati" ∈ (["education", "jaati", "gotra", "sakha"] : List String)) :=
  ⟨(claim1_key_set envC1 rawC1).1 "full_name" (by decide),
   (claim1_key_set envC1 rawC1).2 "jaati" (by decide)⟩

/-- C2: for every environment and raw profile, the `marital_status` value of
the returned map is either absent or an exact member of the canonical
allow-list hard-coded by the enforcement block of `normalize_profile`, and
the `manglik` value is either absent or exactly one of `Yes`, `No`,
`Don't Know` — a raw value that matches no allow-list member is never
passed through. -/
theorem claim2_strict_enums (env : Env) (raw : PDict) :
    (∀ v, dGet (normalizeProfile env raw) "marital_status" = some v →
      v = none ∨ ∃ s, v = some (PyVal.s s) ∧ s ∈ enforcedMaritalAllowed) ∧
    (∀ v, dGet (normalizeProfile env raw) "manglik" = some v →
      v = none ∨ ∃ s, v = some (PyVal.s s) ∧
        s ∈ (["Yes", "No", "Don\x27t Know"] : List String)) := by
  constructor
  · intro v h
    rw [marital_after_enforce] at h
    exact maritalEnforce_value raw _ v h
  · intro v h
    rw [manglik_after_ensure] at h
    obtain ⟨s, hs, hmem⟩ := manglikEnsure_value_of_some raw _ v h
    exact Or.inr ⟨s, hs, hmem⟩

theorem claim2_strict_enums_witness :
    ((some (PyVal.s "Married") : Option PyVal) = none ∨
      ∃ s, (some (PyVal.s "Married") : Option PyVal) = some (PyVal.s s) ∧
        s ∈ enforcedMaritalAllowed) ∧
    ((some (PyVal.s "Yes") : Option PyVal) = none ∨
      ∃ s, (some (PyVal.s "Yes") : Option PyVal) = some (PyVal.s s) ∧
        s ∈ (["Yes", "No", "Don\x27t Know"] : List String)) :=
  ⟨(claim2_strict_enums envC2 rawC2).1 (some (PyVal.s "Married")) (by decide),
   (claim2_strict_enums envC2 rawC2).2 (some (PyVal.s "Yes")) (by decide)⟩

/-- C3 (counterexample): in the Priya scenario — reference data containing
the canonical forms `Single` and `Yes` — the returned marital status is
`None`, not the claimed `Single`: the master lookup does resolve `single` to
`Single`, but the enforcement block's hard-coded allow-list lacks
`Single`; neither equality nor substring containment hits, and the best
`fuzzywuzzy.process.extractOne` score over that list (`Awaiting Divorce` at
`45`) stays below the threshold `80`, so the block overwrites the field with
`None`. -/
theorem claim3_counterexample :
    (lookupMaritalStatus [] envC3 "single").1 = some "Single" ∧
      maritalEnforceMatch "Single" 80 = none ∧
      fwExtractOne "Single" enforcedMaritalAllowed
        = some ("Awaiting Divorce", 45) ∧
      dGet (normalizeProfile envC3 rawC3) "marital_status" = some none ∧
      ¬ dGet (normalizeProfile envC3 rawC3) "marital_status"
        = some (some (PyVal.s "Single")) := by
  decide

/-- C3 (amended): the Priya scenario returns the claimed full name, first
name, last name and manglik `Yes`, but the marital status ends `None`: the
enforcement block wipes the looked-up `Single` because its hard-coded
allow-list omits it and no fuzzy candidate reaches the threshold (see the
counterexample). -/
theorem claim3_scenario :
    dGet (normalizeProfile envC3 rawC3) "full_name"
        = some (some (PyVal.s "Priya Sharma")) ∧
      dGet (normalizeProfile envC3 rawC3) "first_name"
        = some (some (PyVal.s "Priya")) ∧
      dGet (normalizeProfile envC3 rawC3) "last_name"
        = some (some (PyVal.s "Sharma")) ∧
      dGet (normalizeProfile envC3 rawC3) "manglik"
        = some (some (PyVal.s "Yes")) ∧
      dGet (normalizeProfile envC3 rawC3) "marital_status" = some none := by
  decide

/-- C4 (counterexample): with the occupation master loaded, the query
`Zzzzqqq` matches nothing — no exact hit and no fuzzy candidate at the
threshold — yet `lookup_occupation` returns the raw value itself rather than
absent. -/
theorem claim4_counterexample :
    (dfOccC4.colDropNa (dfOccC4.cols.headD "")).find?
        (fun m => pyStrip (pyLower m) = pyLower (pyStrip "Zzzzqqq")) = none ∧
      (matchOne "Zzzzqqq" (dfOccC4.colDropNa (dfOccC4.cols.headD "")) 80).1
        = none ∧
      (lookupOccupation [] envC4 "Zzzzqqq").1 = some "Zzzzqqq" := by
  decide

theorem claim4_witness :
    lookupOccupation [] envC4 "Zzzzqqq"
      = (some (pyStrip "Zzzzqqq"), dSet ([] : Cache) "occupation" dfOccC4) :=
  lookupOccupation_passthrough [] envC4 "Zzzzqqq" dfOccC4
    (dSet ([] : Cache) "occupation" dfOccC4)
    (by decide) (by decide) (by decide) (by decide)

theorem claim5_witness :
    ∃ df0 c1 r, loadMaster [] envC5 "caste" = (some df0, c1) ∧
      r ∈ (renameCols df0).rows ∧ recC5 = casteRecOf (renameCols df0) r :=
  lookupCaste_single_row [] envC5 "Pareek" recC5 cacheC5 (by decide)

/-- C6 (counterexample): `09876543210` has eleven digits, so the code maps
it to absent — contradicting the claim that it normalises to the canonical
`+91 9876543210` (the claim also asserts that eleven-digit inputs map to
absent, so it contradicts itself on this input). -/
theorem claim6_counterexample :
    normalizeMobileNumber "09876543210" = none ∧
      ¬ normalizeMobileNumber "09876543210" = some "+91 9876543210" ∧
      ((pyStrip "09876543210").toList.filter pyIsDigit).length = 11 := by
  decide

/-- C6 (amended): `9876543210`, `+919876543210` and `919876543210` all map
to the canonical form `+91 9876543210`, as does the thirteen-digit
`0919876543210`; the eleven-digit `09876543210` maps to absent, and every
input with seven, nine or eleven digits maps to absent. -/
theorem claim6_phone :
    normalizeMobileNumber "9876543210" = some "+91 9876543210" ∧
      normalizeMobileNumber "+919876543210" = some "+91 9876543210" ∧
      normalizeMobileNumber "919876543210" = some "+91 9876543210" ∧
      normalizeMobileNumber "0919876543210" = some "+91 9876543210" ∧
      normalizeMobileNumber "09876543210" = none ∧
      (∀ s : String,
        (((pyStrip s).toList.filter pyIsDigit).length = 7 ∨
          ((pyStrip s).toList.filter pyIsDigit).length = 9 ∨
          ((pyStrip s).toList.filter pyIsDigit).length = 11) →
        normalizeMobileNumber s = none) := by
  refine ⟨by decide, by decide, by decide, by decide, by decide, ?_⟩
  intro s h
  exact normalizeMobileNumber_digit_count s h

theorem claim6_phone_witness :
    normalizeMobileNumber "123456789" = none :=
  claim6_phone.2.2.2.2.2 "123456789" (by decide)

/-- C7 (counterexample): `match_one` strips the query but not the
candidates, so the non-empty query `" x "` and a candidate list containing
the equal string `" x "` yield an absent match at threshold `80 ≤ 100` —
the claimed monotonicity fails for queries with surrounding whitespace. -/
theorem claim7_counterexample :
    ¬ (" x " : String) = "" ∧ (" x " : String) ∈ ([" x "] : List String) ∧
      (Q.ofInt 80).val ≤ 100 ∧
      (matchOne " x " [" x "] (Q.ofInt 80)).1 = none := by
  refine ⟨by decide, by decide, ?_, by decide⟩
  rw [Q.ofInt_val]
  norm_num

/-- C7 (amended): for every query whose stripped form is non-empty and
appears among the candidates, that exact candidate scores `100` (the
`difflib` ratio of a string with itself is `1`, autojunk included) and a
non-absent match is returned at every threshold at most `100`; an empty
candidate list always yields an absent match. -/
theorem claim7_match_monotonic (query : String) (choices : List String) (t : Q) :
    (¬ pyStrip query = "" → pyStrip query ∈ choices → 0 < t.d → t.val ≤ 100 →
      (difflibScore ((pyStrip query).toList.map Char.toLower)
          ((pyStrip query).toList.map Char.toLower)).val = 100 ∧
        (matchOne query choices t).1.isSome = true) ∧
      (matchOne query [] t).1 = none := by
  constructor
  · intro h1 h2 h3 h4
    exact ⟨difflibScore_self_val _, matchOne_exact query choices t h1 h2 h3 h4⟩
  · exact matchOne_nil query t

theorem claim7_match_witness :
    (difflibScore ((pyStrip "single").toList.map Char.toLower)
        ((pyStrip "single").toList.map Char.toLower)).val = 100 ∧
      (matchOne "single" ["single"] (Q.ofInt 80)).1.isSome = true :=
  (claim7_match_monotonic "single" ["single"] (Q.ofInt 80)).1
    (by decide) (by decide) (by decide) (by rw [Q.ofInt_val]; norm_num)

/-- C8 (counterexample): the caste lookup renames the columns of the cached
caste table in place, so after one lookup the cache holds a table whose
column names differ from the table that was cached — the cached table is not
immutable. -/
theorem claim8_counterexample :
    (loadMaster [] envC8 "caste").1 = some dfC8 ∧
      dGet (lookupCasteByAnyField (loadMaster [] envC8 "caste").2 envC8 "x").2
          "caste"
        = some (renameCols dfC8) ∧
      ¬ renameCols dfC8 = dfC8 := by
  decide

theorem claim8_witness :
    loadMaster (dSet ([] : Cache) "caste" dfC8) envC8 "caste"
      = (some dfC8, dSet ([] : Cache) "caste" dfC8) :=
  loadMaster_at_most_once [] envC8 "caste" dfC8
    (dSet ([] : Cache) "caste" dfC8) (by decide)

/-- C9 (counterexample): `normalize_profile` has no closing sanitize pass —
the religion value `@@`, which `validate_field` rejects, is returned
unchanged in the canonical profile. -/
theorem claim9_counterexample :
    validateField "religion" (some (PyVal.s "@@")) = false ∧
      dGet (normalizeProfile envC9 rawC9) "religion"
        = some (some (PyVal.s "@@")) := by
  decide

/-- C9 (amended): no sanitize pass closes `normalize_profile`: the
structurally invalid religion `@@` appears in the output, and applying
`sanitize_profile` to that output would change it.  The scenario's state
conclusion itself holds — with the institution string in `state` the output
state is absent — but through the country/state master matching, not through
the validator. -/
theorem claim9_no_sanitize :
    dGet (normalizeProfile envC9 rawC9) "religion"
        = some (some (PyVal.s "@@")) ∧
      validateField "religion" (some (PyVal.s "@@")) = false ∧
      ¬ sanitizeProfile (normalizeProfile envC9 rawC9)
        = normalizeProfile envC9 rawC9 ∧
      dGet (normalizeProfile envC9 rawC9) "state" = some none := by
  decide

/-- C10 (counterexample): for the raw manglik value `es` — which contains
neither a yes-like nor a no-like token — the output is `Yes`, not the
claimed `Don't Know`: the fallback normaliser fuzzy-matches `es` against
`Yes` at exactly the threshold before the ensure-section runs. -/
theorem claim10_counterexample :
    dGet (normalizeProfile envC10 rawC10) "manglik"
        = some (some (PyVal.s "Yes")) ∧
      ¬ dGet (normalizeProfile envC10 rawC10) "manglik"
        = some (some (PyVal.s "Don\x27t Know")) := by
  decide

/-- C10 (amended): whenever the resolved schema contains `manglik`, the
returned value is present and exactly one of `Yes`, `No`, `Don't Know`, and
it is `Don't Know` whenever the raw manglik value is missing or cleans to
empty; a raw value with no yes- or no-token may however still resolve to
`Yes` or `No` through the fuzzy lookup stage (see the counterexample). -/
theorem claim10_manglik (env : Env) (raw : PDict)
    (hin : (loadSchema env).contains "manglik" = true) :
    (∃ s, s ∈ (["Yes", "No", "Don\x27t Know"] : List String) ∧
      dGet (normalizeProfile env raw) "manglik" = some (some (PyVal.s s))) ∧
    (cleanStr (rawGetPascal raw ["manglik", "Manglik"]) = none →
      dGet (normalizeProfile env raw) "manglik"
        = some (some (PyVal.s "Don\x27t Know"))) := by
  have hpres : (dGet (mkOut (loadSchema env)) "manglik").isSome = true := by
    rw [isSome_dGet_mkOut]
    exact hin
  have hpres6 : (dGet (npMaritalEnforce raw (npMaritalLookup env raw (npGender raw
      (npBirth raw (npAgeDob env raw (npNames raw
        (mkOut (loadSchema env), ([] : Cache)))))))).1 "manglik").isSome = true := by
    simp only [npMaritalEnforce_presence, npMaritalLookup_presence, npGender_presence,
      npBirth_presence, npAgeDob_presence, npNames_presence]
    exact hpres
  constructor
  · have hpres7 : (dGet (npManglikLookup env raw (npMaritalEnforce raw
        (npMaritalLookup env raw (npGender raw (npBirth raw (npAgeDob env raw
          (npNames raw (mkOut (loadSchema env), ([] : Cache))))))))).1
        "manglik").isSome = true := by
      rw [npManglikLookup_presence]
      exact hpres6
    obtain ⟨s, hs, hmem⟩ := manglikEnsure_value raw _ hpres7
    refine ⟨s, hmem, ?_⟩
    rw [manglik_after_ensure]
    exact hs
  · intro hmiss
    rw [manglik_after_ensure]
    exact manglik_missing env raw _ hmiss hpres6

theorem claim10_manglik_witness :
    (∃ s, s ∈ (["Yes", "No", "Don\x27t Know"] : List String) ∧
      dGet (normalizeProfile envC10 ([] : PDict)) "manglik"
        = some (some (PyVal.s s))) ∧
      dGet (normalizeProfile envC10 ([] : PDict)) "manglik"
        = some (some (PyVal.s "Don\x27t Know")) :=
  ⟨(claim10_manglik envC10 [] (by decide)).1,
   (claim10_manglik envC10 [] (by decide)).2 (by decide)⟩

end ETL
